import Mathlib

/-!
# time_in_state.c: per-UID time-in-state and concurrent-time accounting

A shallow embedding of `src/time_in_state.c`.  The two tracepoint programs
`tp_sched_switch` and `tp_cpufreq` become functions on an explicit `State`
holding the eight BPF maps the file declares.

Machine integers are natural numbers; every arithmetic step that can wrap in C
carries an explicit `% 2^w`.

BPF map kinds are modelled by their kernel semantics:

* `ARRAY` with `max_entries = n`: every index below `n` is always present
  (zero-initialised), a lookup or update at an index `≥ n` fails.
* `HASH` with `max_entries = n`: a finite set of keys; an update with
  `BPF_NOEXIST` fails when the key is present or when `n` keys are stored.
* `PERCPU_*`: one value per processor for every stored key; a program reads and
  writes the slot of the processor it runs on.  A key inserted with a zero value
  holds zero in the slot of every processor.

The results of the kernel helpers (`bpf_get_smp_processor_id`, `bpf_ktime_get_ns`,
`bpf_get_current_uid_gid`) are inputs of an event, gathered in `Env`.
-/

namespace TimeInState

/-! ## Constants and record types (lines 19-57) -/

/-- Line 21: number of frequencies tracked in one map entry. -/
abbrev FREQS_PER_ENTRY : Nat := 32

/-- Line 24: number of CPU counts tracked in one map entry. -/
abbrev CPUS_PER_ENTRY : Nat := 8

/-- Lines 26-29: `{uint32_t uid; uint32_t bucket;}`. -/
structure time_key where
  uid : Nat
  bucket : Nat
deriving DecidableEq, Repr

/-- Lines 31-33: `uint64_t ar[FREQS_PER_ENTRY]`. -/
structure time_in_state_val where
  ar : Fin FREQS_PER_ENTRY → Nat

/-- Lines 37-40: `uint64_t active[CPUS_PER_ENTRY]; uint64_t policy[CPUS_PER_ENTRY]`. -/
structure concurrent_val where
  active : Fin CPUS_PER_ENTRY → Nat
  policy : Fin CPUS_PER_ENTRY → Nat

/-- Lines 49-52: `{uint32_t policy; uint32_t freq;}`. -/
structure freq_idx_key where
  policy : Nat
  freq : Nat
deriving DecidableEq, Repr

/-- Lines 59-68: the fields of the `sched_switch` tracepoint record the program reads. -/
structure switch_args where
  prev_pid : Int
  next_pid : Int
deriving DecidableEq, Repr

/-- Lines 149-153: the fields of the `cpu_frequency` tracepoint record. -/
structure cpufreq_args where
  state : Nat
  cpu_id : Nat
deriving DecidableEq, Repr

/-! ## BPF maps -/

/-- A BPF hash map: the stored keys and the value held under each key. -/
structure BpfHash (K : Type) (V : Type) where
  keys : List K
  val : K → V

namespace BpfHash

variable {K V : Type} [DecidableEq K]

/-- The map with no key, every slot reading `d`. -/
def empty (d : V) : BpfHash K V := ⟨[], fun _ => d⟩

/-- `bpf_map_lookup_elem`: `none` is the NULL pointer. -/
def lookup (m : BpfHash K V) (k : K) : Option V :=
  if k ∈ m.keys then some (m.val k) else none

/-- `bpf_map_update_elem(.., BPF_NOEXIST)` on a map of `max_entries` keys:
fails (map unchanged) if the key exists or the map is full. -/
def update_noexist (max_entries : Nat) (m : BpfHash K V) (k : K) (v : V) : BpfHash K V :=
  if k ∈ m.keys then m
  else if m.keys.length < max_entries then ⟨k :: m.keys, Function.update m.val k v⟩
  else m

/-- A store through a pointer obtained from `lookup`. -/
def write (m : BpfHash K V) (k : K) (v : V) : BpfHash K V :=
  ⟨m.keys, Function.update m.val k v⟩

end BpfHash

/-- `bpf_map_lookup_elem` on an `ARRAY` map of `max_entries` slots. -/
def array_lookup {V : Type} (max_entries : Nat) (m : Nat → V) (k : Nat) : Option V :=
  if k < max_entries then some (m k) else none

/-- `bpf_map_update_elem(.., BPF_ANY)` on an `ARRAY` map of `max_entries` slots. -/
def array_update {V : Type} (max_entries : Nat) (m : Nat → V) (k : Nat) (v : V) : Nat → V :=
  if k < max_entries then Function.update m k v else m

/-- The maps of lines 35-57.  Per-CPU maps hold a function from processor id to value. -/
structure State where
  /-- Line 35: `PERCPU_HASH, time_key, time_in_state_val, 1024`. -/
  uid_time_in_state_map : BpfHash time_key (Nat → time_in_state_val)
  /-- Line 42: `PERCPU_HASH, time_key, concurrent_val, 1024`. -/
  uid_concurrent_times_map : BpfHash time_key (Nat → concurrent_val)
  /-- Line 44: `PERCPU_ARRAY, uint32_t, uint64_t, 1`: index, then processor. -/
  cpu_last_update_map : Nat → Nat → Nat
  /-- Line 46: `ARRAY, uint32_t, uint32_t, 1024`. -/
  cpu_policy_map : Nat → Nat
  /-- Line 47: `ARRAY, uint32_t, uint8_t, 1024`. -/
  policy_freq_idx_map : Nat → Nat
  /-- Line 54: `HASH, freq_idx_key, uint8_t, 2048`. -/
  freq_to_idx_map : BpfHash freq_idx_key Nat
  /-- Line 56: `ARRAY, uint32_t, uint32_t, 1`. -/
  nr_active_map : Nat → Nat
  /-- Line 57: `ARRAY, uint32_t, uint32_t, 1024`. -/
  policy_nr_active_map : Nat → Nat

/-- What the kernel helpers return during one run of `tp_sched_switch`. -/
structure Env where
  /-- Result of `bpf_get_smp_processor_id()`. -/
  smp_processor_id : Nat
  /-- Result of `bpf_ktime_get_ns()`. -/
  ktime_ns : Nat
  /-- Result of `bpf_get_current_uid_gid()` (uid in the low 32 bits). -/
  current_uid_gid : Nat
deriving DecidableEq, Repr

/-! ## `tp_sched_switch` (lines 70-147) -/

/-- Lines 120 and 130, 140: the all-zero record. -/
def zero_time_in_state_val : time_in_state_val := ⟨fun _ => 0⟩

/-- Lines 130 and 140: the all-zero record. -/
def zero_concurrent_val : concurrent_val := ⟨fun _ => 0, fun _ => 0⟩

/-- `__sync_fetch_and_add` on a `uint32_t`; `d` is `1` or `2^32 - 1` (that is `-1`). -/
def fetch_and_add32 (x d : Nat) : Nat := (x + d) % 2 ^ 32

/-- Lines 117-123 (and 127-133, 137-143): look the key up and, if it is missing,
insert a zeroed record with `BPF_NOEXIST` and look it up again.  The result is the
map and whether the final pointer is non-NULL.  In the source the pattern is written out
three times. -/
def lookup_or_init {V : Type} (m : BpfHash time_key (Nat → V)) (key : time_key) (zero_val : V) :
    BpfHash time_key (Nat → V) × Bool :=
  match m.lookup key with
  | some _ => (m, true)
  | none =>
    let m1 := m.update_noexist 1024 key (fun _ => zero_val)
    (m1, (m1.lookup key).isSome)

/-- Line 125: `val->ar[freq_idx % FREQS_PER_ENTRY] += delta` on processor `cpu`. -/
def add_ar (cpu freq_idx delta : Nat) (v : Nat → time_in_state_val) : Nat → time_in_state_val :=
  let i : Fin FREQS_PER_ENTRY := ⟨freq_idx % FREQS_PER_ENTRY, Nat.mod_lt _ (by decide)⟩
  Function.update v cpu ⟨Function.update (v cpu).ar i (((v cpu).ar i + delta) % 2 ^ 64)⟩

/-- Line 134: `ct->active[nactive % CPUS_PER_ENTRY] += delta` on processor `cpu`. -/
def add_active (cpu nactive delta : Nat) (v : Nat → concurrent_val) : Nat → concurrent_val :=
  let i : Fin CPUS_PER_ENTRY := ⟨nactive % CPUS_PER_ENTRY, Nat.mod_lt _ (by decide)⟩
  Function.update v cpu
    ⟨Function.update (v cpu).active i (((v cpu).active i + delta) % 2 ^ 64), (v cpu).policy⟩

/-- Line 145: `ct->policy[policy_nactive % CPUS_PER_ENTRY] += delta` on processor `cpu`. -/
def add_policy (cpu policy_nactive delta : Nat) (v : Nat → concurrent_val) :
    Nat → concurrent_val :=
  let i : Fin CPUS_PER_ENTRY := ⟨policy_nactive % CPUS_PER_ENTRY, Nat.mod_lt _ (by decide)⟩
  Function.update v cpu
    ⟨(v cpu).active, Function.update (v cpu).policy i (((v cpu).policy i + delta) % 2 ^ 64)⟩

/-- Lines 117-125: the time-in-state attribution. -/
def time_in_state_add (cpu uid freq_idx delta : Nat)
    (m : BpfHash time_key (Nat → time_in_state_val)) :
    BpfHash time_key (Nat → time_in_state_val) :=
  let key : time_key := ⟨uid, freq_idx / FREQS_PER_ENTRY⟩
  let (m, val) := lookup_or_init m key zero_time_in_state_val
  if val then m.write key (add_ar cpu freq_idx delta (m.val key)) else m

/-- Lines 127-145: the concurrent-time attribution. -/
def concurrent_times_add (cpu uid nactive policy_nactive delta : Nat)
    (m : BpfHash time_key (Nat → concurrent_val)) :
    BpfHash time_key (Nat → concurrent_val) :=
  let key : time_key := ⟨uid, nactive / CPUS_PER_ENTRY⟩
  let (m, ct) := lookup_or_init m key zero_concurrent_val
  let m := if ct then m.write key (add_active cpu nactive delta (m.val key)) else m
  if policy_nactive / CPUS_PER_ENTRY ≠ key.bucket then
    let key : time_key := ⟨uid, policy_nactive / CPUS_PER_ENTRY⟩
    let (m, ct) := lookup_or_init m key zero_concurrent_val
    if ct then m.write key (add_policy cpu policy_nactive delta (m.val key)) else m
  else
    if ct then m.write key (add_policy cpu policy_nactive delta (m.val key)) else m

/-- Line 77: `*last = time`, a store to this processor's slot of the clock entry. -/
def store_last (s : State) (key cpu time : Nat) : State :=
  { s with
    cpu_last_update_map :=
      Function.update s.cpu_last_update_map key
        (Function.update (s.cpu_last_update_map key) cpu time) }

/-- Lines 94-95 (`d = 1`) and 107-108 (`d = 2^32 - 1`, that is `-1`): the two
`__sync_fetch_and_add` calls, on the global counter and on the counter of `policy`. -/
def sync_add_active (s : State) (key policy d : Nat) : State :=
  { s with
    nr_active_map :=
      Function.update s.nr_active_map key (fetch_and_add32 (s.nr_active_map key) d),
    policy_nr_active_map :=
      Function.update s.policy_nr_active_map policy
        (fetch_and_add32 (s.policy_nr_active_map policy) d) }

/-- Lines 116-145: both attributions of `delta`. -/
def account (s : State) (cpu uid freq_idx nactive policy_nactive delta : Nat) : State :=
  { s with
    uid_time_in_state_map := time_in_state_add cpu uid freq_idx delta s.uid_time_in_state_map,
    uid_concurrent_times_map :=
      concurrent_times_add cpu uid nactive policy_nactive delta s.uid_concurrent_times_map }

set_option linter.constructorNameAsVariable false in
/-- Lines 70-147.  The result is the return value and the maps afterwards. -/
def tp_sched_switch (env : Env) (args : switch_args) (s : State) : Int × State :=
  let zero := 0
  match array_lookup 1 s.cpu_last_update_map zero with
  | none => (0, s)
  | some last =>
  let old_last := last env.smp_processor_id
  let time := env.ktime_ns
  let s := store_last s zero env.smp_processor_id time
  match array_lookup 1 s.nr_active_map zero with
  | none => (0, s)
  | some active =>
  let cpu := env.smp_processor_id
  match array_lookup 1024 s.cpu_policy_map cpu with
  | none => (0, s)
  | some policy =>
  match array_lookup 1024 s.policy_nr_active_map policy with
  | none => (0, s)
  | some policy_active =>
  let nactive := (active + (2 ^ 32 - 1)) % 2 ^ 32
  let policy_nactive := (policy_active + (2 ^ 32 - 1)) % 2 ^ 32
  let s :=
    if args.prev_pid = 0 ∨ (old_last = 0 ∧ args.next_pid ≠ 0) then sync_add_active s zero policy 1
    else s
  if args.prev_pid = 0 ∨ old_last = 0 then (0, s) else
  let s := if args.next_pid = 0 then sync_add_active s zero policy (2 ^ 32 - 1) else s
  match array_lookup 1024 s.policy_freq_idx_map policy with
  | none => (0, s)
  | some freq_idxv =>
  if freq_idxv = 0 then (0, s) else
  let freq_idx := (freq_idxv + 255) % 256
  let uid := env.current_uid_gid % 2 ^ 32
  let delta := (time + (2 ^ 64 - old_last % 2 ^ 64)) % 2 ^ 64
  (0, account s cpu uid freq_idx nactive policy_nactive delta)

/-! ## `tp_cpufreq` (lines 155-168) -/

/-- Lines 155-168.  The result is the return value and the maps afterwards. -/
def tp_cpufreq (args : cpufreq_args) (s : State) : Int × State :=
  let cpu := args.cpu_id
  let new := args.state
  match array_lookup 1024 s.cpu_policy_map cpu with
  | none => (0, s)
  | some policy =>
  let key : freq_idx_key := ⟨policy, new⟩
  match s.freq_to_idx_map.lookup key with
  | none => (0, s)
  | some idx =>
  (0, { s with policy_freq_idx_map := array_update 1024 s.policy_freq_idx_map policy idx })

/-! ## Engine start and event sequences -/

/-- The engine at start: every counter, clock and current frequency index is zero and the
two accounting tables are empty.  The topology tables are filled from outside. -/
def fresh (cpu_policy : Nat → Nat) (freq_to_idx : BpfHash freq_idx_key Nat) : State where
  uid_time_in_state_map := BpfHash.empty (fun _ => zero_time_in_state_val)
  uid_concurrent_times_map := BpfHash.empty (fun _ => zero_concurrent_val)
  cpu_last_update_map := fun _ _ => 0
  cpu_policy_map := cpu_policy
  policy_freq_idx_map := fun _ => 0
  freq_to_idx_map := freq_to_idx
  nr_active_map := fun _ => 0
  policy_nr_active_map := fun _ => 0

/-- One tracepoint firing. -/
inductive Event where
  | sched_switch (env : Env) (args : switch_args)
  | cpufreq (args : cpufreq_args)
deriving DecidableEq, Repr

/-- The maps after one event. -/
def step (s : State) : Event → State
  | .sched_switch env args => (tp_sched_switch env args s).2
  | .cpufreq args => (tp_cpufreq args s).2

/-- The maps after a sequence of events, run one after the other. -/
def run (s : State) (es : List Event) : State := es.foldl step s

/-! ## Vocabulary of the properties -/

/-- Lines 93-109 as a function of the counter value `x`: plus one, minus one or nothing,
in 32-bit arithmetic. -/
def active_after (args : switch_args) (old_last x : Nat) : Nat :=
  if args.prev_pid = 0 ∨ (old_last = 0 ∧ args.next_pid ≠ 0) then (x + 1) % 2 ^ 32
  else if args.prev_pid ≠ 0 ∧ old_last ≠ 0 ∧ args.next_pid = 0 then (x + (2 ^ 32 - 1)) % 2 ^ 32
  else x

/-- The clock difference `(now - old_last) mod 2^64` of line 124. -/
def delta_of (now old_last : Nat) : Nat := (now + (2 ^ 64 - old_last % 2 ^ 64)) % 2 ^ 64

/-- The snapshot `(counter - 1) mod 2^32` of lines 90-91. -/
def snapshot (counter : Nat) : Nat := (counter + (2 ^ 32 - 1)) % 2 ^ 32

/-- The owner of an event: the low 32 bits of `bpf_get_current_uid_gid()` (line 116). -/
def uid_of (env : Env) : Nat := env.current_uid_gid % 2 ^ 32

/-- Offset `i mod 32` into `ar`. -/
def freq_off (i : Nat) : Fin FREQS_PER_ENTRY := ⟨i % FREQS_PER_ENTRY, Nat.mod_lt _ (by decide)⟩

/-- Offset `n mod 8` into `active` or `policy`. -/
def cpu_off (n : Nat) : Fin CPUS_PER_ENTRY := ⟨n % CPUS_PER_ENTRY, Nat.mod_lt _ (by decide)⟩

/-- The per-processor record read under `k`; an absent record reads as the zero record `z`,
which is what a record holds when it is created. -/
def record {V : Type} (z : V) (m : BpfHash time_key (Nat → V)) (k : time_key) : Nat → V :=
  (m.lookup k).getD (fun _ => z)

/-- The record under `k` is stored, or the table has a free entry for it. -/
def present_or_creatable {V : Type} (m : BpfHash time_key V) (k : time_key) : Prop :=
  k ∈ m.keys ∨ m.keys.length < 1024

/-- Both concurrent-times records of one event are stored or can be created, the one under
`kg` first and then the one under `kp`. -/
def both_present_or_creatable {V : Type} (m : BpfHash time_key V) (kg kp : time_key) : Prop :=
  (kg ∈ m.keys ∨ m.keys.length < 1024) ∧
    (kp ∈ m.keys ∨ kp = kg ∨
      (if kg ∈ m.keys then m.keys.length else m.keys.length + 1) < 1024)

/-- Find the record under `k`, creating it as `z` on every processor when it is absent and
there is room, and replace it by `f` of itself; do nothing when it cannot be created. -/
def touch {V : Type} (m : BpfHash time_key (Nat → V)) (k : time_key) (z : V)
    (f : (Nat → V) → (Nat → V)) : BpfHash time_key (Nat → V) :=
  if k ∈ m.keys then m.write k (f (m.val k))
  else if m.keys.length < 1024 then ⟨k :: m.keys, Function.update m.val k (f (fun _ => z))⟩
  else m

/-- A warmed-up engine for the examples: every processor is mapped to policy 0 and has seen
an event at clock reading 7, policy 0 runs at the frequency with index 3, and one processor
is counted active. -/
def warm : State :=
  { fresh (fun _ => 0) (BpfHash.empty 0) with
    policy_freq_idx_map := fun _ => 3,
    cpu_last_update_map := fun _ _ => 7,
    nr_active_map := fun _ => 1,
    policy_nr_active_map := fun _ => 1 }

/-- The event reaches lines 116-145: the processor and its policy index the 1024-slot
arrays, there is an outgoing subject and a previous clock reading, and the stored frequency
index of the policy is not 0. -/
def attributes (s : State) (env : Env) (args : switch_args) : Prop :=
  env.smp_processor_id < 1024 ∧ s.cpu_policy_map env.smp_processor_id < 1024 ∧
    args.prev_pid ≠ 0 ∧ s.cpu_last_update_map 0 env.smp_processor_id ≠ 0 ∧
    s.policy_freq_idx_map (s.cpu_policy_map env.smp_processor_id) ≠ 0

instance (s : State) (env : Env) (args : switch_args) : Decidable (attributes s env args) := by
  unfold attributes
  infer_instance

/-- The start of the scenario of C1: the engine at start with every processor mapped to
policy 0 and the frequency with index 3 current on every policy. -/
def scenario_start : State :=
  { fresh (fun _ => 0) (BpfHash.empty 0) with policy_freq_idx_map := fun _ => 3 }

/-- Bookkeeping for the well-formedness of an event sequence: after each switch event the
incoming subject of that event is recorded for its processor. -/
def last_next_after (ln : Nat → Option Int) : List Event → (Nat → Option Int)
  | [] => ln
  | .cpufreq _ :: es => last_next_after ln es
  | .sched_switch env args :: es =>
      last_next_after (Function.update ln env.smp_processor_id (some args.next_pid)) es

/-- A well-formed event sequence on processors `0 .. N-1`, given for each processor the
incoming subject of its latest switch event (`none`: no event yet): every clock reading is
non-zero, no event goes from idle to idle, and the outgoing subject of an event is idle
exactly when the incoming subject of the previous event on that processor was. -/
def well_formed (N : Nat) : (Nat → Option Int) → List Event → Prop
  | _, [] => True
  | ln, .cpufreq _ :: es => well_formed N ln es
  | ln, .sched_switch env args :: es =>
      env.smp_processor_id < N ∧ env.ktime_ns ≠ 0 ∧
        ¬ (args.prev_pid = 0 ∧ args.next_pid = 0) ∧
        (∀ n, ln env.smp_processor_id = some n → (args.prev_pid = 0 ↔ n = 0)) ∧
        well_formed N (Function.update ln env.smp_processor_id (some args.next_pid)) es

/-- Processor `c` is running a subject: its latest switch event brought one in. -/
def busy (ln : Nat → Option Int) (c : Nat) : Bool :=
  match ln c with
  | some n => decide (n ≠ 0)
  | none => false

/-- The contribution of processor `c` to the active counters: 1 when it is busy and both it
and its policy index the 1024-slot arrays, else 0. -/
def act (cp : Nat → Nat) (ln : Nat → Option Int) (c : Nat) : Nat :=
  if c < 1024 ∧ cp c < 1024 ∧ busy ln c = true then 1 else 0

/-- The number of processors among `0 .. N-1` that are mapped to policy-group `G`. -/
def group_size (N : Nat) (cp : Nat → Nat) (G : Nat) : Nat :=
  ((Finset.range N).filter (fun c => array_lookup 1024 cp c = some G)).card

/-- The counters agree with the bookkeeping: the topology is `cp`, a processor has a zero
clock exactly when it has had no event, the global counter is the number of counted
processors and each policy counter is the number of counted processors of that policy. -/
def counters_exact (N : Nat) (cp : Nat → Nat) (ln : Nat → Option Int) (s : State) : Prop :=
  s.cpu_policy_map = cp ∧
    (∀ c, s.cpu_last_update_map 0 c = 0 ↔ ln c = none) ∧
    s.nr_active_map 0 = Finset.sum (Finset.range N) (fun c => act cp ln c) ∧
    ∀ G, s.policy_nr_active_map G =
      Finset.sum (Finset.range N) (fun c => if cp c = G then act cp ln c else 0)

/-- The sum of the 32 accumulators of one record, in the slot of processor `c`. -/
def record_total (v : Nat → time_in_state_val) (c : Nat) : Nat :=
  Finset.sum Finset.univ (fun o : Fin FREQS_PER_ENTRY => (v c).ar o)

/-- The sum of all accumulators of all time-in-state records keyed by owner `U`, in the slot
of processor `c`. -/
def owner_total (m : BpfHash time_key (Nat → time_in_state_val)) (U c : Nat) : Nat :=
  Finset.sum (m.keys.toFinset.filter (fun k => k.uid = U)) (fun k => record_total (m.val k) c)

/-- Processor `P` is mapped to a policy-group which has a stored frequency index, and that
index is not 0. -/
def freq_known (s : State) (P : Nat) : Prop :=
  P < 1024 ∧ s.cpu_policy_map P < 1024 ∧ s.policy_freq_idx_map (s.cpu_policy_map P) ≠ 0

instance (s : State) (P : Nat) : Decidable (freq_known s P) := by
  unfold freq_known
  infer_instance

/-- The time owed to owner `U` by a sequence of events on processor `P`: the sum of
`t_k - t_(k-1)` over the switch events `k` that have a predecessor `k-1` among the switch
events, a non-idle outgoing subject of owner `U`, and a non-zero stored frequency index for
the policy of `P`.  `prev` is the clock reading of the latest switch event; the state is
only read for the topology and the stored frequency index, which `tp_cpufreq` events
change. -/
def owed (U P : Nat) : State → Option Nat → List Event → Nat
  | _, _, [] => 0
  | s, prev, .cpufreq a :: es => owed U P (tp_cpufreq a s).2 prev es
  | s, prev, .sched_switch env args :: es =>
      (match prev with
        | some t0 =>
          if args.prev_pid ≠ 0 ∧ uid_of env = U ∧ freq_known s P then env.ktime_ns - t0 else 0
        | none => 0) + owed U P s (some env.ktime_ns) es

/-- Every switch event of the sequence is on processor `P`, with a non-zero 64-bit clock
reading that is not below the previous one (`prev`, if any). -/
def on_one_cpu (P : Nat) : Option Nat → List Event → Prop
  | _, [] => True
  | prev, .cpufreq _ :: es => on_one_cpu P prev es
  | prev, .sched_switch env _ :: es =>
      env.smp_processor_id = P ∧ env.ktime_ns ≠ 0 ∧ env.ktime_ns < 2 ^ 64 ∧
        (∀ t0, prev = some t0 → t0 ≤ env.ktime_ns) ∧ on_one_cpu P (some env.ktime_ns) es

/-- No table-full failure in the run of `es` from `s`: at every attributing switch event the
time-in-state record it needs is stored or can be created. -/
def never_full : State → List Event → Prop
  | _, [] => True
  | s, .cpufreq a :: es => never_full (tp_cpufreq a s).2 es
  | s, .sched_switch env args :: es =>
      (attributes s env args →
        present_or_creatable s.uid_time_in_state_map
          ⟨uid_of env,
            (s.policy_freq_idx_map (s.cpu_policy_map env.smp_processor_id) + 255) % 256 /
              FREQS_PER_ENTRY⟩) ∧
        never_full (tp_sched_switch env args s).2 es

/-- What holds between the switch events of a run on processor `P`: the clock of `P` is the
latest reading `prev` (0 before the first event), a 64-bit non-zero value; the total of
owner `U` in the slot of `P` does not exceed it; the slots of the other processors are
zero. -/
def conserved (P U : Nat) (prev : Option Nat) (s : State) : Prop :=
  s.cpu_last_update_map 0 P = prev.getD 0 ∧
    (∀ t, prev = some t → t ≠ 0 ∧ t < 2 ^ 64) ∧
    owner_total s.uid_time_in_state_map U P ≤ s.cpu_last_update_map 0 P ∧
    ∀ k c o, c ≠ P → (record zero_time_in_state_val s.uid_time_in_state_map k c).ar o = 0

/-- The sum of the active counters of all policy-groups, that is of the 1024 slots of
`policy_nr_active_map`. -/
def policy_active_sum (s : State) : Nat :=
  Finset.sum (Finset.range 1024) (fun G => s.policy_nr_active_map G)

/-- A full time-in-state table: 1024 records, of owners 2000 to 3023, all zero. -/
def full_table : BpfHash time_key (Nat → time_in_state_val) :=
  ⟨(List.range 1024).map (fun i => ⟨2000 + i, 0⟩), fun _ _ => zero_time_in_state_val⟩

/-- The warmed-up engine with a full time-in-state table that has no record of owner
1000. -/
def crowded : State := { warm with uid_time_in_state_map := full_table }

/-- Adding the interval of this event overflows none of the three accumulators it is added
to (an absent record reading as zero).  The condition is empty when the event does not
attribute time. -/
def no_overflow (s : State) (env : Env) (args : switch_args) : Prop :=
  attributes s env args →
    (record zero_time_in_state_val s.uid_time_in_state_map
        ⟨uid_of env,
          (s.policy_freq_idx_map (s.cpu_policy_map env.smp_processor_id) + 255) % 256 /
            FREQS_PER_ENTRY⟩ env.smp_processor_id).ar
        (freq_off ((s.policy_freq_idx_map (s.cpu_policy_map env.smp_processor_id) + 255) % 256)) +
      delta_of env.ktime_ns (s.cpu_last_update_map 0 env.smp_processor_id) < 2 ^ 64 ∧
    (record zero_concurrent_val s.uid_concurrent_times_map
        ⟨uid_of env, snapshot (s.nr_active_map 0) / CPUS_PER_ENTRY⟩
        env.smp_processor_id).active (cpu_off (snapshot (s.nr_active_map 0))) +
      delta_of env.ktime_ns (s.cpu_last_update_map 0 env.smp_processor_id) < 2 ^ 64 ∧
    (record zero_concurrent_val s.uid_concurrent_times_map
        ⟨uid_of env,
          snapshot (s.policy_nr_active_map (s.cpu_policy_map env.smp_processor_id)) /
            CPUS_PER_ENTRY⟩
        env.smp_processor_id).policy
        (cpu_off (snapshot (s.policy_nr_active_map (s.cpu_policy_map env.smp_processor_id)))) +
      delta_of env.ktime_ns (s.cpu_last_update_map 0 env.smp_processor_id) < 2 ^ 64

instance (s : State) (env : Env) (args : switch_args) : Decidable (no_overflow s env args) := by
  unfold no_overflow
  infer_instance

/-- The condition `no_overflow` for an event of either kind; a `tp_cpufreq` event adds
nothing. -/
def event_no_overflow (s : State) : Event → Prop
  | .sched_switch env args => no_overflow s env args
  | .cpufreq _ => True

/-- The warmed-up engine with one time-in-state record, of owner 1000, whose accumulators
all hold the largest 64-bit value. -/
def brim : State :=
  { warm with uid_time_in_state_map := ⟨[⟨1000, 0⟩], fun _ _ => ⟨fun _ => 2 ^ 64 - 1⟩⟩ }

/-- The sum over the records of owner `U` of a quantity `μ` of the per-processor record. -/
def table_total {V : Type} (μ : (Nat → V) → Nat) (m : BpfHash time_key (Nat → V)) (U : Nat) :
    Nat :=
  Finset.sum (m.keys.toFinset.filter (fun k => k.uid = U)) (fun k => μ (m.val k))

/-- The sum of the 8 accumulators of the `active` array, in the slot of processor `c`. -/
def active_sum (v : Nat → concurrent_val) (c : Nat) : Nat :=
  Finset.sum Finset.univ (fun o : Fin CPUS_PER_ENTRY => (v c).active o)

/-- The sum of the 8 accumulators of the `policy` array, in the slot of processor `c`. -/
def policy_sum (v : Nat → concurrent_val) (c : Nat) : Nat :=
  Finset.sum Finset.univ (fun o : Fin CPUS_PER_ENTRY => (v c).policy o)

/-- The sum of all `active` accumulators of all concurrent-times records keyed by owner `U`,
in the slot of processor `c`. -/
def active_total (m : BpfHash time_key (Nat → concurrent_val)) (U c : Nat) : Nat :=
  table_total (fun v => active_sum v c) m U

/-- The sum of all `policy` accumulators of all concurrent-times records keyed by owner `U`,
in the slot of processor `c`. -/
def policy_total (m : BpfHash time_key (Nat → concurrent_val)) (U c : Nat) : Nat :=
  table_total (fun v => policy_sum v c) m U

/-- No record creation fails in the run of `es` from `s`: at every attributing switch event
the time-in-state record and the concurrent-times records it needs are stored or can be
created. -/
def never_fails : State → List Event → Prop
  | _, [] => True
  | s, .cpufreq a :: es => never_fails (tp_cpufreq a s).2 es
  | s, .sched_switch env args :: es =>
      (attributes s env args →
        present_or_creatable s.uid_time_in_state_map
          ⟨uid_of env,
            (s.policy_freq_idx_map (s.cpu_policy_map env.smp_processor_id) + 255) % 256 /
              FREQS_PER_ENTRY⟩ ∧
        both_present_or_creatable s.uid_concurrent_times_map
          ⟨uid_of env, snapshot (s.nr_active_map 0) / CPUS_PER_ENTRY⟩
          ⟨uid_of env,
            snapshot (s.policy_nr_active_map (s.cpu_policy_map env.smp_processor_id)) /
              CPUS_PER_ENTRY⟩) ∧
        never_fails (tp_sched_switch env args s).2 es

/-- The three totals of owner `U` in the slot of processor `c` agree modulo 2^64. -/
def totals_agree (s : State) (U c : Nat) : Prop :=
  owner_total s.uid_time_in_state_map U c % 2 ^ 64 =
      active_total s.uid_concurrent_times_map U c % 2 ^ 64 ∧
    active_total s.uid_concurrent_times_map U c % 2 ^ 64 =
      policy_total s.uid_concurrent_times_map U c % 2 ^ 64

/-- A full concurrent-times table: 1024 records, of owners 2000 to 3023, all zero. -/
def full_concurrent_table : BpfHash time_key (Nat → concurrent_val) :=
  ⟨(List.range 1024).map (fun i => ⟨2000 + i, 0⟩), fun _ _ => zero_concurrent_val⟩

/-- The warmed-up engine with a full concurrent-times table that has no record of owner
1000; its time-in-state table is empty. -/
def packed : State := { warm with uid_concurrent_times_map := full_concurrent_table }

/-! # Theorems -/

/-! ## The wrap-around arithmetic -/

/-- `snapshot c` is `c - 1` reduced modulo `2^32`. -/
theorem snapshot_eq_sub_one_mod (c : Nat) : (snapshot c : Int) = ((c : Int) - 1) % 2 ^ 32 := by
  unfold snapshot
  omega

/-- `delta_of now old_last` is `now - old_last` reduced modulo `2^64`. -/
theorem delta_of_eq_sub_mod (now old_last : Nat) :
    (delta_of now old_last : Int) = ((now : Int) - (old_last : Int)) % 2 ^ 64 := by
  unfold delta_of
  omega

/-- With a clock that has not gone backwards, `delta_of` is the plain difference. -/
theorem delta_of_eq_sub (now old_last : Nat) (h : old_last ≤ now) (hnow : now < 2 ^ 64) :
    delta_of now old_last = now - old_last := by
  unfold delta_of
  omega

/-! ## Projections of the state updates -/

section projections

variable (s : State) (key cpu time policy d uid freq_idx nactive policy_nactive delta : Nat)

@[simp] theorem store_last_clock :
    (store_last s key cpu time).cpu_last_update_map =
      Function.update s.cpu_last_update_map key
        (Function.update (s.cpu_last_update_map key) cpu time) := rfl
@[simp] theorem store_last_tis :
    (store_last s key cpu time).uid_time_in_state_map = s.uid_time_in_state_map := rfl
@[simp] theorem store_last_conc :
    (store_last s key cpu time).uid_concurrent_times_map = s.uid_concurrent_times_map := rfl
@[simp] theorem store_last_cpu_policy :
    (store_last s key cpu time).cpu_policy_map = s.cpu_policy_map := rfl
@[simp] theorem store_last_freq_idx :
    (store_last s key cpu time).policy_freq_idx_map = s.policy_freq_idx_map := rfl
@[simp] theorem store_last_freq_to_idx :
    (store_last s key cpu time).freq_to_idx_map = s.freq_to_idx_map := rfl
@[simp] theorem store_last_nr_active :
    (store_last s key cpu time).nr_active_map = s.nr_active_map := rfl
@[simp] theorem store_last_policy_nr_active :
    (store_last s key cpu time).policy_nr_active_map = s.policy_nr_active_map := rfl

@[simp] theorem sync_add_active_clock :
    (sync_add_active s key policy d).cpu_last_update_map = s.cpu_last_update_map := rfl
@[simp] theorem sync_add_active_tis :
    (sync_add_active s key policy d).uid_time_in_state_map = s.uid_time_in_state_map := rfl
@[simp] theorem sync_add_active_conc :
    (sync_add_active s key policy d).uid_concurrent_times_map = s.uid_concurrent_times_map :=
  rfl
@[simp] theorem sync_add_active_cpu_policy :
    (sync_add_active s key policy d).cpu_policy_map = s.cpu_policy_map := rfl
@[simp] theorem sync_add_active_freq_idx :
    (sync_add_active s key policy d).policy_freq_idx_map = s.policy_freq_idx_map := rfl
@[simp] theorem sync_add_active_freq_to_idx :
    (sync_add_active s key policy d).freq_to_idx_map = s.freq_to_idx_map := rfl
@[simp] theorem sync_add_active_nr_active :
    (sync_add_active s key policy d).nr_active_map =
      Function.update s.nr_active_map key (fetch_and_add32 (s.nr_active_map key) d) := rfl
@[simp] theorem sync_add_active_policy_nr_active :
    (sync_add_active s key policy d).policy_nr_active_map =
      Function.update s.policy_nr_active_map policy
        (fetch_and_add32 (s.policy_nr_active_map policy) d) := rfl

@[simp] theorem account_clock :
    (account s cpu uid freq_idx nactive policy_nactive delta).cpu_last_update_map =
      s.cpu_last_update_map := rfl
@[simp] theorem account_tis :
    (account s cpu uid freq_idx nactive policy_nactive delta).uid_time_in_state_map =
      time_in_state_add cpu uid freq_idx delta s.uid_time_in_state_map := rfl
@[simp] theorem account_conc :
    (account s cpu uid freq_idx nactive policy_nactive delta).uid_concurrent_times_map =
      concurrent_times_add cpu uid nactive policy_nactive delta s.uid_concurrent_times_map :=
  rfl
@[simp] theorem account_cpu_policy :
    (account s cpu uid freq_idx nactive policy_nactive delta).cpu_policy_map =
      s.cpu_policy_map := rfl
@[simp] theorem account_freq_idx :
    (account s cpu uid freq_idx nactive policy_nactive delta).policy_freq_idx_map =
      s.policy_freq_idx_map := rfl
@[simp] theorem account_freq_to_idx :
    (account s cpu uid freq_idx nactive policy_nactive delta).freq_to_idx_map =
      s.freq_to_idx_map := rfl
@[simp] theorem account_nr_active :
    (account s cpu uid freq_idx nactive policy_nactive delta).nr_active_map =
      s.nr_active_map := rfl
@[simp] theorem account_policy_nr_active :
    (account s cpu uid freq_idx nactive policy_nactive delta).policy_nr_active_map =
      s.policy_nr_active_map := rfl

end projections

/-- The handler as one case distinction: the clock store always happens; the counters move
only when both the processor and its policy index the 1024-slot arrays; the attribution
needs, on top, a previous subject, a previous clock reading and a non-zero frequency index. -/
theorem tp_sched_switch_cases (env : Env) (args : switch_args) (s : State) :
    tp_sched_switch env args s =
      (0,
        let cpu := env.smp_processor_id
        let policy := s.cpu_policy_map cpu
        let old_last := s.cpu_last_update_map 0 cpu
        let s1 := store_last s 0 cpu env.ktime_ns
        if cpu < 1024 ∧ policy < 1024 then
          if args.prev_pid = 0 ∨ old_last = 0 then
            if args.prev_pid = 0 ∨ args.next_pid ≠ 0 then sync_add_active s1 0 policy 1 else s1
          else
            let s2 := if args.next_pid = 0 then sync_add_active s1 0 policy (2 ^ 32 - 1) else s1
            if s.policy_freq_idx_map policy = 0 then s2
            else
              account s2 cpu (env.current_uid_gid % 2 ^ 32)
                ((s.policy_freq_idx_map policy + 255) % 256)
                ((s.nr_active_map 0 + (2 ^ 32 - 1)) % 2 ^ 32)
                ((s.policy_nr_active_map policy + (2 ^ 32 - 1)) % 2 ^ 32)
                ((env.ktime_ns + (2 ^ 64 - old_last % 2 ^ 64)) % 2 ^ 64)
        else s1) := by
  simp only [tp_sched_switch, array_lookup]
  by_cases hc : env.smp_processor_id < 1024
  · by_cases hp : s.cpu_policy_map env.smp_processor_id < 1024
    · by_cases h1 : args.prev_pid = 0
      · simp [hc, hp, h1]
      · by_cases h2 : s.cpu_last_update_map 0 env.smp_processor_id = 0
        · by_cases h3 : args.next_pid = 0 <;> simp [hc, hp, h1, h2, h3]
        · by_cases h3 : args.next_pid = 0 <;>
            by_cases h4 : s.policy_freq_idx_map (s.cpu_policy_map env.smp_processor_id) = 0 <;>
            simp [hc, hp, h1, h2, h3, h4]
    · simp [hc, hp]
  · simp [hc]

/-! ## The lookup-or-create pattern -/

theorem lookup_or_init_eq {V : Type} (m : BpfHash time_key (Nat → V)) (k : time_key) (z : V) :
    lookup_or_init m k z =
      if k ∈ m.keys then (m, true)
      else if m.keys.length < 1024 then
        (⟨k :: m.keys, Function.update m.val k (fun _ => z)⟩, true)
      else (m, false) := by
  unfold lookup_or_init BpfHash.lookup BpfHash.update_noexist
  split_ifs <;> simp_all

theorem time_in_state_add_eq (cpu uid freq_idx delta : Nat)
    (m : BpfHash time_key (Nat → time_in_state_val)) :
    time_in_state_add cpu uid freq_idx delta m =
      touch m ⟨uid, freq_idx / FREQS_PER_ENTRY⟩ zero_time_in_state_val
        (add_ar cpu freq_idx delta) := by
  unfold time_in_state_add touch
  simp only [lookup_or_init_eq]
  by_cases h1 : (⟨uid, freq_idx / FREQS_PER_ENTRY⟩ : time_key) ∈ m.keys
  · simp [h1]
  · by_cases h2 : m.keys.length < 1024 <;> simp [h1, h2, BpfHash.write]

theorem concurrent_times_add_eq (cpu uid nactive policy_nactive delta : Nat)
    (m : BpfHash time_key (Nat → concurrent_val)) :
    concurrent_times_add cpu uid nactive policy_nactive delta m =
      touch
        (touch m ⟨uid, nactive / CPUS_PER_ENTRY⟩ zero_concurrent_val
          (add_active cpu nactive delta))
        ⟨uid, policy_nactive / CPUS_PER_ENTRY⟩ zero_concurrent_val
        (add_policy cpu policy_nactive delta) := by
  unfold concurrent_times_add
  simp only [lookup_or_init_eq]
  generalize add_active cpu nactive delta = fa
  generalize add_policy cpu policy_nactive delta = fp
  generalize policy_nactive / CPUS_PER_ENTRY = bp
  generalize nactive / CPUS_PER_ENTRY = bg
  by_cases hb : bp = bg
  · subst hb
    by_cases h1 : (⟨uid, bp⟩ : time_key) ∈ m.keys
    · simp [touch, h1, BpfHash.write]
    · by_cases h2 : m.keys.length < 1024
      · simp [touch, h1, h2, BpfHash.write]
      · simp [touch, h1, h2]
  · have hne : (⟨uid, bp⟩ : time_key) ≠ ⟨uid, bg⟩ := by
      intro h
      exact hb (congrArg time_key.bucket h)
    by_cases h1 : (⟨uid, bg⟩ : time_key) ∈ m.keys
    · by_cases h3 : (⟨uid, bp⟩ : time_key) ∈ m.keys
      · simp [touch, h1, h3, hb, BpfHash.write]
      · by_cases h2 : m.keys.length < 1024 <;> simp [touch, h1, h2, h3, hb, BpfHash.write]
    · by_cases h2 : m.keys.length < 1024
      · by_cases h3 : (⟨uid, bp⟩ : time_key) ∈ m.keys
        · simp [touch, h1, h2, h3, hb, hne, BpfHash.write]
        · by_cases h4 : m.keys.length + 1 < 1024 <;>
            simp [touch, h1, h2, h3, h4, hb, hne, BpfHash.write]
      · by_cases h3 : (⟨uid, bp⟩ : time_key) ∈ m.keys <;> simp [touch, h1, h2, h3, hb]

theorem touch_full {V : Type} (m : BpfHash time_key (Nat → V)) (k : time_key) (z : V)
    (f : (Nat → V) → (Nat → V)) (h : ¬ present_or_creatable m k) : touch m k z f = m := by
  unfold present_or_creatable at h
  unfold touch
  split_ifs <;> simp_all

theorem touch_keys {V : Type} (m : BpfHash time_key (Nat → V)) (k : time_key) (z : V)
    (f : (Nat → V) → (Nat → V)) :
    (touch m k z f).keys =
      if k ∈ m.keys ∨ ¬ m.keys.length < 1024 then m.keys else k :: m.keys := by
  unfold touch
  split_ifs <;> simp_all [BpfHash.write]

theorem touch_lookup {V : Type} (m : BpfHash time_key (Nat → V)) (k : time_key) (z : V)
    (f : (Nat → V) → (Nat → V)) (h : present_or_creatable m k) (k' : time_key) :
    (touch m k z f).lookup k' = if k' = k then some (f (record z m k)) else m.lookup k' := by
  unfold present_or_creatable at h
  unfold touch record BpfHash.lookup
  by_cases hk : k' = k
  · subst hk
    split_ifs <;> simp_all [BpfHash.write]
  · split_ifs <;> simp_all [BpfHash.write, Function.update_apply]

theorem touch_touch_lookup {V : Type} (m : BpfHash time_key (Nat → V)) (kg kp : time_key)
    (z : V) (fa fp : (Nat → V) → (Nat → V)) (h : both_present_or_creatable m kg kp)
    (k : time_key) :
    (touch (touch m kg z fa) kp z fp).lookup k =
      if k = kp then some (fp (if kp = kg then fa (record z m kg) else record z m kp))
      else if k = kg then some (fa (record z m kg)) else m.lookup k := by
  have h1 : present_or_creatable m kg := h.1
  have h2 : present_or_creatable (touch m kg z fa) kp := by
    unfold present_or_creatable
    rw [touch_keys]
    rcases h.2 with h2 | h2 | h2
    · left
      split_ifs
      · exact h2
      · exact List.mem_cons_of_mem _ h2
    · left
      subst h2
      split_ifs with h3
      · rcases h3 with h3 | h3
        · exact h3
        · rcases h1 with h1 | h1
          · exact h1
          · exact absurd h1 h3
      · exact List.mem_cons_self _ _
    · right
      by_cases h3 : kg ∈ m.keys
      · simpa [h3] using h2
      · rw [if_neg h3] at h2
        split_ifs
        · omega
        · simpa using h2
  rw [touch_lookup _ _ _ _ h2]
  have hr : record z (touch m kg z fa) kp =
      if kp = kg then fa (record z m kg) else record z m kp := by
    unfold record
    rw [touch_lookup _ _ _ _ h1]
    split_ifs <;> rfl
  rw [hr, touch_lookup _ _ _ _ h1]

theorem add_active_active (cpu n d : Nat) (v : Nat → concurrent_val) (c : Nat)
    (o : Fin CPUS_PER_ENTRY) :
    (add_active cpu n d v c).active o =
      if c = cpu ∧ o = cpu_off n then ((v c).active o + d) % 2 ^ 64 else (v c).active o := by
  unfold add_active cpu_off
  by_cases hc : c = cpu
  · subst hc
    by_cases ho : o = ⟨n % CPUS_PER_ENTRY, Nat.mod_lt _ (by decide)⟩
    · subst ho
      simp
    · simp [ho, Function.update_apply]
  · simp [hc, Function.update_apply]

theorem add_active_policy (cpu n d : Nat) (v : Nat → concurrent_val) (c : Nat) :
    (add_active cpu n d v c).policy = (v c).policy := by
  unfold add_active
  by_cases hc : c = cpu
  · subst hc
    simp
  · simp [hc, Function.update_apply]

theorem add_policy_policy (cpu n d : Nat) (v : Nat → concurrent_val) (c : Nat)
    (o : Fin CPUS_PER_ENTRY) :
    (add_policy cpu n d v c).policy o =
      if c = cpu ∧ o = cpu_off n then ((v c).policy o + d) % 2 ^ 64 else (v c).policy o := by
  unfold add_policy cpu_off
  by_cases hc : c = cpu
  · subst hc
    by_cases ho : o = ⟨n % CPUS_PER_ENTRY, Nat.mod_lt _ (by decide)⟩
    · subst ho
      simp
    · simp [ho, Function.update_apply]
  · simp [hc, Function.update_apply]

theorem add_policy_active (cpu n d : Nat) (v : Nat → concurrent_val) (c : Nat) :
    (add_policy cpu n d v c).active = (v c).active := by
  unfold add_policy
  by_cases hc : c = cpu
  · subst hc
    simp
  · simp [hc, Function.update_apply]

/-- What a read of the concurrent-times table gives after lines 127-145, when the needed
records are stored or can be created. -/
theorem concurrent_times_add_record (cpu uid g p d : Nat)
    (m : BpfHash time_key (Nat → concurrent_val))
    (h : both_present_or_creatable m ⟨uid, g / CPUS_PER_ENTRY⟩ ⟨uid, p / CPUS_PER_ENTRY⟩)
    (k : time_key) :
    record zero_concurrent_val (concurrent_times_add cpu uid g p d m) k =
      if k = ⟨uid, p / CPUS_PER_ENTRY⟩ then
        add_policy cpu p d
          (if (⟨uid, p / CPUS_PER_ENTRY⟩ : time_key) = ⟨uid, g / CPUS_PER_ENTRY⟩ then
            add_active cpu g d (record zero_concurrent_val m ⟨uid, g / CPUS_PER_ENTRY⟩)
          else record zero_concurrent_val m ⟨uid, p / CPUS_PER_ENTRY⟩)
      else if k = ⟨uid, g / CPUS_PER_ENTRY⟩ then
        add_active cpu g d (record zero_concurrent_val m ⟨uid, g / CPUS_PER_ENTRY⟩)
      else record zero_concurrent_val m k := by
  rw [concurrent_times_add_eq]
  conv_lhs => unfold record
  rw [touch_touch_lookup _ _ _ _ _ _ h]
  split_ifs <;> simp [record]

/-- Lines 127-145 when both snapshots fall in the same bucket and when they do not. -/
theorem concurrent_times_add_sharing (cpu uid g p d : Nat)
    (m : BpfHash time_key (Nat → concurrent_val))
    (h : both_present_or_creatable m ⟨uid, g / CPUS_PER_ENTRY⟩ ⟨uid, p / CPUS_PER_ENTRY⟩) :
    (g / CPUS_PER_ENTRY = p / CPUS_PER_ENTRY →
      (∀ k, k ≠ ⟨uid, g / CPUS_PER_ENTRY⟩ →
        (concurrent_times_add cpu uid g p d m).lookup k = m.lookup k) ∧
      ((concurrent_times_add cpu uid g p d m).lookup ⟨uid, g / CPUS_PER_ENTRY⟩).isSome = true ∧
      (record zero_concurrent_val (concurrent_times_add cpu uid g p d m)
          ⟨uid, g / CPUS_PER_ENTRY⟩ cpu).active (cpu_off g) =
        ((record zero_concurrent_val m ⟨uid, g / CPUS_PER_ENTRY⟩ cpu).active (cpu_off g) + d) %
          2 ^ 64 ∧
      (record zero_concurrent_val (concurrent_times_add cpu uid g p d m)
          ⟨uid, g / CPUS_PER_ENTRY⟩ cpu).policy (cpu_off p) =
        ((record zero_concurrent_val m ⟨uid, g / CPUS_PER_ENTRY⟩ cpu).policy (cpu_off p) + d) %
          2 ^ 64) ∧
    (g / CPUS_PER_ENTRY ≠ p / CPUS_PER_ENTRY →
      (⟨uid, g / CPUS_PER_ENTRY⟩ : time_key) ≠ ⟨uid, p / CPUS_PER_ENTRY⟩ ∧
      (∀ k, k ≠ ⟨uid, g / CPUS_PER_ENTRY⟩ → k ≠ ⟨uid, p / CPUS_PER_ENTRY⟩ →
        (concurrent_times_add cpu uid g p d m).lookup k = m.lookup k) ∧
      ((concurrent_times_add cpu uid g p d m).lookup ⟨uid, g / CPUS_PER_ENTRY⟩).isSome = true ∧
      ((concurrent_times_add cpu uid g p d m).lookup ⟨uid, p / CPUS_PER_ENTRY⟩).isSome = true ∧
      (record zero_concurrent_val (concurrent_times_add cpu uid g p d m)
          ⟨uid, g / CPUS_PER_ENTRY⟩ cpu).active (cpu_off g) =
        ((record zero_concurrent_val m ⟨uid, g / CPUS_PER_ENTRY⟩ cpu).active (cpu_off g) + d) %
          2 ^ 64 ∧
      (∀ c, (record zero_concurrent_val (concurrent_times_add cpu uid g p d m)
          ⟨uid, g / CPUS_PER_ENTRY⟩ c).policy =
        (record zero_concurrent_val m ⟨uid, g / CPUS_PER_ENTRY⟩ c).policy) ∧
      (record zero_concurrent_val (concurrent_times_add cpu uid g p d m)
          ⟨uid, p / CPUS_PER_ENTRY⟩ cpu).policy (cpu_off p) =
        ((record zero_concurrent_val m ⟨uid, p / CPUS_PER_ENTRY⟩ cpu).policy (cpu_off p) + d) %
          2 ^ 64 ∧
      (∀ c, (record zero_concurrent_val (concurrent_times_add cpu uid g p d m)
          ⟨uid, p / CPUS_PER_ENTRY⟩ c).active =
        (record zero_concurrent_val m ⟨uid, p / CPUS_PER_ENTRY⟩ c).active)) := by
  have hl := touch_touch_lookup m ⟨uid, g / CPUS_PER_ENTRY⟩ ⟨uid, p / CPUS_PER_ENTRY⟩
    zero_concurrent_val (add_active cpu g d) (add_policy cpu p d) h
  rw [← concurrent_times_add_eq] at hl
  have hr := concurrent_times_add_record cpu uid g p d m h
  constructor
  · intro hb
    rw [← hb] at hl hr
    refine ⟨fun k hk => ?_, ?_, ?_, ?_⟩
    · rw [hl, if_neg hk, if_neg hk]
    · rw [hl, if_pos rfl]
      rfl
    · rw [hr, if_pos rfl, if_pos rfl, add_policy_active, add_active_active]
      simp
    · rw [hr, if_pos rfl, if_pos rfl, add_policy_policy, add_active_policy]
      simp
  · intro hb
    have hne : (⟨uid, g / CPUS_PER_ENTRY⟩ : time_key) ≠ ⟨uid, p / CPUS_PER_ENTRY⟩ := by
      intro hk
      exact hb (congrArg time_key.bucket hk)
    refine ⟨hne, fun k hkg hkp => ?_, ?_, ?_, ?_, fun c => ?_, ?_, fun c => ?_⟩
    · rw [hl, if_neg hkp, if_neg hkg]
    · rw [hl, if_neg hne, if_pos rfl]
      rfl
    · rw [hl, if_pos rfl]
      rfl
    · rw [hr, if_neg hne, if_pos rfl, add_active_active]
      simp
    · rw [hr, if_neg hne, if_pos rfl, add_active_policy]
    · rw [hr, if_pos rfl, if_neg hne.symm, add_policy_policy]
      simp
    · rw [hr, if_pos rfl, if_neg hne.symm, add_policy_active]

/-- On the attributing path the two accounting tables are the results of lines 116-145 and
nothing else of the handler touches them. -/
theorem tp_sched_switch_attributes (env : Env) (args : switch_args) (s : State) (G sidx : Nat)
    (hmap : array_lookup 1024 s.cpu_policy_map env.smp_processor_id = some G)
    (hprev : args.prev_pid ≠ 0)
    (hold : s.cpu_last_update_map 0 env.smp_processor_id ≠ 0)
    (hidx : array_lookup 1024 s.policy_freq_idx_map G = some sidx)
    (h0 : sidx ≠ 0) :
    (tp_sched_switch env args s).2.uid_time_in_state_map =
        time_in_state_add env.smp_processor_id (uid_of env) ((sidx + 255) % 256)
          (delta_of env.ktime_ns (s.cpu_last_update_map 0 env.smp_processor_id))
          s.uid_time_in_state_map ∧
      (tp_sched_switch env args s).2.uid_concurrent_times_map =
        concurrent_times_add env.smp_processor_id (uid_of env)
          (snapshot (s.nr_active_map 0)) (snapshot (s.policy_nr_active_map G))
          (delta_of env.ktime_ns (s.cpu_last_update_map 0 env.smp_processor_id))
          s.uid_concurrent_times_map := by
  simp only [array_lookup] at hmap hidx
  have hc : env.smp_processor_id < 1024 := by
    by_contra hc
    simp [hc] at hmap
  simp only [hc, if_true, Option.some.injEq] at hmap
  subst hmap
  have hp : s.cpu_policy_map env.smp_processor_id < 1024 := by
    by_contra hp
    simp [hp] at hidx
  simp only [hp, if_true, Option.some.injEq] at hidx
  subst hidx
  rw [tp_sched_switch_cases]
  dsimp only
  simp only [hc, hp, hprev, hold, h0, and_self, or_self, if_true, if_false]
  split_ifs <;> simp [uid_of, snapshot, delta_of]

/-! ## What one switch event does to each map -/

theorem tp_sched_switch_cpu_policy (env : Env) (args : switch_args) (s : State) :
    (tp_sched_switch env args s).2.cpu_policy_map = s.cpu_policy_map := by
  rw [tp_sched_switch_cases]
  dsimp only
  split_ifs <;> simp

theorem tp_sched_switch_freq_idx (env : Env) (args : switch_args) (s : State) :
    (tp_sched_switch env args s).2.policy_freq_idx_map = s.policy_freq_idx_map := by
  rw [tp_sched_switch_cases]
  dsimp only
  split_ifs <;> simp

theorem tp_sched_switch_freq_to_idx (env : Env) (args : switch_args) (s : State) :
    (tp_sched_switch env args s).2.freq_to_idx_map = s.freq_to_idx_map := by
  rw [tp_sched_switch_cases]
  dsimp only
  split_ifs <;> simp

theorem tp_sched_switch_clock (env : Env) (args : switch_args) (s : State) :
    (tp_sched_switch env args s).2.cpu_last_update_map =
      Function.update s.cpu_last_update_map 0
        (Function.update (s.cpu_last_update_map 0) env.smp_processor_id env.ktime_ns) := by
  rw [tp_sched_switch_cases]
  dsimp only
  split_ifs <;> simp

theorem tp_sched_switch_tis (env : Env) (args : switch_args) (s : State) :
    (tp_sched_switch env args s).2.uid_time_in_state_map =
      if attributes s env args then
        time_in_state_add env.smp_processor_id (uid_of env)
          ((s.policy_freq_idx_map (s.cpu_policy_map env.smp_processor_id) + 255) % 256)
          (delta_of env.ktime_ns (s.cpu_last_update_map 0 env.smp_processor_id))
          s.uid_time_in_state_map
      else s.uid_time_in_state_map := by
  rw [tp_sched_switch_cases]
  unfold attributes
  dsimp only
  by_cases hc : env.smp_processor_id < 1024
  · by_cases hp : s.cpu_policy_map env.smp_processor_id < 1024
    · by_cases h1 : args.prev_pid = 0
      · simp [hc, hp, h1]
      · by_cases h2 : s.cpu_last_update_map 0 env.smp_processor_id = 0
        · by_cases h3 : args.next_pid = 0 <;> simp [hc, hp, h1, h2, h3]
        · by_cases h3 : args.next_pid = 0 <;>
            by_cases h4 : s.policy_freq_idx_map (s.cpu_policy_map env.smp_processor_id) = 0 <;>
            simp [hc, hp, h1, h2, h3, h4, uid_of, delta_of]
    · simp [hc, hp]
  · simp [hc]

theorem tp_cpufreq_cases (args : cpufreq_args) (s : State) :
    tp_cpufreq args s =
      (0,
        if args.cpu_id < 1024 ∧ s.cpu_policy_map args.cpu_id < 1024 ∧
            (⟨s.cpu_policy_map args.cpu_id, args.state⟩ : freq_idx_key) ∈
              s.freq_to_idx_map.keys then
          { s with
            policy_freq_idx_map :=
              Function.update s.policy_freq_idx_map (s.cpu_policy_map args.cpu_id)
                (s.freq_to_idx_map.val ⟨s.cpu_policy_map args.cpu_id, args.state⟩) }
        else s) := by
  unfold tp_cpufreq array_lookup array_update BpfHash.lookup
  by_cases hc : args.cpu_id < 1024
  · by_cases hk : (⟨s.cpu_policy_map args.cpu_id, args.state⟩ : freq_idx_key) ∈
        s.freq_to_idx_map.keys
    · by_cases hp : s.cpu_policy_map args.cpu_id < 1024 <;> simp [hc, hk, hp]
    · simp [hc, hk]
  · simp [hc]

/-! ## Counting the active processors -/

theorem tp_sched_switch_nr_active (env : Env) (args : switch_args) (s : State) :
    (tp_sched_switch env args s).2.nr_active_map 0 =
      if env.smp_processor_id < 1024 ∧ s.cpu_policy_map env.smp_processor_id < 1024 then
        active_after args (s.cpu_last_update_map 0 env.smp_processor_id) (s.nr_active_map 0)
      else s.nr_active_map 0 := by
  rw [tp_sched_switch_cases]
  dsimp only
  unfold active_after
  by_cases hc : env.smp_processor_id < 1024
  · by_cases hp : s.cpu_policy_map env.smp_processor_id < 1024
    · by_cases h1 : args.prev_pid = 0
      · simp [hc, hp, h1, fetch_and_add32]
      · by_cases h2 : s.cpu_last_update_map 0 env.smp_processor_id = 0
        · by_cases h3 : args.next_pid = 0 <;> simp [hc, hp, h1, h2, h3, fetch_and_add32]
        · by_cases h3 : args.next_pid = 0 <;>
            by_cases h4 : s.policy_freq_idx_map (s.cpu_policy_map env.smp_processor_id) = 0 <;>
            simp [hc, hp, h1, h2, h3, h4, fetch_and_add32]
    · simp [hc, hp]
  · simp [hc]

theorem tp_sched_switch_policy_nr_active (env : Env) (args : switch_args) (s : State)
    (G : Nat) :
    (tp_sched_switch env args s).2.policy_nr_active_map G =
      if env.smp_processor_id < 1024 ∧ s.cpu_policy_map env.smp_processor_id < 1024 ∧
          s.cpu_policy_map env.smp_processor_id = G then
        active_after args (s.cpu_last_update_map 0 env.smp_processor_id)
          (s.policy_nr_active_map G)
      else s.policy_nr_active_map G := by
  rw [tp_sched_switch_cases]
  dsimp only
  unfold active_after
  by_cases hc : env.smp_processor_id < 1024
  · by_cases hp : s.cpu_policy_map env.smp_processor_id < 1024
    · by_cases hG : s.cpu_policy_map env.smp_processor_id = G
      · subst hG
        by_cases h1 : args.prev_pid = 0
        · simp [hc, hp, h1, fetch_and_add32]
        · by_cases h2 : s.cpu_last_update_map 0 env.smp_processor_id = 0
          · by_cases h3 : args.next_pid = 0 <;> simp [hc, hp, h1, h2, h3, fetch_and_add32]
          · by_cases h3 : args.next_pid = 0 <;>
              by_cases h4 :
                s.policy_freq_idx_map (s.cpu_policy_map env.smp_processor_id) = 0 <;>
              simp [hc, hp, h1, h2, h3, h4, fetch_and_add32]
      · have hG' : G ≠ s.cpu_policy_map env.smp_processor_id := fun h => hG h.symm
        by_cases h1 : args.prev_pid = 0
        · simp [hc, hp, h1, hG, hG', Function.update_apply]
        · by_cases h2 : s.cpu_last_update_map 0 env.smp_processor_id = 0
          · by_cases h3 : args.next_pid = 0 <;>
              simp [hc, hp, h1, h2, h3, hG, hG', Function.update_apply]
          · by_cases h3 : args.next_pid = 0 <;>
              by_cases h4 :
                s.policy_freq_idx_map (s.cpu_policy_map env.smp_processor_id) = 0 <;>
              simp [hc, hp, h1, h2, h3, h4, hG, hG', Function.update_apply]
    · simp [hc, hp]
  · simp [hc]

/-- Changing a summand at one index changes the sum by the difference there. -/
theorem sum_change {α : Type} [DecidableEq α] (S : Finset α) (c : α) (f f' : α → Nat)
    (hc : c ∈ S) (h : ∀ x, x ≠ c → f' x = f x) :
    Finset.sum S f' + f c = Finset.sum S f + f' c := by
  rw [← Finset.add_sum_erase _ f hc, ← Finset.add_sum_erase _ f' hc]
  have : Finset.sum (S.erase c) f' = Finset.sum (S.erase c) f :=
    Finset.sum_congr rfl (fun x hx => h x (Finset.ne_of_mem_erase hx))
  rw [this]
  ring

/-- At most 1024 summands can be non-zero when each is at most 1 and vanishes from index
1024 on. -/
theorem sum_range_le_1024 (N : Nat) (f : Nat → Nat)
    (h : ∀ x, f x ≤ if x < 1024 then 1 else 0) :
    Finset.sum (Finset.range N) f ≤ 1024 := by
  calc Finset.sum (Finset.range N) f
      ≤ Finset.sum (Finset.range N) (fun x => if x < 1024 then 1 else 0) :=
        Finset.sum_le_sum (fun x _ => h x)
    _ = ((Finset.range N).filter (fun x => x < 1024)).card := by
        rw [Finset.card_filter]
    _ ≤ (Finset.range 1024).card := by
        apply Finset.card_le_card
        intro x hx
        rw [Finset.mem_filter] at hx
        exact Finset.mem_range.mpr hx.2
    _ = 1024 := Finset.card_range 1024

/-- The counter arithmetic of lines 93-109 tracks a count: when the processor contributed
`a` before and contributes `a'` after, the 32-bit update of the counter `x` is the new
count. -/
theorem active_after_count (args : switch_args) (old x a a' n : Nat)
    (ha : a = if old ≠ 0 ∧ args.prev_pid ≠ 0 then 1 else 0)
    (ha' : a' = if args.next_pid ≠ 0 then 1 else 0)
    (hni : ¬ (args.prev_pid = 0 ∧ args.next_pid = 0))
    (hsum : n + a = x + a') (hb : n ≤ 1024) :
    active_after args old x = n := by
  subst ha ha'
  unfold active_after
  by_cases h1 : args.prev_pid = 0
  · have h3 : args.next_pid ≠ 0 := fun h => hni ⟨h1, h⟩
    simp [h1, h3] at hsum ⊢
    omega
  · by_cases h2 : old = 0
    · by_cases h3 : args.next_pid = 0
      · simp [h1, h2, h3] at hsum ⊢
        omega
      · simp [h1, h2, h3] at hsum ⊢
        omega
    · by_cases h3 : args.next_pid = 0
      · simp [h1, h2, h3] at hsum ⊢
        omega
      · simp [h1, h2, h3] at hsum ⊢
        omega

theorem act_update_of_ne (cp : Nat → Nat) (ln : Nat → Option Int) (c x : Nat) (v : Option Int)
    (hx : x ≠ c) : act cp (Function.update ln c v) x = act cp ln x := by
  unfold act busy
  rw [Function.update_noteq hx]

theorem act_le (cp : Nat → Nat) (ln : Nat → Option Int) (x : Nat) :
    act cp ln x ≤ if x < 1024 then 1 else 0 := by
  unfold act
  split_ifs <;> omega

/-- One switch event on processor `c` and the count of busy processors selected by `sel`:
the 32-bit update of lines 93-109, applied when `c` is selected and counted, gives the count
after the event. -/
theorem count_step (N : Nat) (cp : Nat → Nat) (ln : Nat → Option Int) (args : switch_args)
    (c old : Nat) (sel : Nat → Prop) [DecidablePred sel]
    (hc : c < N) (hold : old = 0 ↔ ln c = none)
    (hni : ¬ (args.prev_pid = 0 ∧ args.next_pid = 0))
    (hwf : ∀ n, ln c = some n → (args.prev_pid = 0 ↔ n = 0)) :
    (if c < 1024 ∧ cp c < 1024 ∧ sel c then
        active_after args old
          (Finset.sum (Finset.range N) (fun y => if sel y then act cp ln y else 0))
      else Finset.sum (Finset.range N) (fun y => if sel y then act cp ln y else 0)) =
      Finset.sum (Finset.range N)
        (fun y => if sel y then act cp (Function.update ln c (some args.next_pid)) y else 0) := by
  have hoff : ∀ x, x ≠ c →
      (fun y => if sel y then act cp (Function.update ln c (some args.next_pid)) y else 0) x =
      (fun y => if sel y then act cp ln y else 0) x := by
    intro x hx
    simp only [act_update_of_ne cp ln c x _ hx]
  have hch := sum_change (Finset.range N) c _ _ (Finset.mem_range.mpr hc) hoff
  simp only at hch
  by_cases helig : c < 1024 ∧ cp c < 1024 ∧ sel c
  · rw [if_pos helig]
    refine active_after_count args old _ _ _ _ ?_ ?_ hni hch ?_
    · rw [if_pos helig.2.2]
      unfold act busy
      cases hl : ln c with
      | none =>
        have : old = 0 := hold.mpr hl
        simp [this]
      | some n =>
        have h1 : old ≠ 0 := fun h => by
          have := hold.mp h
          rw [hl] at this
          exact Option.noConfusion this
        have h2 := hwf n hl
        by_cases hn : n = 0
        · have : args.prev_pid = 0 := h2.mpr hn
          simp [hn, this]
        · have : args.prev_pid ≠ 0 := fun h => hn (h2.mp h)
          simp [hn, this, h1, helig.1, helig.2.1]
    · rw [if_pos helig.2.2]
      unfold act busy
      simp [helig.1, helig.2.1]
    · apply sum_range_le_1024
      intro x
      split_ifs with h1 h2
      · exact le_trans (act_le _ _ _) (by simp [h2])
      · exact le_trans (act_le _ _ _) (by simp [h2])
      · omega
      · omega
  · rw [if_neg helig]
    have h0 : (if sel c then act cp ln c else 0) = 0 := by
      by_cases hs : sel c
      · rw [if_pos hs]
        unfold act
        rw [if_neg]
        intro h
        exact helig ⟨h.1, h.2.1, hs⟩
      · rw [if_neg hs]
    have h0' : (if sel c then act cp (Function.update ln c (some args.next_pid)) c else 0) = 0 := by
      by_cases hs : sel c
      · rw [if_pos hs]
        unfold act
        rw [if_neg]
        intro h
        exact helig ⟨h.1, h.2.1, hs⟩
      · rw [if_neg hs]
    rw [h0, h0'] at hch
    omega

theorem counters_exact_switch (N : Nat) (cp : Nat → Nat) (ln : Nat → Option Int) (s : State)
    (env : Env) (args : switch_args) (hinv : counters_exact N cp ln s)
    (hc : env.smp_processor_id < N) (ht : env.ktime_ns ≠ 0)
    (hni : ¬ (args.prev_pid = 0 ∧ args.next_pid = 0))
    (hwf : ∀ n, ln env.smp_processor_id = some n → (args.prev_pid = 0 ↔ n = 0)) :
    counters_exact N cp (Function.update ln env.smp_processor_id (some args.next_pid))
      (tp_sched_switch env args s).2 := by
  obtain ⟨h1, h2, h3, h4⟩ := hinv
  refine ⟨?_, ?_, ?_, ?_⟩
  · rw [tp_sched_switch_cpu_policy, h1]
  · intro c
    rw [tp_sched_switch_clock]
    by_cases hcc : c = env.smp_processor_id
    · subst hcc
      simp [ht]
    · simp [Function.update_noteq hcc, h2 c]
  · rw [tp_sched_switch_nr_active, h1, h3]
    have h := count_step N cp ln args env.smp_processor_id
      (s.cpu_last_update_map 0 env.smp_processor_id) (fun _ => True) hc
      (h2 env.smp_processor_id) hni hwf
    simpa using h
  · intro G
    rw [tp_sched_switch_policy_nr_active, h1, h4]
    exact count_step N cp ln args env.smp_processor_id
      (s.cpu_last_update_map 0 env.smp_processor_id) (fun y => cp y = G) hc
      (h2 env.smp_processor_id) hni hwf

theorem counters_exact_cpufreq (N : Nat) (cp : Nat → Nat) (ln : Nat → Option Int) (s : State)
    (args : cpufreq_args) (hinv : counters_exact N cp ln s) :
    counters_exact N cp ln (tp_cpufreq args s).2 := by
  rw [tp_cpufreq_cases]
  dsimp only
  split_ifs
  · exact hinv
  · exact hinv

theorem counters_exact_run (N : Nat) (cp : Nat → Nat) (es : List Event) :
    ∀ (ln : Nat → Option Int) (s : State), counters_exact N cp ln s → well_formed N ln es →
      counters_exact N cp (last_next_after ln es) (run s es) := by
  induction es with
  | nil =>
    intro ln s hinv _
    exact hinv
  | cons e es ih =>
    intro ln s hinv hwf
    cases e with
    | sched_switch env args =>
      obtain ⟨hc, ht, hni, hw, hrest⟩ := hwf
      exact ih _ _ (counters_exact_switch N cp ln s env args hinv hc ht hni hw) hrest
    | cpufreq args =>
      exact ih _ _ (counters_exact_cpufreq N cp ln s args hinv) hwf

theorem well_formed_of_append (N : Nat) (pre suf : List Event) :
    ∀ ln : Nat → Option Int, well_formed N ln (pre ++ suf) → well_formed N ln pre := by
  induction pre with
  | nil =>
    intro ln _
    trivial
  | cons e pre ih =>
    intro ln hwf
    cases e with
    | sched_switch env args =>
      obtain ⟨hc, ht, hni, hw, hrest⟩ := hwf
      exact ⟨hc, ht, hni, hw, ih _ hrest⟩
    | cpufreq args =>
      exact ih _ hwf

theorem counters_exact_fresh (N : Nat) (cp : Nat → Nat) (f2i : BpfHash freq_idx_key Nat) :
    counters_exact N cp (fun _ => none) (fresh cp f2i) := by
  refine ⟨rfl, fun c => ⟨fun _ => rfl, fun _ => rfl⟩, ?_, fun G => ?_⟩
  · simp [fresh, act, busy]
  · simp [fresh, act, busy]

/-! ## Totals per owner -/

theorem add_ar_other (P fi d : Nat) (v : Nat → time_in_state_val) (c : Nat) (hc : c ≠ P) :
    add_ar P fi d v c = v c := by
  unfold add_ar
  simp [Function.update_noteq hc]

theorem le_record_total (v : Nat → time_in_state_val) (c : Nat) (o : Fin FREQS_PER_ENTRY) :
    (v c).ar o ≤ record_total v c := by
  unfold record_total
  exact Finset.single_le_sum (f := fun o => (v c).ar o) (fun _ _ => Nat.zero_le _)
    (Finset.mem_univ o)

theorem record_total_add_ar (P fi d : Nat) (v : Nat → time_in_state_val)
    (h : (v P).ar (freq_off fi) + d < 2 ^ 64) :
    record_total (add_ar P fi d v) P = record_total v P + d := by
  unfold record_total add_ar
  simp only [Function.update_same]
  have hch := sum_change Finset.univ (freq_off fi) (fun o => (v P).ar o)
    (fun o => Function.update (v P).ar (freq_off fi) (((v P).ar (freq_off fi) + d) % 2 ^ 64) o)
    (Finset.mem_univ _) (fun x hx => Function.update_noteq hx _ _)
  simp only [Function.update_same] at hch
  rw [Nat.mod_eq_of_lt h] at hch
  unfold freq_off at hch h
  rw [Nat.mod_eq_of_lt h]
  omega

theorem record_le_owner_total (m : BpfHash time_key (Nat → time_in_state_val)) (U c : Nat)
    (k : time_key) (hk : k ∈ m.keys) (hU : k.uid = U) :
    record_total (m.val k) c ≤ owner_total m U c := by
  unfold owner_total
  exact Finset.single_le_sum (f := fun k => record_total (m.val k) c)
    (fun _ _ => Nat.zero_le _)
    (Finset.mem_filter.mpr ⟨List.mem_toFinset.mpr hk, hU⟩)

/-- Lines 117-125 add `d` to the total of the owner of the key and to no other owner's
total, when the record is stored or can be created and the accumulator does not overflow. -/
theorem owner_total_touch (m : BpfHash time_key (Nat → time_in_state_val)) (k : time_key)
    (P fi d U : Nat) (hroom : present_or_creatable m k)
    (hno : k.uid = U → (record zero_time_in_state_val m k P).ar (freq_off fi) + d < 2 ^ 64) :
    owner_total (touch m k zero_time_in_state_val (add_ar P fi d)) U P =
      owner_total m U P + if k.uid = U then d else 0 := by
  unfold owner_total
  by_cases hk : k ∈ m.keys
  · have ht : touch m k zero_time_in_state_val (add_ar P fi d) =
        m.write k (add_ar P fi d (m.val k)) := by
      unfold touch
      rw [if_pos hk]
    rw [ht]
    simp only [BpfHash.write]
    by_cases hU : k.uid = U
    · rw [if_pos hU]
      have hrec : record zero_time_in_state_val m k = m.val k := by
        unfold record BpfHash.lookup
        rw [if_pos hk]
        rfl
      have hno' := hno hU
      rw [hrec] at hno'
      have hch := sum_change (m.keys.toFinset.filter (fun k => k.uid = U)) k
        (fun k' => record_total (m.val k') P)
        (fun k' => record_total (Function.update m.val k (add_ar P fi d (m.val k)) k') P)
        (Finset.mem_filter.mpr ⟨List.mem_toFinset.mpr hk, hU⟩)
        (fun x hx => by simp only [Function.update_noteq hx])
      simp only [Function.update_same] at hch
      rw [record_total_add_ar P fi d (m.val k) hno'] at hch
      omega
    · rw [if_neg hU, Nat.add_zero]
      apply Finset.sum_congr rfl
      intro x hx
      have hxk : x ≠ k := by
        intro h
        rw [Finset.mem_filter] at hx
        exact hU (h ▸ hx.2)
      rw [Function.update_noteq hxk]
  · have hlen : m.keys.length < 1024 := by
      rcases hroom with h | h
      · exact absurd h hk
      · exact h
    have ht : touch m k zero_time_in_state_val (add_ar P fi d) =
        ⟨k :: m.keys, Function.update m.val k (add_ar P fi d (fun _ => zero_time_in_state_val))⟩ := by
      unfold touch
      rw [if_neg hk, if_pos hlen]
    rw [ht]
    simp only [List.toFinset_cons, Finset.filter_insert]
    have hsame : ∀ x ∈ m.keys.toFinset.filter (fun k => k.uid = U),
        record_total (Function.update m.val k
          (add_ar P fi d (fun _ => zero_time_in_state_val)) x) P = record_total (m.val x) P := by
      intro x hx
      have hxk : x ≠ k := by
        intro h
        rw [Finset.mem_filter, List.mem_toFinset] at hx
        exact hk (h ▸ hx.1)
      rw [Function.update_noteq hxk]
    by_cases hU : k.uid = U
    · rw [if_pos hU, if_pos hU]
      have hnot : k ∉ m.keys.toFinset.filter (fun k => k.uid = U) := by
        intro h
        rw [Finset.mem_filter, List.mem_toFinset] at h
        exact hk h.1
      rw [Finset.sum_insert hnot, Finset.sum_congr rfl hsame, Function.update_same]
      have hrec : record zero_time_in_state_val m k = fun _ => zero_time_in_state_val := by
        unfold record BpfHash.lookup
        rw [if_neg hk]
        rfl
      have hno' := hno hU
      rw [hrec] at hno'
      rw [record_total_add_ar P fi d _ hno']
      have hz : record_total (fun _ => zero_time_in_state_val) P = 0 := by
        simp [record_total, zero_time_in_state_val]
      rw [hz]
      omega
    · rw [if_neg hU, if_neg hU, Nat.add_zero]
      exact Finset.sum_congr rfl hsame

theorem conserved_switch (P U : Nat) (prev : Option Nat) (s σ : State) (env : Env)
    (args : switch_args)
    (h1 : σ.cpu_policy_map = s.cpu_policy_map)
    (h2 : σ.policy_freq_idx_map = s.policy_freq_idx_map)
    (hinv : conserved P U prev s) (hcpu : env.smp_processor_id = P)
    (ht0 : env.ktime_ns ≠ 0) (ht : env.ktime_ns < 2 ^ 64)
    (hmono : ∀ t0, prev = some t0 → t0 ≤ env.ktime_ns)
    (hroom : attributes s env args →
      present_or_creatable s.uid_time_in_state_map
        ⟨uid_of env,
          (s.policy_freq_idx_map (s.cpu_policy_map env.smp_processor_id) + 255) % 256 /
            FREQS_PER_ENTRY⟩) :
    conserved P U (some env.ktime_ns) (tp_sched_switch env args s).2 ∧
      owner_total (tp_sched_switch env args s).2.uid_time_in_state_map U P =
        owner_total s.uid_time_in_state_map U P +
          (match prev with
            | some t0 =>
              if args.prev_pid ≠ 0 ∧ uid_of env = U ∧ freq_known σ P then env.ktime_ns - t0
              else 0
            | none => 0) := by
  obtain ⟨hclk, hprev, hle, hz⟩ := hinv
  subst hcpu
  have hclk' : (tp_sched_switch env args s).2.cpu_last_update_map 0 env.smp_processor_id =
      env.ktime_ns := by
    rw [tp_sched_switch_clock]
    simp
  unfold conserved
  rw [hclk', tp_sched_switch_tis]
  by_cases hatt : attributes s env args
  · rw [if_pos hatt, time_in_state_add_eq]
    have hr := hroom hatt
    obtain ⟨hc, hp, hpp, hold, hidx⟩ := hatt
    cases prev with
    | none =>
      exact absurd hclk hold
    | some t0 =>
      simp only [Option.getD_some] at hclk
      have ht0le := hmono t0 rfl
      have hd : delta_of env.ktime_ns (s.cpu_last_update_map 0 env.smp_processor_id) =
          env.ktime_ns - t0 := by
        rw [hclk]
        unfold delta_of
        omega
      rw [hd]
      have hno : (⟨uid_of env,
            (s.policy_freq_idx_map (s.cpu_policy_map env.smp_processor_id) + 255) % 256 /
              FREQS_PER_ENTRY⟩ : time_key).uid = U →
          (record zero_time_in_state_val s.uid_time_in_state_map
            ⟨uid_of env,
              (s.policy_freq_idx_map (s.cpu_policy_map env.smp_processor_id) + 255) % 256 /
                FREQS_PER_ENTRY⟩ env.smp_processor_id).ar
              (freq_off
                ((s.policy_freq_idx_map (s.cpu_policy_map env.smp_processor_id) + 255) % 256)) +
            (env.ktime_ns - t0) < 2 ^ 64 := by
        intro hU
        have hacc : (record zero_time_in_state_val s.uid_time_in_state_map
            ⟨uid_of env,
              (s.policy_freq_idx_map (s.cpu_policy_map env.smp_processor_id) + 255) % 256 /
                FREQS_PER_ENTRY⟩ env.smp_processor_id).ar
              (freq_off
                ((s.policy_freq_idx_map (s.cpu_policy_map env.smp_processor_id) + 255) % 256)) ≤
            t0 := by
          unfold record BpfHash.lookup
          split_ifs with hk
          · simp only [Option.getD_some]
            calc _ ≤ record_total _ env.smp_processor_id := le_record_total _ _ _
              _ ≤ owner_total s.uid_time_in_state_map U env.smp_processor_id :=
                record_le_owner_total _ _ _ _ hk hU
              _ ≤ t0 := by
                rw [← hclk]
                exact hle
          · simp [zero_time_in_state_val]
        omega
      have htot := owner_total_touch s.uid_time_in_state_map _ env.smp_processor_id
        ((s.policy_freq_idx_map (s.cpu_policy_map env.smp_processor_id) + 255) % 256)
        (env.ktime_ns - t0) U hr hno
      have hfk : freq_known σ env.smp_processor_id := by
        unfold freq_known
        rw [h1, h2]
        exact ⟨hc, hp, hidx⟩
      refine ⟨⟨rfl, ?_, ?_, ?_⟩, ?_⟩
      · intro t hteq
        cases hteq
        exact ⟨ht0, ht⟩
      · rw [htot]
        rw [hclk] at hle
        split_ifs <;> omega
      · intro k c o hco
        unfold record
        rw [touch_lookup _ _ _ _ hr]
        split_ifs with hk
        · simp only [Option.getD_some]
          rw [add_ar_other _ _ _ _ _ hco]
          exact hz _ c o hco
        · exact hz k c o hco
      · rw [htot]
        simp only [hpp, hfk, ne_eq, not_false_eq_true, true_and, and_true]
  · rw [if_neg hatt]
    have hterm : (match prev with
        | some t0 =>
          if args.prev_pid ≠ 0 ∧ uid_of env = U ∧ freq_known σ env.smp_processor_id then
            env.ktime_ns - t0
          else 0
        | none => 0) = 0 := by
      cases prev with
      | none => rfl
      | some t0 =>
        simp only [Option.getD_some] at hclk
        have hne := (hprev t0 rfl).1
        have : ¬ (args.prev_pid ≠ 0 ∧ uid_of env = U ∧ freq_known σ env.smp_processor_id) := by
          rintro ⟨hpp, -, hfk⟩
          unfold freq_known at hfk
          rw [h1, h2] at hfk
          apply hatt
          refine ⟨hfk.1, hfk.2.1, hpp, ?_, hfk.2.2⟩
          rw [hclk]
          exact hne
        simp only [this, if_false]
    rw [hterm]
    refine ⟨⟨rfl, ?_, ?_, hz⟩, rfl⟩
    · intro t hteq
      cases hteq
      exact ⟨ht0, ht⟩
    · cases prev with
      | none =>
        simp only [Option.getD_none] at hclk
        rw [hclk] at hle
        omega
      | some t0 =>
        simp only [Option.getD_some] at hclk
        have := hmono t0 rfl
        rw [hclk] at hle
        omega

theorem conserved_cpufreq (P U : Nat) (prev : Option Nat) (s : State) (args : cpufreq_args)
    (hinv : conserved P U prev s) : conserved P U prev (tp_cpufreq args s).2 := by
  rw [tp_cpufreq_cases]
  dsimp only
  split_ifs
  · exact hinv
  · exact hinv

theorem tp_cpufreq_topology (args : cpufreq_args) (s σ : State)
    (h1 : σ.cpu_policy_map = s.cpu_policy_map)
    (h2 : σ.policy_freq_idx_map = s.policy_freq_idx_map)
    (h3 : σ.freq_to_idx_map = s.freq_to_idx_map) :
    (tp_cpufreq args σ).2.cpu_policy_map = (tp_cpufreq args s).2.cpu_policy_map ∧
      (tp_cpufreq args σ).2.policy_freq_idx_map = (tp_cpufreq args s).2.policy_freq_idx_map ∧
      (tp_cpufreq args σ).2.freq_to_idx_map = (tp_cpufreq args s).2.freq_to_idx_map := by
  rw [tp_cpufreq_cases, tp_cpufreq_cases]
  dsimp only
  rw [h1, h3]
  split_ifs
  · simp [h1, h2, h3]
  · simp [h1, h2, h3]

theorem tp_cpufreq_tis (args : cpufreq_args) (s : State) :
    (tp_cpufreq args s).2.uid_time_in_state_map = s.uid_time_in_state_map := by
  rw [tp_cpufreq_cases]
  dsimp only
  split_ifs <;> rfl

/-- Conservation, from any state between two switch events on. -/
theorem owner_total_run (P U : Nat) (es : List Event) :
    ∀ (s σ : State) (prev : Option Nat),
      σ.cpu_policy_map = s.cpu_policy_map →
      σ.policy_freq_idx_map = s.policy_freq_idx_map →
      σ.freq_to_idx_map = s.freq_to_idx_map →
      conserved P U prev s → on_one_cpu P prev es → never_full s es →
      owner_total (run s es).uid_time_in_state_map U P =
          owner_total s.uid_time_in_state_map U P + owed U P σ prev es ∧
        ∀ k c o, c ≠ P →
          (record zero_time_in_state_val (run s es).uid_time_in_state_map k c).ar o = 0 := by
  induction es with
  | nil =>
    intro s σ prev _ _ _ hinv _ _
    exact ⟨rfl, hinv.2.2.2⟩
  | cons e es ih =>
    intro s σ prev h1 h2 h3 hinv hcpu hfull
    cases e with
    | cpufreq a =>
      obtain ⟨g1, g2, g3⟩ := tp_cpufreq_topology a s σ h1 h2 h3
      have := ih (tp_cpufreq a s).2 (tp_cpufreq a σ).2 prev g1 g2 g3
        (conserved_cpufreq P U prev s a hinv) hcpu hfull
      rw [tp_cpufreq_tis] at this
      exact this
    | sched_switch env args =>
      obtain ⟨hP, ht0, ht, hmono, hrest⟩ := hcpu
      obtain ⟨hroom, hfull'⟩ := hfull
      obtain ⟨hinv', htot⟩ :=
        conserved_switch P U prev s σ env args h1 h2 hinv hP ht0 ht hmono hroom
      have := ih (tp_sched_switch env args s).2 σ (some env.ktime_ns)
        (by rw [tp_sched_switch_cpu_policy, h1])
        (by rw [tp_sched_switch_freq_idx, h2])
        (by rw [tp_sched_switch_freq_to_idx, h3]) hinv' hrest hfull'
      refine ⟨?_, this.2⟩
      have e1 := this.1
      rw [htot] at e1
      show owner_total (run (tp_sched_switch env args s).2 es).uid_time_in_state_map U P = _
      rw [e1]
      simp only [owed]
      omega

/-! ## The global counter against the policy counters -/

/-- One switch event keeps the global counter congruent to the sum of the policy counters:
both move by the same step, or neither moves. -/
theorem counters_agree_switch (env : Env) (args : switch_args) (s : State)
    (h : s.nr_active_map 0 = policy_active_sum s % 2 ^ 32) :
    (tp_sched_switch env args s).2.nr_active_map 0 =
      policy_active_sum (tp_sched_switch env args s).2 % 2 ^ 32 := by
  unfold policy_active_sum at h ⊢
  rw [tp_sched_switch_nr_active]
  by_cases helig : env.smp_processor_id < 1024 ∧ s.cpu_policy_map env.smp_processor_id < 1024
  · rw [if_pos helig]
    have hch := sum_change (Finset.range 1024) (s.cpu_policy_map env.smp_processor_id)
      (fun G => s.policy_nr_active_map G)
      (fun G => (tp_sched_switch env args s).2.policy_nr_active_map G)
      (Finset.mem_range.mpr helig.2)
      (fun x hx => by
        simp only [tp_sched_switch_policy_nr_active]
        rw [if_neg]
        intro hcon
        exact hx hcon.2.2.symm)
    have hG : (tp_sched_switch env args s).2.policy_nr_active_map
        (s.cpu_policy_map env.smp_processor_id) =
        active_after args (s.cpu_last_update_map 0 env.smp_processor_id)
          (s.policy_nr_active_map (s.cpu_policy_map env.smp_processor_id)) := by
      rw [tp_sched_switch_policy_nr_active, if_pos ⟨helig.1, helig.2, rfl⟩]
    dsimp only at hch
    rw [hG] at hch
    unfold active_after at hch ⊢
    split_ifs at hch ⊢ <;> omega
  · rw [if_neg helig]
    have hsame : ∀ G, (tp_sched_switch env args s).2.policy_nr_active_map G =
        s.policy_nr_active_map G := by
      intro G
      rw [tp_sched_switch_policy_nr_active, if_neg]
      intro hcon
      exact helig ⟨hcon.1, hcon.2.1⟩
    simp only [hsame]
    exact h

theorem counters_agree_run (es : List Event) :
    ∀ s : State, s.nr_active_map 0 = policy_active_sum s % 2 ^ 32 →
      (run s es).nr_active_map 0 = policy_active_sum (run s es) % 2 ^ 32 := by
  induction es with
  | nil =>
    intro s h
    exact h
  | cons e es ih =>
    intro s h
    cases e with
    | sched_switch env args =>
      exact ih _ (counters_agree_switch env args s h)
    | cpufreq a =>
      apply ih
      show (tp_cpufreq a s).2.nr_active_map 0 = policy_active_sum (tp_cpufreq a s).2 % 2 ^ 32
      rw [tp_cpufreq_cases]
      dsimp only
      split_ifs
      · exact h
      · exact h

/-! ## The snapshots taken at an attributing event -/

theorem well_formed_append (N : Nat) (pre rest : List Event) :
    ∀ ln : Nat → Option Int, well_formed N ln (pre ++ rest) →
      well_formed N (last_next_after ln pre) rest := by
  induction pre with
  | nil =>
    intro ln h
    exact h
  | cons e pre ih =>
    intro ln h
    cases e with
    | sched_switch env args =>
      exact ih _ h.2.2.2.2
    | cpufreq a =>
      exact ih _ h

theorem count_le (N : Nat) (cp : Nat → Nat) (ln : Nat → Option Int) :
    Finset.sum (Finset.range N) (fun c => act cp ln c) ≤ N := by
  calc Finset.sum (Finset.range N) (fun c => act cp ln c)
      ≤ Finset.sum (Finset.range N) (fun _ => 1) := by
        apply Finset.sum_le_sum
        intro x _
        unfold act
        split_ifs <;> omega
    _ = N := by simp

theorem policy_count_le (N : Nat) (cp : Nat → Nat) (ln : Nat → Option Int) (G : Nat) :
    Finset.sum (Finset.range N) (fun c => if cp c = G then act cp ln c else 0) ≤
      group_size N cp G := by
  unfold group_size
  rw [Finset.card_filter]
  apply Finset.sum_le_sum
  intro x _
  unfold act array_lookup
  by_cases hx : x < 1024
  · by_cases hG : cp x = G
    · simp only [hx, hG, if_true]
      split_ifs <;> omega
    · simp [hG]
  · simp [hx]

theorem policy_act_le (cp : Nat → Nat) (ln : Nat → Option Int) (G x : Nat) :
    (if cp x = G then act cp ln x else 0) ≤ if x < 1024 then 1 else 0 := by
  by_cases h : cp x = G
  · rw [if_pos h]
    exact act_le cp ln x
  · rw [if_neg h]
    exact Nat.zero_le _

/-- A counter that counts the executing processor among others: its snapshot is the count
of the others, without wrap-around. -/
theorem snapshot_of_count (N c : Nat) (f : Nat → Nat) (hc : c < N) (hf : f c = 1)
    (hle : ∀ x, f x ≤ if x < 1024 then 1 else 0) :
    snapshot (Finset.sum (Finset.range N) f) + 1 = Finset.sum (Finset.range N) f ∧
      snapshot (Finset.sum (Finset.range N) f) = Finset.sum ((Finset.range N).erase c) f := by
  have h1 : f c + Finset.sum ((Finset.range N).erase c) f = Finset.sum (Finset.range N) f :=
    Finset.add_sum_erase (Finset.range N) f (Finset.mem_range.mpr hc)
  have h2 := sum_range_le_1024 N f hle
  rw [hf] at h1
  unfold snapshot
  constructor
  · omega
  · omega

/-- At an attributing event of a well-formed run the executing processor is counted. -/
theorem act_of_attributes (N : Nat) (cp : Nat → Nat) (ln : Nat → Option Int) (s : State)
    (env : Env) (args : switch_args) (hinv : counters_exact N cp ln s)
    (hw : ∀ n, ln env.smp_processor_id = some n → (args.prev_pid = 0 ↔ n = 0))
    (hatt : attributes s env args) : act cp ln env.smp_processor_id = 1 := by
  obtain ⟨h1, h2, -, -⟩ := hinv
  obtain ⟨hc, hp, hpp, hold, -⟩ := hatt
  rw [h1] at hp
  unfold act busy
  cases hl : ln env.smp_processor_id with
  | none => exact absurd ((h2 _).mpr hl) hold
  | some n =>
    have hn : n ≠ 0 := fun h => hpp ((hw n hl).mpr h)
    simp [hc, hp, hn]

theorem tp_sched_switch_conc (env : Env) (args : switch_args) (s : State) :
    (tp_sched_switch env args s).2.uid_concurrent_times_map =
      if attributes s env args then
        concurrent_times_add env.smp_processor_id (uid_of env)
          (snapshot (s.nr_active_map 0))
          (snapshot (s.policy_nr_active_map (s.cpu_policy_map env.smp_processor_id)))
          (delta_of env.ktime_ns (s.cpu_last_update_map 0 env.smp_processor_id))
          s.uid_concurrent_times_map
      else s.uid_concurrent_times_map := by
  rw [tp_sched_switch_cases]
  unfold attributes
  dsimp only
  by_cases hc : env.smp_processor_id < 1024
  · by_cases hp : s.cpu_policy_map env.smp_processor_id < 1024
    · by_cases h1 : args.prev_pid = 0
      · simp [hc, hp, h1]
      · by_cases h2 : s.cpu_last_update_map 0 env.smp_processor_id = 0
        · by_cases h3 : args.next_pid = 0 <;> simp [hc, hp, h1, h2, h3]
        · by_cases h3 : args.next_pid = 0 <;>
            by_cases h4 : s.policy_freq_idx_map (s.cpu_policy_map env.smp_processor_id) = 0 <;>
            simp [hc, hp, h1, h2, h3, h4, uid_of, delta_of, snapshot]
    · simp [hc, hp]
  · simp [hc]

theorem tp_sched_switch_ret (env : Env) (args : switch_args) (s : State) :
    (tp_sched_switch env args s).1 = 0 := by
  rw [tp_sched_switch_cases]

/-- Lines 127-145 add `d` to the two accumulators they aim at, when the records are stored
or can be created. -/
theorem concurrent_times_add_targets (cpu uid g p d : Nat)
    (m : BpfHash time_key (Nat → concurrent_val))
    (h : both_present_or_creatable m ⟨uid, g / CPUS_PER_ENTRY⟩ ⟨uid, p / CPUS_PER_ENTRY⟩) :
    (record zero_concurrent_val (concurrent_times_add cpu uid g p d m)
          ⟨uid, g / CPUS_PER_ENTRY⟩ cpu).active (cpu_off g) =
        ((record zero_concurrent_val m ⟨uid, g / CPUS_PER_ENTRY⟩ cpu).active (cpu_off g) + d) %
          2 ^ 64 ∧
      (record zero_concurrent_val (concurrent_times_add cpu uid g p d m)
          ⟨uid, p / CPUS_PER_ENTRY⟩ cpu).policy (cpu_off p) =
        ((record zero_concurrent_val m ⟨uid, p / CPUS_PER_ENTRY⟩ cpu).policy (cpu_off p) + d) %
          2 ^ 64 := by
  have hs := concurrent_times_add_sharing cpu uid g p d m h
  by_cases hb : g / CPUS_PER_ENTRY = p / CPUS_PER_ENTRY
  · obtain ⟨-, -, h1, h2⟩ := hs.1 hb
    refine ⟨h1, ?_⟩
    rw [← hb]
    exact h2
  · obtain ⟨-, -, -, -, h1, -, h2, -⟩ := hs.2 hb
    exact ⟨h1, h2⟩

theorem crowded_full : crowded.uid_time_in_state_map.keys.length = 1024 := by
  simp [crowded, full_table]

theorem crowded_absent (b : Nat) : (⟨1000, b⟩ : time_key) ∉ crowded.uid_time_in_state_map.keys := by
  simp only [crowded, full_table, List.mem_map, List.mem_range, not_exists, not_and]
  intro x _ h
  have := congrArg time_key.uid h
  simp only at this
  omega

/-! ## Existing records under the lookup-or-create pattern -/

theorem touch_existing {V : Type} (m : BpfHash time_key (Nat → V)) (k : time_key) (z : V)
    (f : (Nat → V) → (Nat → V)) (k' : time_key) (v : Nat → V) (h : m.lookup k' = some v) :
    (touch m k z f).lookup k' = some (if k' = k then f v else v) := by
  unfold BpfHash.lookup at h
  by_cases hk' : k' ∈ m.keys
  · rw [if_pos hk'] at h
    have hv : m.val k' = v := Option.some.inj h
    by_cases hkk : k' = k
    · subst hkk
      unfold touch BpfHash.lookup
      simp [hk', BpfHash.write, hv]
    · unfold touch BpfHash.lookup
      split_ifs <;> simp_all [BpfHash.write, Function.update_apply]
  · rw [if_neg hk'] at h
    exact Option.noConfusion h

theorem record_of_lookup {V : Type} (z : V) (m : BpfHash time_key (Nat → V)) (k : time_key)
    (v : Nat → V) (h : m.lookup k = some v) : record z m k = v := by
  unfold record
  rw [h]
  rfl

theorem add_ar_ar (cpu n d : Nat) (v : Nat → time_in_state_val) (c : Nat)
    (o : Fin FREQS_PER_ENTRY) :
    (add_ar cpu n d v c).ar o =
      if c = cpu ∧ o = freq_off n then ((v c).ar o + d) % 2 ^ 64 else (v c).ar o := by
  unfold add_ar freq_off
  by_cases hc : c = cpu
  · subst hc
    by_cases ho : o = ⟨n % FREQS_PER_ENTRY, Nat.mod_lt _ (by decide)⟩
    · subst ho
      simp
    · simp [ho, Function.update_apply]
  · simp [hc, Function.update_apply]

/-- Lines 117-125 do not lower an accumulator of a stored record, short of an overflow. -/
theorem time_in_state_add_mono (cpu uid fi d : Nat)
    (m : BpfHash time_key (Nat → time_in_state_val))
    (hno : (record zero_time_in_state_val m ⟨uid, fi / FREQS_PER_ENTRY⟩ cpu).ar (freq_off fi) +
      d < 2 ^ 64)
    (k : time_key) (v : Nat → time_in_state_val) (h : m.lookup k = some v) :
    ∃ v', (time_in_state_add cpu uid fi d m).lookup k = some v' ∧
      ∀ c o, (v c).ar o ≤ (v' c).ar o := by
  rw [time_in_state_add_eq]
  refine ⟨_, touch_existing _ _ _ _ k v h, fun c o => ?_⟩
  by_cases hk : k = ⟨uid, fi / FREQS_PER_ENTRY⟩
  · rw [if_pos hk, add_ar_ar]
    rw [← hk, record_of_lookup _ _ _ _ h] at hno
    split_ifs with hco
    · obtain ⟨hc, ho⟩ := hco
      subst hc ho
      rw [Nat.mod_eq_of_lt hno]
      exact Nat.le_add_right _ _
    · exact le_refl _
  · rw [if_neg hk]

/-- Lines 127-145 do not lower an accumulator of a stored record, short of an overflow. -/
theorem concurrent_times_add_mono (cpu uid g p d : Nat)
    (m : BpfHash time_key (Nat → concurrent_val))
    (hg : (record zero_concurrent_val m ⟨uid, g / CPUS_PER_ENTRY⟩ cpu).active (cpu_off g) + d <
      2 ^ 64)
    (hp : (record zero_concurrent_val m ⟨uid, p / CPUS_PER_ENTRY⟩ cpu).policy (cpu_off p) + d <
      2 ^ 64)
    (k : time_key) (v : Nat → concurrent_val) (h : m.lookup k = some v) :
    ∃ v', (concurrent_times_add cpu uid g p d m).lookup k = some v' ∧
      ∀ c o, (v c).active o ≤ (v' c).active o ∧ (v c).policy o ≤ (v' c).policy o := by
  rw [concurrent_times_add_eq]
  have h1 := touch_existing m ⟨uid, g / CPUS_PER_ENTRY⟩ zero_concurrent_val
    (add_active cpu g d) k v h
  have h2 := touch_existing _ ⟨uid, p / CPUS_PER_ENTRY⟩ zero_concurrent_val
    (add_policy cpu p d) k _ h1
  refine ⟨_, h2, fun c o => ?_⟩
  have ha : ∀ c o, (v c).active o ≤
      ((if k = ⟨uid, g / CPUS_PER_ENTRY⟩ then add_active cpu g d v else v) c).active o := by
    intro c o
    by_cases hk : k = ⟨uid, g / CPUS_PER_ENTRY⟩
    · rw [if_pos hk, add_active_active]
      rw [← hk, record_of_lookup _ _ _ _ h] at hg
      split_ifs with hco
      · obtain ⟨hc, ho⟩ := hco
        subst hc ho
        rw [Nat.mod_eq_of_lt hg]
        exact Nat.le_add_right _ _
      · exact le_refl _
    · rw [if_neg hk]
  have hpol : ∀ c, ((if k = ⟨uid, g / CPUS_PER_ENTRY⟩ then add_active cpu g d v else v) c).policy =
      (v c).policy := by
    intro c
    by_cases hk : k = ⟨uid, g / CPUS_PER_ENTRY⟩
    · rw [if_pos hk, add_active_policy]
    · rw [if_neg hk]
  by_cases hk : k = ⟨uid, p / CPUS_PER_ENTRY⟩
  · rw [if_pos hk, add_policy_active, add_policy_policy, hpol]
    refine ⟨ha c o, ?_⟩
    rw [← hk, record_of_lookup _ _ _ _ h] at hp
    split_ifs with hco
    · obtain ⟨hc, ho⟩ := hco
      subst hc ho
      rw [Nat.mod_eq_of_lt hp]
      exact Nat.le_add_right _ _
    · exact le_refl _
  · rw [if_neg hk, hpol]
    exact ⟨ha c o, le_refl _⟩

theorem tp_cpufreq_conc (args : cpufreq_args) (s : State) :
    (tp_cpufreq args s).2.uid_concurrent_times_map = s.uid_concurrent_times_map := by
  rw [tp_cpufreq_cases]
  dsimp only
  split_ifs <;> rfl

/-! ## Totals modulo 2^64 -/

theorem owner_total_eq_table_total (m : BpfHash time_key (Nat → time_in_state_val))
    (U c : Nat) : owner_total m U c = table_total (fun v => record_total v c) m U := rfl

/-- The lookup-or-create pattern changes the total of the owner of the key by `d` modulo
2^64, when the update `f` changes the measured quantity by `d` modulo 2^64. -/
theorem table_total_touch {V : Type} (μ : (Nat → V) → Nat) (m : BpfHash time_key (Nat → V))
    (k : time_key) (z : V) (f : (Nat → V) → (Nat → V)) (U d : Nat)
    (hroom : present_or_creatable m k) (hz : μ (fun _ => z) = 0)
    (hf : ∀ v, μ (f v) % 2 ^ 64 = (μ v + d) % 2 ^ 64) :
    table_total μ (touch m k z f) U % 2 ^ 64 =
      (table_total μ m U + if k.uid = U then d else 0) % 2 ^ 64 := by
  unfold table_total
  by_cases hk : k ∈ m.keys
  · have ht : touch m k z f = m.write k (f (m.val k)) := by
      unfold touch
      rw [if_pos hk]
    rw [ht]
    simp only [BpfHash.write]
    by_cases hU : k.uid = U
    · rw [if_pos hU]
      have hch := sum_change (m.keys.toFinset.filter (fun k => k.uid = U)) k
        (fun k' => μ (m.val k'))
        (fun k' => μ (Function.update m.val k (f (m.val k)) k'))
        (Finset.mem_filter.mpr ⟨List.mem_toFinset.mpr hk, hU⟩)
        (fun x hx => by simp only [Function.update_noteq hx])
      simp only [Function.update_same] at hch
      have hfv := hf (m.val k)
      omega
    · rw [if_neg hU, Nat.add_zero]
      congr 1
      apply Finset.sum_congr rfl
      intro x hx
      have hxk : x ≠ k := by
        intro h
        rw [Finset.mem_filter] at hx
        exact hU (h ▸ hx.2)
      rw [Function.update_noteq hxk]
  · have hlen : m.keys.length < 1024 := by
      rcases hroom with h | h
      · exact absurd h hk
      · exact h
    have ht : touch m k z f = ⟨k :: m.keys, Function.update m.val k (f (fun _ => z))⟩ := by
      unfold touch
      rw [if_neg hk, if_pos hlen]
    rw [ht]
    simp only [List.toFinset_cons, Finset.filter_insert]
    have hsame : ∀ x ∈ m.keys.toFinset.filter (fun k => k.uid = U),
        μ (Function.update m.val k (f (fun _ => z)) x) = μ (m.val x) := by
      intro x hx
      have hxk : x ≠ k := by
        intro h
        rw [Finset.mem_filter, List.mem_toFinset] at hx
        exact hk (h ▸ hx.1)
      rw [Function.update_noteq hxk]
    by_cases hU : k.uid = U
    · rw [if_pos hU, if_pos hU]
      have hnot : k ∉ m.keys.toFinset.filter (fun k => k.uid = U) := by
        intro h
        rw [Finset.mem_filter, List.mem_toFinset] at h
        exact hk h.1
      rw [Finset.sum_insert hnot, Finset.sum_congr rfl hsame, Function.update_same]
      have hfv := hf (fun _ => z)
      rw [hz] at hfv
      omega
    · rw [if_neg hU, if_neg hU, Nat.add_zero, Finset.sum_congr rfl hsame]

/-- Replacing one summand `x` by `(x + d) mod 2^64` changes a sum by `d` modulo 2^64. -/
theorem sum_update_mod {n : Nat} (g : Fin n → Nat) (i : Fin n) (d : Nat) :
    Finset.sum Finset.univ (fun o => Function.update g i ((g i + d) % 2 ^ 64) o) % 2 ^ 64 =
      (Finset.sum Finset.univ (fun o => g o) + d) % 2 ^ 64 := by
  have hch := sum_change Finset.univ i (fun o => g o)
    (fun o => Function.update g i ((g i + d) % 2 ^ 64) o)
    (Finset.mem_univ _) (fun x hx => Function.update_noteq hx _ _)
  simp only [Function.update_same] at hch
  omega

theorem record_total_add_ar_mod (cpu fi d : Nat) (v : Nat → time_in_state_val) (c : Nat) :
    record_total (add_ar cpu fi d v) c % 2 ^ 64 =
      (record_total v c + if c = cpu then d else 0) % 2 ^ 64 := by
  by_cases hc : c = cpu
  · subst hc
    rw [if_pos rfl]
    unfold record_total add_ar
    simp only [Function.update_same]
    exact sum_update_mod (v c).ar _ d
  · rw [if_neg hc, Nat.add_zero]
    unfold record_total
    rw [add_ar_other _ _ _ _ _ hc]

theorem active_sum_add_active_mod (cpu g d : Nat) (v : Nat → concurrent_val) (c : Nat) :
    active_sum (add_active cpu g d v) c % 2 ^ 64 =
      (active_sum v c + if c = cpu then d else 0) % 2 ^ 64 := by
  by_cases hc : c = cpu
  · subst hc
    rw [if_pos rfl]
    unfold active_sum add_active
    simp only [Function.update_same]
    exact sum_update_mod (v c).active _ d
  · rw [if_neg hc, Nat.add_zero]
    unfold active_sum add_active
    simp only [Function.update_noteq hc]

theorem policy_sum_add_policy_mod (cpu p d : Nat) (v : Nat → concurrent_val) (c : Nat) :
    policy_sum (add_policy cpu p d v) c % 2 ^ 64 =
      (policy_sum v c + if c = cpu then d else 0) % 2 ^ 64 := by
  by_cases hc : c = cpu
  · subst hc
    rw [if_pos rfl]
    unfold policy_sum add_policy
    simp only [Function.update_same]
    exact sum_update_mod (v c).policy _ d
  · rw [if_neg hc, Nat.add_zero]
    unfold policy_sum add_policy
    simp only [Function.update_noteq hc]

theorem policy_sum_add_active (cpu g d : Nat) (v : Nat → concurrent_val) (c : Nat) :
    policy_sum (add_active cpu g d v) c = policy_sum v c := by
  unfold policy_sum
  simp only [add_active_policy]

theorem active_sum_add_policy (cpu p d : Nat) (v : Nat → concurrent_val) (c : Nat) :
    active_sum (add_policy cpu p d v) c = active_sum v c := by
  unfold active_sum
  simp only [add_policy_active]

theorem present_or_creatable_touch {V : Type} (m : BpfHash time_key (Nat → V))
    (kg kp : time_key) (z : V) (fa : (Nat → V) → (Nat → V))
    (h : both_present_or_creatable m kg kp) : present_or_creatable (touch m kg z fa) kp := by
  have h1 : present_or_creatable m kg := h.1
  unfold present_or_creatable
  rw [touch_keys]
  rcases h.2 with h2 | h2 | h2
  · left
    split_ifs
    · exact h2
    · exact List.mem_cons_of_mem _ h2
  · left
    subst h2
    split_ifs with h3
    · rcases h3 with h3 | h3
      · exact h3
      · rcases h1 with h1 | h1
        · exact h1
        · exact absurd h1 h3
    · exact List.mem_cons_self _ _
  · right
    by_cases h3 : kg ∈ m.keys
    · simpa [h3] using h2
    · rw [if_neg h3] at h2
      split_ifs
      · omega
      · simpa using h2

theorem owner_total_add_mod (cpu uid fi d : Nat)
    (m : BpfHash time_key (Nat → time_in_state_val)) (U c : Nat)
    (hroom : present_or_creatable m ⟨uid, fi / FREQS_PER_ENTRY⟩) :
    owner_total (time_in_state_add cpu uid fi d m) U c % 2 ^ 64 =
      (owner_total m U c + if uid = U then (if c = cpu then d else 0) else 0) % 2 ^ 64 := by
  rw [time_in_state_add_eq, owner_total_eq_table_total, owner_total_eq_table_total]
  exact table_total_touch (fun v => record_total v c) m ⟨uid, fi / FREQS_PER_ENTRY⟩ _ _ U
    (if c = cpu then d else 0) hroom
    (by simp [record_total, zero_time_in_state_val])
    (fun v => record_total_add_ar_mod cpu fi d v c)

theorem active_total_add_mod (cpu uid g p d : Nat)
    (m : BpfHash time_key (Nat → concurrent_val)) (U c : Nat)
    (hroom : both_present_or_creatable m ⟨uid, g / CPUS_PER_ENTRY⟩ ⟨uid, p / CPUS_PER_ENTRY⟩) :
    active_total (concurrent_times_add cpu uid g p d m) U c % 2 ^ 64 =
      (active_total m U c + if uid = U then (if c = cpu then d else 0) else 0) % 2 ^ 64 := by
  rw [concurrent_times_add_eq]
  unfold active_total
  have h1 := table_total_touch (fun v => active_sum v c) m ⟨uid, g / CPUS_PER_ENTRY⟩
    zero_concurrent_val (add_active cpu g d) U (if c = cpu then d else 0) hroom.1
    (by simp [active_sum, zero_concurrent_val])
    (fun v => active_sum_add_active_mod cpu g d v c)
  have h2 := table_total_touch (fun v => active_sum v c)
    (touch m ⟨uid, g / CPUS_PER_ENTRY⟩ zero_concurrent_val (add_active cpu g d))
    ⟨uid, p / CPUS_PER_ENTRY⟩ zero_concurrent_val (add_policy cpu p d) U 0
    (present_or_creatable_touch m _ _ _ _ hroom)
    (by simp [active_sum, zero_concurrent_val])
    (fun v => by simp only [active_sum_add_policy, Nat.add_zero])
  simp only [ite_self, Nat.add_zero] at h2
  rw [h2, h1]

theorem policy_total_add_mod (cpu uid g p d : Nat)
    (m : BpfHash time_key (Nat → concurrent_val)) (U c : Nat)
    (hroom : both_present_or_creatable m ⟨uid, g / CPUS_PER_ENTRY⟩ ⟨uid, p / CPUS_PER_ENTRY⟩) :
    policy_total (concurrent_times_add cpu uid g p d m) U c % 2 ^ 64 =
      (policy_total m U c + if uid = U then (if c = cpu then d else 0) else 0) % 2 ^ 64 := by
  rw [concurrent_times_add_eq]
  unfold policy_total
  have h1 := table_total_touch (fun v => policy_sum v c) m ⟨uid, g / CPUS_PER_ENTRY⟩
    zero_concurrent_val (add_active cpu g d) U 0 hroom.1
    (by simp [policy_sum, zero_concurrent_val])
    (fun v => by simp only [policy_sum_add_active, Nat.add_zero])
  have h2 := table_total_touch (fun v => policy_sum v c)
    (touch m ⟨uid, g / CPUS_PER_ENTRY⟩ zero_concurrent_val (add_active cpu g d))
    ⟨uid, p / CPUS_PER_ENTRY⟩ zero_concurrent_val (add_policy cpu p d) U
    (if c = cpu then d else 0)
    (present_or_creatable_touch m _ _ _ _ hroom)
    (by simp [policy_sum, zero_concurrent_val])
    (fun v => policy_sum_add_policy_mod cpu p d v c)
  simp only [ite_self, Nat.add_zero] at h1
  dsimp only at h1 h2 ⊢
  rw [h2]
  omega

/-- One switch event that fails no record creation keeps the three totals in agreement. -/
theorem totals_agree_switch (env : Env) (args : switch_args) (s : State) (U c : Nat)
    (h : totals_agree s U c)
    (hroom : attributes s env args →
      present_or_creatable s.uid_time_in_state_map
        ⟨uid_of env,
          (s.policy_freq_idx_map (s.cpu_policy_map env.smp_processor_id) + 255) % 256 /
            FREQS_PER_ENTRY⟩ ∧
      both_present_or_creatable s.uid_concurrent_times_map
        ⟨uid_of env, snapshot (s.nr_active_map 0) / CPUS_PER_ENTRY⟩
        ⟨uid_of env,
          snapshot (s.policy_nr_active_map (s.cpu_policy_map env.smp_processor_id)) /
            CPUS_PER_ENTRY⟩) :
    totals_agree (tp_sched_switch env args s).2 U c := by
  unfold totals_agree at h ⊢
  rw [tp_sched_switch_tis, tp_sched_switch_conc]
  by_cases hatt : attributes s env args
  · obtain ⟨hr1, hr2⟩ := hroom hatt
    rw [if_pos hatt, if_pos hatt]
    have e1 := owner_total_add_mod env.smp_processor_id (uid_of env) _
      (delta_of env.ktime_ns (s.cpu_last_update_map 0 env.smp_processor_id))
      s.uid_time_in_state_map U c hr1
    have e2 := active_total_add_mod env.smp_processor_id (uid_of env) _ _
      (delta_of env.ktime_ns (s.cpu_last_update_map 0 env.smp_processor_id))
      s.uid_concurrent_times_map U c hr2
    have e3 := policy_total_add_mod env.smp_processor_id (uid_of env) _ _
      (delta_of env.ktime_ns (s.cpu_last_update_map 0 env.smp_processor_id))
      s.uid_concurrent_times_map U c hr2
    rw [e1, e2, e3]
    obtain ⟨ha, hb⟩ := h
    constructor
    · omega
    · omega
  · rw [if_neg hatt, if_neg hatt]
    exact h

/-- Sums of termwise congruent summands are congruent. -/
theorem sum_mod_congr (N M : Nat) (f g : Nat → Nat) (h : ∀ c, f c % M = g c % M) :
    Finset.sum (Finset.range N) f % M = Finset.sum (Finset.range N) g % M := by
  induction N with
  | zero => rfl
  | succ n ih =>
    rw [Finset.sum_range_succ, Finset.sum_range_succ, Nat.add_mod, ih, h n, ← Nat.add_mod]

theorem totals_agree_of_empty (s : State) (U c : Nat)
    (h1 : s.uid_time_in_state_map.keys = []) (h2 : s.uid_concurrent_times_map.keys = []) :
    totals_agree s U c := by
  unfold totals_agree owner_total active_total policy_total table_total
  rw [h1, h2]
  simp

theorem totals_agree_run (U c : Nat) (es : List Event) :
    ∀ s : State, totals_agree s U c → never_fails s es → totals_agree (run s es) U c := by
  induction es with
  | nil =>
    intro s h _
    exact h
  | cons e es ih =>
    intro s h hok
    cases e with
    | sched_switch env args =>
      exact ih _ (totals_agree_switch env args s U c h hok.1) hok.2
    | cpufreq a =>
      apply ih _ _ hok
      unfold totals_agree
      rw [tp_cpufreq_tis, tp_cpufreq_conc]
      exact h

theorem packed_full : packed.uid_concurrent_times_map.keys.length = 1024 := by
  simp [packed, full_concurrent_table]

theorem packed_absent (b : Nat) :
    (⟨1000, b⟩ : time_key) ∉ packed.uid_concurrent_times_map.keys := by
  simp only [packed, full_concurrent_table, List.mem_map, List.mem_range, not_exists, not_and]
  intro x _ h
  have := congrArg time_key.uid h
  simp only at this
  omega

/-! ## Which accumulators one attribution changes -/

theorem touch_record_cases {V : Type} (m : BpfHash time_key (Nat → V)) (k : time_key) (z : V)
    (f : (Nat → V) → (Nat → V)) (k' : time_key) :
    record z (touch m k z f) k' = record z m k' ∨
      (k' = k ∧ record z (touch m k z f) k' = f (record z m k)) := by
  by_cases hroom : present_or_creatable m k
  · by_cases hk : k' = k
    · right
      refine ⟨hk, ?_⟩
      conv_lhs => unfold record
      rw [touch_lookup _ _ _ _ hroom, if_pos hk]
      rfl
    · left
      conv_lhs => unfold record
      rw [touch_lookup _ _ _ _ hroom, if_neg hk]
      rfl
  · left
    rw [touch_full _ _ _ _ hroom]

/-- Lines 117-125, when the record is stored or can be created, add `d` at one accumulator
and leave every other accumulator of the table as it was. -/
theorem time_in_state_add_pointwise (cpu uid fi d : Nat)
    (m : BpfHash time_key (Nat → time_in_state_val))
    (hroom : present_or_creatable m ⟨uid, fi / FREQS_PER_ENTRY⟩)
    (k : time_key) (c : Nat) (o : Fin FREQS_PER_ENTRY) :
    (record zero_time_in_state_val (time_in_state_add cpu uid fi d m) k c).ar o =
      if k = ⟨uid, fi / FREQS_PER_ENTRY⟩ ∧ c = cpu ∧ o = freq_off fi then
        ((record zero_time_in_state_val m k c).ar o + d) % 2 ^ 64
      else (record zero_time_in_state_val m k c).ar o := by
  rw [time_in_state_add_eq]
  conv_lhs => unfold record
  rw [touch_lookup _ _ _ _ hroom]
  by_cases hk : k = ⟨uid, fi / FREQS_PER_ENTRY⟩
  · subst hk
    simp only [if_true, Option.getD_some, true_and, add_ar_ar]
  · simp only [hk, if_false, false_and]
    rfl

/-- Lines 127-134, when the records are stored or can be created, add `d` at one `active`
accumulator and leave every other `active` accumulator of the table as it was. -/
theorem concurrent_times_add_active_pointwise (cpu uid g p d : Nat)
    (m : BpfHash time_key (Nat → concurrent_val))
    (h : both_present_or_creatable m ⟨uid, g / CPUS_PER_ENTRY⟩ ⟨uid, p / CPUS_PER_ENTRY⟩)
    (k : time_key) (c : Nat) (o : Fin CPUS_PER_ENTRY) :
    (record zero_concurrent_val (concurrent_times_add cpu uid g p d m) k c).active o =
      if k = ⟨uid, g / CPUS_PER_ENTRY⟩ ∧ c = cpu ∧ o = cpu_off g then
        ((record zero_concurrent_val m k c).active o + d) % 2 ^ 64
      else (record zero_concurrent_val m k c).active o := by
  rw [concurrent_times_add_record _ _ _ _ _ _ h]
  by_cases hkp : k = ⟨uid, p / CPUS_PER_ENTRY⟩
  · by_cases hkg : k = ⟨uid, g / CPUS_PER_ENTRY⟩
    · have hpg : (⟨uid, p / CPUS_PER_ENTRY⟩ : time_key) = ⟨uid, g / CPUS_PER_ENTRY⟩ := by
        rw [← hkp, ← hkg]
      rw [if_pos hkp, if_pos hpg, add_policy_active, add_active_active, ← hkg]
      simp
    · have hpg : ¬ (⟨uid, p / CPUS_PER_ENTRY⟩ : time_key) = ⟨uid, g / CPUS_PER_ENTRY⟩ := by
        rw [← hkp]
        exact hkg
      rw [if_pos hkp, if_neg hpg, add_policy_active, ← hkp]
      simp [hkg]
  · rw [if_neg hkp]
    by_cases hkg : k = ⟨uid, g / CPUS_PER_ENTRY⟩
    · rw [if_pos hkg, add_active_active, ← hkg]
      simp
    · rw [if_neg hkg]
      simp [hkg]

/-- Lines 136-145, when the records are stored or can be created, add `d` at one `policy`
accumulator and leave every other `policy` accumulator of the table as it was. -/
theorem concurrent_times_add_policy_pointwise (cpu uid g p d : Nat)
    (m : BpfHash time_key (Nat → concurrent_val))
    (h : both_present_or_creatable m ⟨uid, g / CPUS_PER_ENTRY⟩ ⟨uid, p / CPUS_PER_ENTRY⟩)
    (k : time_key) (c : Nat) (o : Fin CPUS_PER_ENTRY) :
    (record zero_concurrent_val (concurrent_times_add cpu uid g p d m) k c).policy o =
      if k = ⟨uid, p / CPUS_PER_ENTRY⟩ ∧ c = cpu ∧ o = cpu_off p then
        ((record zero_concurrent_val m k c).policy o + d) % 2 ^ 64
      else (record zero_concurrent_val m k c).policy o := by
  rw [concurrent_times_add_record _ _ _ _ _ _ h]
  by_cases hkp : k = ⟨uid, p / CPUS_PER_ENTRY⟩
  · by_cases hpg : (⟨uid, p / CPUS_PER_ENTRY⟩ : time_key) = ⟨uid, g / CPUS_PER_ENTRY⟩
    · rw [if_pos hkp, if_pos hpg, add_policy_policy, add_active_policy, ← hpg, ← hkp]
      simp
    · rw [if_pos hkp, if_neg hpg, add_policy_policy, ← hkp]
      simp
  · rw [if_neg hkp]
    by_cases hkg : k = ⟨uid, g / CPUS_PER_ENTRY⟩
    · rw [if_pos hkg, add_active_policy, ← hkg]
      simp [hkp]
    · rw [if_neg hkg]
      simp [hkp]

/-- Whether or not a record can be created, lines 127-145 change no `active` accumulator
other than the one at the global snapshot `g`, in the slot of the executing processor. -/
theorem concurrent_times_add_active_frame (cpu uid g p d : Nat)
    (m : BpfHash time_key (Nat → concurrent_val)) (k : time_key) (c : Nat)
    (o : Fin CPUS_PER_ENTRY)
    (hne : (record zero_concurrent_val (concurrent_times_add cpu uid g p d m) k c).active o ≠
      (record zero_concurrent_val m k c).active o) :
    k = ⟨uid, g / CPUS_PER_ENTRY⟩ ∧ c = cpu ∧ o = cpu_off g := by
  rw [concurrent_times_add_eq] at hne
  have h2 : (record zero_concurrent_val
      (touch (touch m ⟨uid, g / CPUS_PER_ENTRY⟩ zero_concurrent_val (add_active cpu g d))
        ⟨uid, p / CPUS_PER_ENTRY⟩ zero_concurrent_val (add_policy cpu p d)) k c).active =
      (record zero_concurrent_val
        (touch m ⟨uid, g / CPUS_PER_ENTRY⟩ zero_concurrent_val (add_active cpu g d)) k c).active := by
    rcases touch_record_cases
      (touch m ⟨uid, g / CPUS_PER_ENTRY⟩ zero_concurrent_val (add_active cpu g d))
      ⟨uid, p / CPUS_PER_ENTRY⟩ zero_concurrent_val (add_policy cpu p d) k with e | ⟨hk, e⟩
    · rw [e]
    · rw [e, add_policy_active, hk]
  rw [h2] at hne
  rcases touch_record_cases m ⟨uid, g / CPUS_PER_ENTRY⟩ zero_concurrent_val
    (add_active cpu g d) k with e | ⟨hk, e⟩
  · rw [e] at hne
    exact absurd rfl hne
  · rw [e, add_active_active, ← hk] at hne
    by_cases hco : c = cpu ∧ o = cpu_off g
    · exact ⟨hk, hco.1, hco.2⟩
    · rw [if_neg hco] at hne
      exact absurd rfl hne

/-- Whether or not a record can be created, lines 127-145 change no `policy` accumulator
other than the one at the policy snapshot `p`, in the slot of the executing processor. -/
theorem concurrent_times_add_policy_frame (cpu uid g p d : Nat)
    (m : BpfHash time_key (Nat → concurrent_val)) (k : time_key) (c : Nat)
    (o : Fin CPUS_PER_ENTRY)
    (hne : (record zero_concurrent_val (concurrent_times_add cpu uid g p d m) k c).policy o ≠
      (record zero_concurrent_val m k c).policy o) :
    k = ⟨uid, p / CPUS_PER_ENTRY⟩ ∧ c = cpu ∧ o = cpu_off p := by
  rw [concurrent_times_add_eq] at hne
  have h1 : ∀ k', (record zero_concurrent_val
      (touch m ⟨uid, g / CPUS_PER_ENTRY⟩ zero_concurrent_val (add_active cpu g d)) k' c).policy =
      (record zero_concurrent_val m k' c).policy := by
    intro k'
    rcases touch_record_cases m ⟨uid, g / CPUS_PER_ENTRY⟩ zero_concurrent_val
      (add_active cpu g d) k' with e | ⟨hk, e⟩
    · rw [e]
    · rw [e, add_active_policy, hk]
  rcases touch_record_cases
    (touch m ⟨uid, g / CPUS_PER_ENTRY⟩ zero_concurrent_val (add_active cpu g d))
    ⟨uid, p / CPUS_PER_ENTRY⟩ zero_concurrent_val (add_policy cpu p d) k with e | ⟨hk, e⟩
  · rw [e, h1] at hne
    exact absurd rfl hne
  · rw [e, add_policy_policy, h1, ← hk] at hne
    by_cases hco : c = cpu ∧ o = cpu_off p
    · exact ⟨hk, hco.1, hco.2⟩
    · rw [if_neg hco] at hne
      exact absurd rfl hne

theorem never_fails_append (pre rest : List Event) :
    ∀ s : State, never_fails s (pre ++ rest) → never_fails (run s pre) rest := by
  induction pre with
  | nil =>
    intro s h
    exact h
  | cons e pre ih =>
    intro s h
    cases e with
    | sched_switch env args =>
      exact ih _ h.2
    | cpufreq a =>
      exact ih _ h

/-! # The claims -/

/-! ## The two-event scenario -/

/-- C1, as stated, fails: on processor 0 (policy 0, frequency index 3, owner 1000) the events
(idle, task) at clock reading 0 and (task, idle) at clock reading 100 leave the
time-in-state table empty.  The first event stores the reading 0, which is the "never
updated" mark, so the second event returns at line 104. -/
theorem scenario_counterexample :
    array_lookup 1024 scenario_start.cpu_policy_map 0 = some 0 ∧
      array_lookup 1024 scenario_start.policy_freq_idx_map 0 = some 3 ∧
      (run scenario_start
        [.sched_switch ⟨0, 0, 0⟩ ⟨0, 5⟩,
          .sched_switch ⟨0, 100, 1000⟩ ⟨5, 0⟩]).uid_time_in_state_map.lookup ⟨1000, 0⟩ = none ∧
      (run scenario_start
        [.sched_switch ⟨0, 0, 0⟩ ⟨0, 5⟩,
          .sched_switch ⟨0, 100, 1000⟩ ⟨5, 0⟩]).uid_time_in_state_map.keys = [] := by
  refine ⟨by decide, by decide, by rfl, by decide⟩

/-- C1 (amended): on an engine whose time-in-state table is empty, processor `P` being
mapped to policy `G` with stored frequency index 3: after the event (idle, incoming
subject) at a clock reading `t0 ≠ 0` and the event (task of owner `U`, idle) at clock
reading `t0 + 100`, the record keyed `(U, 0)` exists and its accumulator at offset 2, in the
slot of `P`, is 100. -/
theorem scenario_first_interval (s : State) (P G U t0 ug0 ug : Nat) (next prev : Int)
    (hempty : s.uid_time_in_state_map.keys = [])
    (hmap : array_lookup 1024 s.cpu_policy_map P = some G)
    (hidx : array_lookup 1024 s.policy_freq_idx_map G = some 3)
    (hprev : prev ≠ 0) (hU : ug % 2 ^ 32 = U)
    (ht0 : t0 ≠ 0) :
    ∃ v,
      (run s
        [.sched_switch ⟨P, t0, ug0⟩ ⟨0, next⟩,
          .sched_switch ⟨P, t0 + 100, ug⟩ ⟨prev, 0⟩]).uid_time_in_state_map.lookup ⟨U, 0⟩ =
        some v ∧
      (v P).ar 2 = 100 := by
  simp only [array_lookup] at hmap hidx
  have hc : P < 1024 := by
    by_contra hc
    simp [hc] at hmap
  simp only [hc, if_true, Option.some.injEq] at hmap
  subst hmap
  have hp : s.cpu_policy_map P < 1024 := by
    by_contra hp
    simp [hp] at hidx
  simp only [hp, if_true, Option.some.injEq] at hidx
  have hnot : ¬ attributes s ⟨P, t0, ug0⟩ ⟨0, next⟩ := by
    unfold attributes
    simp
  have hatt : attributes (tp_sched_switch ⟨P, t0, ug0⟩ ⟨0, next⟩ s).2 ⟨P, t0 + 100, ug⟩
      ⟨prev, 0⟩ := by
    unfold attributes
    rw [tp_sched_switch_cpu_policy, tp_sched_switch_freq_idx, tp_sched_switch_clock]
    simp [hc, hp, hprev, hidx, ht0]
  have hd : delta_of (t0 + 100) t0 = 100 := by
    unfold delta_of
    omega
  simp only [run, List.foldl, step]
  rw [tp_sched_switch_tis, if_pos hatt, tp_sched_switch_tis, if_neg hnot,
    tp_sched_switch_cpu_policy, tp_sched_switch_freq_idx, tp_sched_switch_clock, hidx,
    time_in_state_add_eq]
  simp only [uid_of, hU, Function.update_same, hd]
  have hroom : present_or_creatable s.uid_time_in_state_map ⟨U, (3 + 255) % 256 / FREQS_PER_ENTRY⟩ := by
    right
    rw [hempty]
    decide
  rw [touch_lookup _ _ _ _ hroom]
  have hkey : (⟨U, 0⟩ : time_key) = ⟨U, (3 + 255) % 256 / FREQS_PER_ENTRY⟩ := rfl
  refine ⟨_, if_pos hkey, ?_⟩
  have hrec : record zero_time_in_state_val s.uid_time_in_state_map
      ⟨U, (3 + 255) % 256 / FREQS_PER_ENTRY⟩ = fun _ => zero_time_in_state_val := by
    unfold record BpfHash.lookup
    simp [hempty]
  have hoff : (⟨(3 + 255) % 256 % FREQS_PER_ENTRY, Nat.mod_lt _ (by decide)⟩ :
      Fin FREQS_PER_ENTRY) = 2 := rfl
  rw [hrec]
  simp [add_ar, zero_time_in_state_val, hoff]

/-- A run of the amended C1: processor 0, owner 1000, clock readings 7 and 107. -/
theorem scenario_first_interval_witness :
    scenario_start.uid_time_in_state_map.keys = [] ∧
      array_lookup 1024 scenario_start.cpu_policy_map 0 = some 0 ∧
      array_lookup 1024 scenario_start.policy_freq_idx_map 0 = some 3 ∧
      ∃ v,
        (run scenario_start
          [.sched_switch ⟨0, 7, 0⟩ ⟨0, 5⟩,
            .sched_switch ⟨0, 7 + 100, 1000⟩ ⟨5, 0⟩]).uid_time_in_state_map.lookup
              ⟨1000, 0⟩ = some v ∧
        (v 0).ar 2 = 100 :=
  ⟨rfl, by decide, by decide,
    scenario_first_interval scenario_start 0 0 1000 7 0 1000 5 5 rfl (by decide)
      (by decide) (by decide) (by decide) (by decide)⟩

/-! ## Conservation of time on one processor -/

/-- C2: start with an empty time-in-state table and no clock reading on processor `P`, and
run any sequence of `tp_sched_switch` events on `P`, interleaved with any `tp_cpufreq`
events, with non-zero, non-decreasing 64-bit clock readings and no table-full failure.  Then
for every owner `U` the sum of all accumulators of all records keyed by `U` is the sum of
`t_k - t_(k-1)` over exactly the switch events `k ≥ 2` whose outgoing subject is not idle and
has owner `U` and at which the stored frequency index of the policy of `P` is not 0.  The sum
is over the slot of `P`; the slots of all other processors hold 0.  No accumulator of `U`
can overflow under these hypotheses. -/
theorem time_conservation (P U : Nat) (s0 : State) (es : List Event)
    (hempty : s0.uid_time_in_state_map.keys = [])
    (hclock : s0.cpu_last_update_map 0 P = 0)
    (hcpu : on_one_cpu P none es) (hfull : never_full s0 es) :
    owner_total (run s0 es).uid_time_in_state_map U P = owed U P s0 none es ∧
      ∀ k c o, c ≠ P →
        (record zero_time_in_state_val (run s0 es).uid_time_in_state_map k c).ar o = 0 := by
  have h0 : owner_total s0.uid_time_in_state_map U P = 0 := by
    unfold owner_total
    rw [hempty]
    rfl
  have hrec : ∀ k, record zero_time_in_state_val s0.uid_time_in_state_map k =
      fun _ => zero_time_in_state_val := by
    intro k
    unfold record BpfHash.lookup
    rw [hempty]
    rfl
  have hinv : conserved P U none s0 := by
    refine ⟨hclock, ?_, ?_, ?_⟩
    · intro t h
      cases h
    · rw [h0]
      exact Nat.zero_le _
    · intro k c o _
      rw [hrec]
      rfl
  have h := owner_total_run P U es s0 s0 none rfl rfl rfl hinv hcpu hfull
  rw [h0, Nat.zero_add] at h
  exact h

/-- A run of C2: policy 0 is set to the frequency with index 3, processor 0 leaves idle at
clock reading 7 and owner 1000 leaves it at 107; owner 1000 is owed 100 ns and has them. -/
theorem time_conservation_witness :
    on_one_cpu 0 none
        [.cpufreq ⟨1000, 0⟩, .sched_switch ⟨0, 7, 0⟩ ⟨0, 5⟩,
          .sched_switch ⟨0, 107, 1000⟩ ⟨5, 0⟩] ∧
      never_full (fresh (fun _ => 0) ⟨[⟨0, 1000⟩], fun _ => 3⟩)
        [.cpufreq ⟨1000, 0⟩, .sched_switch ⟨0, 7, 0⟩ ⟨0, 5⟩,
          .sched_switch ⟨0, 107, 1000⟩ ⟨5, 0⟩] ∧
      owner_total
        (run (fresh (fun _ => 0) ⟨[⟨0, 1000⟩], fun _ => 3⟩)
          [.cpufreq ⟨1000, 0⟩, .sched_switch ⟨0, 7, 0⟩ ⟨0, 5⟩,
            .sched_switch ⟨0, 107, 1000⟩ ⟨5, 0⟩]).uid_time_in_state_map 1000 0 = 100 := by
  have hcpu : on_one_cpu 0 none
      [.cpufreq ⟨1000, 0⟩, .sched_switch ⟨0, 7, 0⟩ ⟨0, 5⟩,
        .sched_switch ⟨0, 107, 1000⟩ ⟨5, 0⟩] := by
    simp [on_one_cpu]
  have hfull : never_full (fresh (fun _ => 0) ⟨[⟨0, 1000⟩], fun _ => 3⟩)
      [.cpufreq ⟨1000, 0⟩, .sched_switch ⟨0, 7, 0⟩ ⟨0, 5⟩,
        .sched_switch ⟨0, 107, 1000⟩ ⟨5, 0⟩] := by
    simp only [never_full]
    exact ⟨fun _ => Or.inr (by decide), fun _ => Or.inr (by decide), trivial⟩
  exact ⟨hcpu, hfull,
    (time_conservation 0 1000 (fresh (fun _ => 0) ⟨[⟨0, 1000⟩], fun _ => 3⟩) _ rfl rfl
      hcpu hfull).1.trans (by decide)⟩

/-! ## The active counters stay within the number of processors -/

/-- C3: from the engine at start with processors `0 .. N-1` and a fixed topology `cp`, after
every prefix of a well-formed sequence of events the global active counter is exactly the
number of processors counted busy (so no 32-bit wraparound has happened) and is at most
`N`, and the counter of each policy-group is at most the number of processors mapped to
that group. -/
theorem active_count_bound (N : Nat) (cp : Nat → Nat) (f2i : BpfHash freq_idx_key Nat)
    (es pre : List Event) (hwf : well_formed N (fun _ => none) es) (hpre : pre <+: es) :
    (run (fresh cp f2i) pre).nr_active_map 0 =
        Finset.sum (Finset.range N) (fun c => act cp (last_next_after (fun _ => none) pre) c) ∧
      (run (fresh cp f2i) pre).nr_active_map 0 ≤ N ∧
      ∀ G, (run (fresh cp f2i) pre).policy_nr_active_map G ≤ group_size N cp G := by
  obtain ⟨suf, rfl⟩ := hpre
  have hinv := counters_exact_run N cp pre _ _ (counters_exact_fresh N cp f2i)
    (well_formed_of_append N pre suf _ hwf)
  obtain ⟨-, -, h3, h4⟩ := hinv
  refine ⟨h3, ?_, fun G => ?_⟩
  · rw [h3]
    calc Finset.sum (Finset.range N) (fun c => act cp (last_next_after (fun _ => none) pre) c)
        ≤ Finset.sum (Finset.range N) (fun _ => 1) := by
          apply Finset.sum_le_sum
          intro x _
          unfold act
          split_ifs <;> omega
      _ = N := by simp
  · rw [h4 G]
    unfold group_size
    rw [Finset.card_filter]
    apply Finset.sum_le_sum
    intro x _
    unfold act array_lookup
    by_cases hx : x < 1024
    · by_cases hG : cp x = G
      · simp only [hx, hG, if_true]
        split_ifs <;> omega
      · simp [hG]
    · simp [hx]

/-- A run of C3 with two processors of one policy: processor 0 leaves idle, then
processor 1 does; after these two events the global counter is at most 2. -/
theorem active_count_bound_witness :
    well_formed 2 (fun _ => none)
        [.sched_switch ⟨0, 7, 0⟩ ⟨0, 5⟩, .sched_switch ⟨1, 8, 0⟩ ⟨0, 6⟩,
          .sched_switch ⟨0, 9, 1000⟩ ⟨5, 0⟩] ∧
      (run (fresh (fun _ => 0) (BpfHash.empty 0))
        [.sched_switch ⟨0, 7, 0⟩ ⟨0, 5⟩, .sched_switch ⟨1, 8, 0⟩ ⟨0, 6⟩]).nr_active_map 0 ≤ 2 := by
  have hwf : well_formed 2 (fun _ => none)
      [.sched_switch ⟨0, 7, 0⟩ ⟨0, 5⟩, .sched_switch ⟨1, 8, 0⟩ ⟨0, 6⟩,
        .sched_switch ⟨0, 9, 1000⟩ ⟨5, 0⟩] := by
    refine ⟨by decide, by decide, by decide, ?_, by decide, by decide, by decide, ?_,
      by decide, by decide, by decide, ?_, trivial⟩
    · intro n h
      cases h
    · intro n h
      simp [Function.update_apply] at h
    · intro n h
      simp [Function.update_apply] at h
      subst h
      decide
  exact ⟨hwf,
    (active_count_bound 2 (fun _ => 0) (BpfHash.empty 0) _
      [.sched_switch ⟨0, 7, 0⟩ ⟨0, 5⟩, .sched_switch ⟨1, 8, 0⟩ ⟨0, 6⟩] hwf
      ⟨[.sched_switch ⟨0, 9, 1000⟩ ⟨5, 0⟩], rfl⟩).2.1⟩

/-! ## Where an interval is attributed -/

/-- C4: on an attributing `tp_sched_switch` event (processor mapped to `G`, outgoing subject
not idle, `old_last ≠ 0`, stored frequency index `s` of `G` in 1..255, record present or
creatable), with `i = s - 1` and `delta = (now - old_last) mod 2^64`: afterwards the record
keyed `(owner, i div 32)` exists; reading an absent record as zero, the accumulator at offset
`i mod 32` of that record, in the slot of the executing processor, is the old one plus
`delta` in 64-bit arithmetic, and every other accumulator of every record is what it was;
every record under another key is unchanged.  For `i = 31` this is bucket 0 offset 31, for
`i = 32` bucket 1 offset 0. -/
theorem sched_switch_freq_bucket (env : Env) (args : switch_args) (s : State) (G sidx : Nat)
    (hmap : array_lookup 1024 s.cpu_policy_map env.smp_processor_id = some G)
    (hprev : args.prev_pid ≠ 0)
    (hold : s.cpu_last_update_map 0 env.smp_processor_id ≠ 0)
    (hidx : array_lookup 1024 s.policy_freq_idx_map G = some sidx)
    (h1 : 1 ≤ sidx) (h255 : sidx ≤ 255)
    (hroom : present_or_creatable s.uid_time_in_state_map
      ⟨uid_of env, (sidx - 1) / FREQS_PER_ENTRY⟩) :
    ((tp_sched_switch env args s).2.uid_time_in_state_map.lookup
        ⟨uid_of env, (sidx - 1) / FREQS_PER_ENTRY⟩).isSome = true ∧
      (∀ k c o,
        (record zero_time_in_state_val (tp_sched_switch env args s).2.uid_time_in_state_map
            k c).ar o =
          if k = ⟨uid_of env, (sidx - 1) / FREQS_PER_ENTRY⟩ ∧ c = env.smp_processor_id ∧
              o = freq_off (sidx - 1) then
            ((record zero_time_in_state_val s.uid_time_in_state_map k c).ar o +
              delta_of env.ktime_ns (s.cpu_last_update_map 0 env.smp_processor_id)) % 2 ^ 64
          else (record zero_time_in_state_val s.uid_time_in_state_map k c).ar o) ∧
      (∀ k, k ≠ ⟨uid_of env, (sidx - 1) / FREQS_PER_ENTRY⟩ →
        (tp_sched_switch env args s).2.uid_time_in_state_map.lookup k =
          s.uid_time_in_state_map.lookup k) ∧
      (sidx - 1 = 31 →
        (sidx - 1) / FREQS_PER_ENTRY = 0 ∧ (freq_off (sidx - 1)).val = 31) ∧
      (sidx - 1 = 32 →
        (sidx - 1) / FREQS_PER_ENTRY = 1 ∧ (freq_off (sidx - 1)).val = 0) := by
  have hfi : (sidx + 255) % 256 = sidx - 1 := by omega
  have hm := (tp_sched_switch_attributes env args s G sidx hmap hprev hold hidx (by omega)).1
  rw [hfi, time_in_state_add_eq] at hm
  rw [hm]
  have hl := touch_lookup s.uid_time_in_state_map ⟨uid_of env, (sidx - 1) / FREQS_PER_ENTRY⟩
    zero_time_in_state_val
    (add_ar env.smp_processor_id (sidx - 1)
      (delta_of env.ktime_ns (s.cpu_last_update_map 0 env.smp_processor_id))) hroom
  refine ⟨?_, ?_, ?_, ?_, ?_⟩
  · rw [hl]
    simp
  · intro k c o
    unfold record
    rw [hl]
    by_cases hk : k = ⟨uid_of env, (sidx - 1) / FREQS_PER_ENTRY⟩
    · subst hk
      simp only [if_true, Option.getD_some, true_and, add_ar, record, freq_off]
      by_cases hcpu : c = env.smp_processor_id
      · subst hcpu
        simp only [Function.update_same, true_and, Function.update_apply]
        split_ifs with ho
        · rw [ho]
        · rfl
      · simp [hcpu, Function.update_apply]
    · simp [hk]
  · intro k hk
    rw [hl]
    simp [hk]
  · intro h
    rw [h]
    exact ⟨by decide, by decide⟩
  · intro h
    rw [h]
    exact ⟨by decide, by decide⟩

/-- A run of C4 on the warmed-up engine: owner 1000 leaves processor 0 at clock reading 107,
and offset 2 of its bucket-0 record takes the 100 ns. -/
theorem sched_switch_freq_bucket_witness :
    array_lookup 1024 warm.cpu_policy_map 0 = some 0 ∧
      array_lookup 1024 warm.policy_freq_idx_map 0 = some 3 ∧
      (record zero_time_in_state_val
        (tp_sched_switch ⟨0, 107, 1000⟩ ⟨5, 0⟩ warm).2.uid_time_in_state_map
        ⟨1000, 0⟩ 0).ar 2 = 100 :=
  ⟨by decide, by decide,
    ((sched_switch_freq_bucket ⟨0, 107, 1000⟩ ⟨5, 0⟩ warm 0 3 (by decide) (by decide)
      (by decide) (by decide) (by decide) (by decide) (Or.inr (by decide))).2.1
        ⟨1000, 0⟩ 0 2).trans (by decide)⟩

/-- C5, as stated, fails: on the warmed-up engine the concurrent-times table is full (1024
records) and has no record of owner 1000, while the time-in-state record of the event can
be created.  The event of owner 1000 at clock reading 107 attributes time, both snapshots
are 0, `delta` is 100 and the time-in-state table takes it, and yet no record `(1000, 0)` is
created and the concurrent-times table is exactly what it was: `ct` is NULL at lines 134
and 145 and the 100 ns are added nowhere in it. -/
theorem sched_switch_concurrency_bucket_counterexample :
    attributes packed ⟨0, 107, 1000⟩ ⟨5, 0⟩ ∧
      present_or_creatable packed.uid_time_in_state_map ⟨1000, 0⟩ ∧
      snapshot (packed.nr_active_map 0) = 0 ∧
      snapshot (packed.policy_nr_active_map 0) = 0 ∧
      delta_of 107 (packed.cpu_last_update_map 0 0) = 100 ∧
      (record zero_time_in_state_val
        (tp_sched_switch ⟨0, 107, 1000⟩ ⟨5, 0⟩ packed).2.uid_time_in_state_map
        ⟨1000, 0⟩ 0).ar 2 = 100 ∧
      packed.uid_concurrent_times_map.keys.length = 1024 ∧
      (⟨1000, 0⟩ : time_key) ∉ packed.uid_concurrent_times_map.keys ∧
      (tp_sched_switch ⟨0, 107, 1000⟩ ⟨5, 0⟩ packed).2.uid_concurrent_times_map =
        packed.uid_concurrent_times_map ∧
      (⟨1000, 0⟩ : time_key) ∉
        (tp_sched_switch ⟨0, 107, 1000⟩ ⟨5, 0⟩ packed).2.uid_concurrent_times_map.keys := by
  have hno : ¬ present_or_creatable packed.uid_concurrent_times_map ⟨1000, 0⟩ := by
    rintro (h | h)
    · exact packed_absent 0 h
    · rw [packed_full] at h
      omega
  have hsame : (tp_sched_switch ⟨0, 107, 1000⟩ ⟨5, 0⟩ packed).2.uid_concurrent_times_map =
      packed.uid_concurrent_times_map := by
    rw [tp_sched_switch_conc, if_pos (by decide), concurrent_times_add_eq]
    have hg : (⟨uid_of ⟨0, 107, 1000⟩, snapshot (packed.nr_active_map 0) / CPUS_PER_ENTRY⟩ :
        time_key) = ⟨1000, 0⟩ := by decide
    have hp : (⟨uid_of ⟨0, 107, 1000⟩,
        snapshot (packed.policy_nr_active_map
          (packed.cpu_policy_map (⟨0, 107, 1000⟩ : Env).smp_processor_id)) / CPUS_PER_ENTRY⟩ :
        time_key) = ⟨1000, 0⟩ := by decide
    rw [hg, hp, touch_full _ _ _ _ hno, touch_full _ _ _ _ hno]
  have htis : (record zero_time_in_state_val
      (tp_sched_switch ⟨0, 107, 1000⟩ ⟨5, 0⟩ packed).2.uid_time_in_state_map
      ⟨1000, 0⟩ 0).ar 2 = 100 := by
    rw [tp_sched_switch_tis, if_pos (by decide)]
    decide
  refine ⟨by decide, Or.inr (by decide), by decide, by decide, by decide, htis, packed_full,
    packed_absent 0, hsame, ?_⟩
  rw [hsame]
  exact packed_absent 0

/-- C5 (amended): on an attributing `tp_sched_switch` event, with `g` and `p` the global and
the policy-group counter read at entry minus one (mod 2^32), and provided the
concurrent-times records keyed `(owner, g div 8)` and `(owner, p div 8)` are stored or can
be created (the first, then the second, within the 1024 entries of the table): afterwards
both records exist; reading an absent record as zero, `delta` has been added (64-bit) to
offset `g mod 8` of the `active` array of the first and to offset `p mod 8` of the `policy`
array of the second, in the slot of the executing processor; every other accumulator of the
table is what it was, and the records under other keys are unchanged. -/
theorem sched_switch_concurrency_bucket (env : Env) (args : switch_args) (s : State)
    (G sidx : Nat)
    (hmap : array_lookup 1024 s.cpu_policy_map env.smp_processor_id = some G)
    (hprev : args.prev_pid ≠ 0)
    (hold : s.cpu_last_update_map 0 env.smp_processor_id ≠ 0)
    (hidx : array_lookup 1024 s.policy_freq_idx_map G = some sidx)
    (h0 : sidx ≠ 0)
    (hroom : both_present_or_creatable s.uid_concurrent_times_map
      ⟨uid_of env, snapshot (s.nr_active_map 0) / CPUS_PER_ENTRY⟩
      ⟨uid_of env, snapshot (s.policy_nr_active_map G) / CPUS_PER_ENTRY⟩) :
    ((tp_sched_switch env args s).2.uid_concurrent_times_map.lookup
        ⟨uid_of env, snapshot (s.nr_active_map 0) / CPUS_PER_ENTRY⟩).isSome = true ∧
      ((tp_sched_switch env args s).2.uid_concurrent_times_map.lookup
        ⟨uid_of env, snapshot (s.policy_nr_active_map G) / CPUS_PER_ENTRY⟩).isSome = true ∧
      (∀ k c o,
        (record zero_concurrent_val (tp_sched_switch env args s).2.uid_concurrent_times_map
            k c).active o =
          if k = ⟨uid_of env, snapshot (s.nr_active_map 0) / CPUS_PER_ENTRY⟩ ∧
              c = env.smp_processor_id ∧ o = cpu_off (snapshot (s.nr_active_map 0)) then
            ((record zero_concurrent_val s.uid_concurrent_times_map k c).active o +
              delta_of env.ktime_ns (s.cpu_last_update_map 0 env.smp_processor_id)) % 2 ^ 64
          else (record zero_concurrent_val s.uid_concurrent_times_map k c).active o) ∧
      (∀ k c o,
        (record zero_concurrent_val (tp_sched_switch env args s).2.uid_concurrent_times_map
            k c).policy o =
          if k = ⟨uid_of env, snapshot (s.policy_nr_active_map G) / CPUS_PER_ENTRY⟩ ∧
              c = env.smp_processor_id ∧
              o = cpu_off (snapshot (s.policy_nr_active_map G)) then
            ((record zero_concurrent_val s.uid_concurrent_times_map k c).policy o +
              delta_of env.ktime_ns (s.cpu_last_update_map 0 env.smp_processor_id)) % 2 ^ 64
          else (record zero_concurrent_val s.uid_concurrent_times_map k c).policy o) ∧
      (∀ k, k ≠ ⟨uid_of env, snapshot (s.nr_active_map 0) / CPUS_PER_ENTRY⟩ →
        k ≠ ⟨uid_of env, snapshot (s.policy_nr_active_map G) / CPUS_PER_ENTRY⟩ →
        (tp_sched_switch env args s).2.uid_concurrent_times_map.lookup k =
          s.uid_concurrent_times_map.lookup k) := by
  have hm := (tp_sched_switch_attributes env args s G sidx hmap hprev hold hidx h0).2
  rw [hm]
  refine ⟨?_, ?_, ?_, ?_, ?_⟩
  · rw [concurrent_times_add_eq, touch_touch_lookup _ _ _ _ _ _ hroom]
    split_ifs <;> first | rfl | exact absurd rfl (by assumption)
  · rw [concurrent_times_add_eq, touch_touch_lookup _ _ _ _ _ _ hroom]
    simp
  · intro k c o
    rw [concurrent_times_add_record _ _ _ _ _ _ hroom]
    by_cases hkp : k = ⟨uid_of env, snapshot (s.policy_nr_active_map G) / CPUS_PER_ENTRY⟩
    · by_cases hkg : k = ⟨uid_of env, snapshot (s.nr_active_map 0) / CPUS_PER_ENTRY⟩
      · have hpg : (⟨uid_of env, snapshot (s.policy_nr_active_map G) / CPUS_PER_ENTRY⟩ :
            time_key) = ⟨uid_of env, snapshot (s.nr_active_map 0) / CPUS_PER_ENTRY⟩ := by
          rw [← hkp, ← hkg]
        rw [if_pos hkp, if_pos hpg, add_policy_active, add_active_active, ← hkg]
        simp
      · have hpg : ¬ (⟨uid_of env, snapshot (s.policy_nr_active_map G) / CPUS_PER_ENTRY⟩ :
            time_key) = ⟨uid_of env, snapshot (s.nr_active_map 0) / CPUS_PER_ENTRY⟩ := by
          rw [← hkp]
          exact hkg
        rw [if_pos hkp, if_neg hpg, add_policy_active, ← hkp]
        simp [hkg]
    · rw [if_neg hkp]
      by_cases hkg : k = ⟨uid_of env, snapshot (s.nr_active_map 0) / CPUS_PER_ENTRY⟩
      · rw [if_pos hkg, add_active_active, ← hkg]
        simp
      · rw [if_neg hkg]
        simp [hkg]
  · intro k c o
    rw [concurrent_times_add_record _ _ _ _ _ _ hroom]
    by_cases hkp : k = ⟨uid_of env, snapshot (s.policy_nr_active_map G) / CPUS_PER_ENTRY⟩
    · by_cases hpg : (⟨uid_of env, snapshot (s.policy_nr_active_map G) / CPUS_PER_ENTRY⟩ :
          time_key) = ⟨uid_of env, snapshot (s.nr_active_map 0) / CPUS_PER_ENTRY⟩
      · rw [if_pos hkp, if_pos hpg, add_policy_policy, add_active_policy, ← hpg, ← hkp]
        simp
      · rw [if_pos hkp, if_neg hpg, add_policy_policy, ← hkp]
        simp
    · rw [if_neg hkp]
      by_cases hkg : k = ⟨uid_of env, snapshot (s.nr_active_map 0) / CPUS_PER_ENTRY⟩
      · rw [if_pos hkg, add_active_policy, ← hkg]
        simp [hkp]
      · rw [if_neg hkg]
        simp [hkp]
  · intro k hkg hkp
    rw [concurrent_times_add_eq, touch_touch_lookup _ _ _ _ _ _ hroom]
    simp [hkg, hkp]

/-- A run of C5 on the warmed-up engine: owner 1000 leaves processor 0 at clock reading 107
while one processor is counted active, so both snapshots are 0 and offset 0 of the `active`
array of the bucket-0 record takes the 100 ns. -/
theorem sched_switch_concurrency_bucket_witness :
    array_lookup 1024 warm.cpu_policy_map 0 = some 0 ∧
      array_lookup 1024 warm.policy_freq_idx_map 0 = some 3 ∧
      snapshot (warm.nr_active_map 0) = 0 ∧
      (record zero_concurrent_val
        (tp_sched_switch ⟨0, 107, 1000⟩ ⟨5, 0⟩ warm).2.uid_concurrent_times_map
        ⟨1000, 0⟩ 0).active 0 = 100 :=
  ⟨by decide, by decide, by decide,
    ((sched_switch_concurrency_bucket ⟨0, 107, 1000⟩ ⟨5, 0⟩ warm 0 3 (by decide) (by decide)
      (by decide) (by decide) (by decide) ⟨Or.inr (by decide), Or.inr (Or.inl rfl)⟩).2.2.1
        ⟨1000, 0⟩ 0 0).trans (by decide)⟩

/-- C6: on an attributing `tp_sched_switch` event with no table-full failure, `g` and `p`
being the global and the policy snapshot: if `g div 8 = p div 8`, the records under every
key other than `(owner, g div 8)` are unchanged, and that record has `delta` added in its
`active` array at `g mod 8` and in its `policy` array at `p mod 8`; if
`g div 8 ≠ p div 8`, the keys `(owner, g div 8)` and `(owner, p div 8)` differ, the records
under every other key are unchanged, the first has `delta` added in its `active` array
and its `policy` array is as before, the second has `delta` added in its `policy` array
and its `active` array is as before. -/
theorem sched_switch_record_sharing (env : Env) (args : switch_args) (s : State)
    (G sidx : Nat)
    (hmap : array_lookup 1024 s.cpu_policy_map env.smp_processor_id = some G)
    (hprev : args.prev_pid ≠ 0)
    (hold : s.cpu_last_update_map 0 env.smp_processor_id ≠ 0)
    (hidx : array_lookup 1024 s.policy_freq_idx_map G = some sidx)
    (h0 : sidx ≠ 0)
    (hroom : both_present_or_creatable s.uid_concurrent_times_map
      ⟨uid_of env, snapshot (s.nr_active_map 0) / CPUS_PER_ENTRY⟩
      ⟨uid_of env, snapshot (s.policy_nr_active_map G) / CPUS_PER_ENTRY⟩) :
    (snapshot (s.nr_active_map 0) / CPUS_PER_ENTRY =
        snapshot (s.policy_nr_active_map G) / CPUS_PER_ENTRY →
      (∀ k, k ≠ ⟨uid_of env, snapshot (s.nr_active_map 0) / CPUS_PER_ENTRY⟩ →
        (tp_sched_switch env args s).2.uid_concurrent_times_map.lookup k =
          s.uid_concurrent_times_map.lookup k) ∧
      ((tp_sched_switch env args s).2.uid_concurrent_times_map.lookup
        ⟨uid_of env, snapshot (s.nr_active_map 0) / CPUS_PER_ENTRY⟩).isSome = true ∧
      (record zero_concurrent_val (tp_sched_switch env args s).2.uid_concurrent_times_map
          ⟨uid_of env, snapshot (s.nr_active_map 0) / CPUS_PER_ENTRY⟩
          env.smp_processor_id).active (cpu_off (snapshot (s.nr_active_map 0))) =
        ((record zero_concurrent_val s.uid_concurrent_times_map
            ⟨uid_of env, snapshot (s.nr_active_map 0) / CPUS_PER_ENTRY⟩
            env.smp_processor_id).active (cpu_off (snapshot (s.nr_active_map 0))) +
          delta_of env.ktime_ns (s.cpu_last_update_map 0 env.smp_processor_id)) % 2 ^ 64 ∧
      (record zero_concurrent_val (tp_sched_switch env args s).2.uid_concurrent_times_map
          ⟨uid_of env, snapshot (s.nr_active_map 0) / CPUS_PER_ENTRY⟩
          env.smp_processor_id).policy (cpu_off (snapshot (s.policy_nr_active_map G))) =
        ((record zero_concurrent_val s.uid_concurrent_times_map
            ⟨uid_of env, snapshot (s.nr_active_map 0) / CPUS_PER_ENTRY⟩
            env.smp_processor_id).policy (cpu_off (snapshot (s.policy_nr_active_map G))) +
          delta_of env.ktime_ns (s.cpu_last_update_map 0 env.smp_processor_id)) % 2 ^ 64) ∧
    (snapshot (s.nr_active_map 0) / CPUS_PER_ENTRY ≠
        snapshot (s.policy_nr_active_map G) / CPUS_PER_ENTRY →
      (⟨uid_of env, snapshot (s.nr_active_map 0) / CPUS_PER_ENTRY⟩ : time_key) ≠
        ⟨uid_of env, snapshot (s.policy_nr_active_map G) / CPUS_PER_ENTRY⟩ ∧
      (∀ k, k ≠ ⟨uid_of env, snapshot (s.nr_active_map 0) / CPUS_PER_ENTRY⟩ →
        k ≠ ⟨uid_of env, snapshot (s.policy_nr_active_map G) / CPUS_PER_ENTRY⟩ →
        (tp_sched_switch env args s).2.uid_concurrent_times_map.lookup k =
          s.uid_concurrent_times_map.lookup k) ∧
      ((tp_sched_switch env args s).2.uid_concurrent_times_map.lookup
        ⟨uid_of env, snapshot (s.nr_active_map 0) / CPUS_PER_ENTRY⟩).isSome = true ∧
      ((tp_sched_switch env args s).2.uid_concurrent_times_map.lookup
        ⟨uid_of env, snapshot (s.policy_nr_active_map G) / CPUS_PER_ENTRY⟩).isSome = true ∧
      (record zero_concurrent_val (tp_sched_switch env args s).2.uid_concurrent_times_map
          ⟨uid_of env, snapshot (s.nr_active_map 0) / CPUS_PER_ENTRY⟩
          env.smp_processor_id).active (cpu_off (snapshot (s.nr_active_map 0))) =
        ((record zero_concurrent_val s.uid_concurrent_times_map
            ⟨uid_of env, snapshot (s.nr_active_map 0) / CPUS_PER_ENTRY⟩
            env.smp_processor_id).active (cpu_off (snapshot (s.nr_active_map 0))) +
          delta_of env.ktime_ns (s.cpu_last_update_map 0 env.smp_processor_id)) % 2 ^ 64 ∧
      (∀ c,
        (record zero_concurrent_val (tp_sched_switch env args s).2.uid_concurrent_times_map
          ⟨uid_of env, snapshot (s.nr_active_map 0) / CPUS_PER_ENTRY⟩ c).policy =
        (record zero_concurrent_val s.uid_concurrent_times_map
          ⟨uid_of env, snapshot (s.nr_active_map 0) / CPUS_PER_ENTRY⟩ c).policy) ∧
      (record zero_concurrent_val (tp_sched_switch env args s).2.uid_concurrent_times_map
          ⟨uid_of env, snapshot (s.policy_nr_active_map G) / CPUS_PER_ENTRY⟩
          env.smp_processor_id).policy (cpu_off (snapshot (s.policy_nr_active_map G))) =
        ((record zero_concurrent_val s.uid_concurrent_times_map
            ⟨uid_of env, snapshot (s.policy_nr_active_map G) / CPUS_PER_ENTRY⟩
            env.smp_processor_id).policy (cpu_off (snapshot (s.policy_nr_active_map G))) +
          delta_of env.ktime_ns (s.cpu_last_update_map 0 env.smp_processor_id)) % 2 ^ 64 ∧
      (∀ c,
        (record zero_concurrent_val (tp_sched_switch env args s).2.uid_concurrent_times_map
          ⟨uid_of env, snapshot (s.policy_nr_active_map G) / CPUS_PER_ENTRY⟩ c).active =
        (record zero_concurrent_val s.uid_concurrent_times_map
          ⟨uid_of env, snapshot (s.policy_nr_active_map G) / CPUS_PER_ENTRY⟩ c).active)) := by
  rw [(tp_sched_switch_attributes env args s G sidx hmap hprev hold hidx h0).2]
  exact concurrent_times_add_sharing _ _ _ _ _ _ hroom

/-- A run of C6 on the warmed-up engine: both snapshots are 0, one record is shared, and
its `policy` array takes the 100 ns at offset 0 as well. -/
theorem sched_switch_record_sharing_witness :
    array_lookup 1024 warm.cpu_policy_map 0 = some 0 ∧
      array_lookup 1024 warm.policy_freq_idx_map 0 = some 3 ∧
      snapshot (warm.nr_active_map 0) / CPUS_PER_ENTRY =
        snapshot (warm.policy_nr_active_map 0) / CPUS_PER_ENTRY ∧
      (record zero_concurrent_val
        (tp_sched_switch ⟨0, 107, 1000⟩ ⟨5, 0⟩ warm).2.uid_concurrent_times_map
        ⟨1000, 0⟩ 0).policy 0 = 100 :=
  ⟨by decide, by decide, by decide,
    ((sched_switch_record_sharing ⟨0, 107, 1000⟩ ⟨5, 0⟩ warm 0 3 (by decide) (by decide)
      (by decide) (by decide) (by decide) ⟨Or.inr (by decide), Or.inr (Or.inl rfl)⟩).1
        (by decide)).2.2.2.trans (by decide)⟩

/-! ## The active counters -/

/-- C7, as stated, fails: processor 0 is mapped (to policy id 1024), the outgoing subject
is idle, and yet the global counter stays 0 instead of becoming 1, because policy 1024 has
no slot in `policy_nr_active_map` and the handler returns at line 88. -/
theorem sched_switch_counter_rule_counterexample :
    array_lookup 1024 (fresh (fun _ => 1024) (BpfHash.empty 0)).cpu_policy_map 0 = some 1024 ∧
      (⟨0, 5⟩ : switch_args).prev_pid = 0 ∧
      (fresh (fun _ => 1024) (BpfHash.empty 0)).nr_active_map 0 = 0 ∧
      (tp_sched_switch ⟨0, 7, 0⟩ ⟨0, 5⟩
        (fresh (fun _ => 1024) (BpfHash.empty 0))).2.nr_active_map 0 = 0 := by
  refine ⟨by decide, rfl, rfl, by decide⟩

/-- C7 (amended): on a processor mapped to a policy-group `G` whose id is below 1024 (so
that `G` has a counter), the global counter and the counter of `G` both move by the same
step in 32-bit arithmetic: `+1` if the outgoing subject is idle or (`old_last = 0` and the
incoming subject is not idle), `-1` if the outgoing subject is not idle, `old_last ≠ 0` and
the incoming subject is idle, nothing otherwise; no hypothesis is made on the frequency
index or on the accounting tables.  The counter of every other policy-group is unchanged.
On an unmapped processor, and on one mapped to a policy id of 1024 or more, no counter
changes. -/
theorem sched_switch_counter_rule (env : Env) (args : switch_args) (s : State) :
    (∀ G, array_lookup 1024 s.cpu_policy_map env.smp_processor_id = some G → G < 1024 →
      (tp_sched_switch env args s).2.nr_active_map 0 =
          active_after args (s.cpu_last_update_map 0 env.smp_processor_id)
            (s.nr_active_map 0) ∧
        ∀ G', (tp_sched_switch env args s).2.policy_nr_active_map G' =
          if G' = G then
            active_after args (s.cpu_last_update_map 0 env.smp_processor_id)
              (s.policy_nr_active_map G)
          else s.policy_nr_active_map G') ∧
    ((array_lookup 1024 s.cpu_policy_map env.smp_processor_id = none ∨
        ∃ G, array_lookup 1024 s.cpu_policy_map env.smp_processor_id = some G ∧ 1024 ≤ G) →
      (tp_sched_switch env args s).2.nr_active_map = s.nr_active_map ∧
        (tp_sched_switch env args s).2.policy_nr_active_map = s.policy_nr_active_map) := by
  rw [tp_sched_switch_cases]
  dsimp only
  simp only [array_lookup, active_after]
  by_cases hc : env.smp_processor_id < 1024
  · simp only [hc, if_true, Option.some.injEq, true_and]
    constructor
    · intro G hG hG'
      subst hG
      simp only [hG', if_true]
      refine ⟨?_, fun G' => ?_⟩
      · split_ifs <;> simp_all [fetch_and_add32, Function.update_apply]
      · split_ifs <;> simp_all [fetch_and_add32, Function.update_apply]
    · rintro (h | ⟨G, hG, hG'⟩)
      · simp at h
      · subst hG
        have : ¬ s.cpu_policy_map env.smp_processor_id < 1024 := by omega
        simp [this]
  · simp [hc]

/-- A run of the amended C7 on the engine at start: processor 0 mapped to policy 0 leaves
idle, and both counters become 1. -/
theorem sched_switch_counter_rule_witness :
    array_lookup 1024 (fresh (fun _ => 0) (BpfHash.empty 0)).cpu_policy_map 0 = some 0 ∧
      (tp_sched_switch ⟨0, 7, 0⟩ ⟨0, 5⟩
        (fresh (fun _ => 0) (BpfHash.empty 0))).2.nr_active_map 0 = 1 ∧
      (tp_sched_switch ⟨0, 7, 0⟩ ⟨0, 5⟩
        (fresh (fun _ => 0) (BpfHash.empty 0))).2.policy_nr_active_map 0 = 1 :=
  ⟨by decide,
    ((sched_switch_counter_rule ⟨0, 7, 0⟩ ⟨0, 5⟩ (fresh (fun _ => 0) (BpfHash.empty 0))).1 0
      (by decide) (by decide)).1,
    (((sched_switch_counter_rule ⟨0, 7, 0⟩ ⟨0, 5⟩ (fresh (fun _ => 0) (BpfHash.empty 0))).1 0
      (by decide) (by decide)).2 0)⟩

/-! ## Early returns leave the accounting tables alone -/

/-- C8: when the processor is unmapped, or the outgoing subject is idle, or the processor
has no previous clock reading, or the frequency index stored for the processor's
policy-group is 0, `tp_sched_switch` returns 0 and neither the time-in-state table nor
the concurrent-times table changes (same keys, same values). -/
theorem sched_switch_silent_skip (env : Env) (args : switch_args) (s : State)
    (h : array_lookup 1024 s.cpu_policy_map env.smp_processor_id = none ∨
      args.prev_pid = 0 ∨
      s.cpu_last_update_map 0 env.smp_processor_id = 0 ∨
      ∃ G, array_lookup 1024 s.cpu_policy_map env.smp_processor_id = some G ∧
        array_lookup 1024 s.policy_freq_idx_map G = some 0) :
    (tp_sched_switch env args s).1 = 0 ∧
      (tp_sched_switch env args s).2.uid_time_in_state_map = s.uid_time_in_state_map ∧
      (tp_sched_switch env args s).2.uid_concurrent_times_map = s.uid_concurrent_times_map := by
  rw [tp_sched_switch_cases]
  refine ⟨rfl, ?_⟩
  dsimp only
  simp only [array_lookup] at h
  rcases h with h | h | h | ⟨G, h1, h2⟩
  · have hc : ¬ env.smp_processor_id < 1024 := by
      intro hc
      simp [hc] at h
    simp [hc]
  · split_ifs <;> simp_all
  · split_ifs <;> simp_all
  · have hc : env.smp_processor_id < 1024 := by
      by_contra hc
      simp [hc] at h1
    simp only [hc, if_true, Option.some.injEq] at h1
    subst h1
    have hp : s.cpu_policy_map env.smp_processor_id < 1024 := by
      by_contra hp
      simp [hp] at h2
    simp only [hp, if_true, Option.some.injEq] at h2
    split_ifs <;> simp_all

/-- A run of C8 on the engine at start: the outgoing subject is idle. -/
theorem sched_switch_silent_skip_witness :
    (⟨0, 5⟩ : switch_args).prev_pid = 0 ∧
      (tp_sched_switch ⟨0, 7, 0⟩ ⟨0, 5⟩ (fresh (fun _ => 0) (BpfHash.empty 0))).1 = 0 ∧
      (tp_sched_switch ⟨0, 7, 0⟩ ⟨0, 5⟩
          (fresh (fun _ => 0) (BpfHash.empty 0))).2.uid_time_in_state_map =
        (fresh (fun _ => 0) (BpfHash.empty 0)).uid_time_in_state_map ∧
      (tp_sched_switch ⟨0, 7, 0⟩ ⟨0, 5⟩
          (fresh (fun _ => 0) (BpfHash.empty 0))).2.uid_concurrent_times_map =
        (fresh (fun _ => 0) (BpfHash.empty 0)).uid_concurrent_times_map :=
  ⟨rfl, sched_switch_silent_skip ⟨0, 7, 0⟩ ⟨0, 5⟩ (fresh (fun _ => 0) (BpfHash.empty 0))
    (Or.inr (Or.inl rfl))⟩

/-! ## Clock refresh -/

/-- C9: after `tp_sched_switch`, on every path, the last-event clock of the executing
processor is the clock reading taken in this event, and the last-event clock of every
other processor is what it was. -/
theorem sched_switch_clock_refresh (env : Env) (args : switch_args) (s : State) (c : Nat) :
    (tp_sched_switch env args s).2.cpu_last_update_map 0 c =
      if c = env.smp_processor_id then env.ktime_ns else s.cpu_last_update_map 0 c := by
  rw [tp_sched_switch_cases]
  dsimp only
  split_ifs <;> simp_all [Function.update_apply]

/-! ## `tp_cpufreq` -/

/-- C10, as stated, fails: processor 0 is mapped to policy id 1024 and `(1024, 1000)` has
the index 5, yet after `tp_cpufreq` policy 1024 has no current frequency index, because
index 1024 is outside the 1024 slots of `policy_freq_idx_map` and the update is refused. -/
theorem cpufreq_success_counterexample :
    array_lookup 1024
        (fresh (fun _ => 1024) ⟨[⟨1024, 1000⟩], fun _ => 5⟩).cpu_policy_map 0 = some 1024 ∧
      (fresh (fun _ => 1024) ⟨[⟨1024, 1000⟩], fun _ => 5⟩).freq_to_idx_map.lookup ⟨1024, 1000⟩ =
        some 5 ∧
      array_lookup 1024
        (tp_cpufreq ⟨1000, 0⟩
          (fresh (fun _ => 1024) ⟨[⟨1024, 1000⟩], fun _ => 5⟩)).2.policy_freq_idx_map 1024 =
        none ∧
      (tp_cpufreq ⟨1000, 0⟩
        (fresh (fun _ => 1024) ⟨[⟨1024, 1000⟩], fun _ => 5⟩)).2.policy_freq_idx_map 1024 ≠ 5 := by
  refine ⟨by decide, by decide, by decide, by decide⟩

/-- C10 (amended): if the processor of a `tp_cpufreq` event is mapped to a policy-group `G`
with id below 1024 and `(G, freq)` has the entry `idx` in `freq_to_idx_map`, then afterwards
the current frequency index of `G` is `idx`, whatever it was, the handler returns 0, and
nothing else changes: the index of every other policy-group, both topology tables, the
clocks, both active counters and both accounting tables. -/
theorem cpufreq_success (args : cpufreq_args) (s : State) (G idx : Nat)
    (hmap : array_lookup 1024 s.cpu_policy_map args.cpu_id = some G)
    (hG : G < 1024)
    (hidx : s.freq_to_idx_map.lookup ⟨G, args.state⟩ = some idx) :
    (tp_cpufreq args s).1 = 0 ∧
      array_lookup 1024 (tp_cpufreq args s).2.policy_freq_idx_map G = some idx ∧
      (∀ G', (tp_cpufreq args s).2.policy_freq_idx_map G' =
        if G' = G then idx else s.policy_freq_idx_map G') ∧
      (tp_cpufreq args s).2.cpu_policy_map = s.cpu_policy_map ∧
      (tp_cpufreq args s).2.freq_to_idx_map = s.freq_to_idx_map ∧
      (tp_cpufreq args s).2.cpu_last_update_map = s.cpu_last_update_map ∧
      (tp_cpufreq args s).2.nr_active_map = s.nr_active_map ∧
      (tp_cpufreq args s).2.policy_nr_active_map = s.policy_nr_active_map ∧
      (tp_cpufreq args s).2.uid_time_in_state_map = s.uid_time_in_state_map ∧
      (tp_cpufreq args s).2.uid_concurrent_times_map = s.uid_concurrent_times_map := by
  have h : tp_cpufreq args s =
      (0, { s with policy_freq_idx_map := Function.update s.policy_freq_idx_map G idx }) := by
    unfold tp_cpufreq
    simp only [hmap, hidx, array_update, hG, if_true]
  rw [h]
  simp [array_lookup, hG, Function.update_apply]

/-- A run of the amended C10: processor 0 is mapped to policy 0 and `(0, 1000)` has the
index 5. -/
theorem cpufreq_success_witness :
    array_lookup 1024 (fresh (fun _ => 0) ⟨[⟨0, 1000⟩], fun _ => 5⟩).cpu_policy_map 0 = some 0 ∧
      (fresh (fun _ => 0) ⟨[⟨0, 1000⟩], fun _ => 5⟩).freq_to_idx_map.lookup ⟨0, 1000⟩ = some 5 ∧
      array_lookup 1024
        (tp_cpufreq ⟨1000, 0⟩
          (fresh (fun _ => 0) ⟨[⟨0, 1000⟩], fun _ => 5⟩)).2.policy_freq_idx_map 0 = some 5 :=
  ⟨by decide, by decide,
    (cpufreq_success ⟨1000, 0⟩ (fresh (fun _ => 0) ⟨[⟨0, 1000⟩], fun _ => 5⟩) 0 5
      (by decide) (by decide) (by decide)).2.1⟩

/-! ## An unknown frequency changes nothing -/

/-- C11: when the processor of a `tp_cpufreq` event is unmapped, or its policy-group and the
raw frequency have no entry in `freq_to_idx_map`, the handler returns 0 and the whole state
is what it was; hence a following switch event, and any following sequence of events, gives
the same result as without the event. -/
theorem cpufreq_unknown (args : cpufreq_args) (s : State)
    (h : array_lookup 1024 s.cpu_policy_map args.cpu_id = none ∨
      ∃ G, array_lookup 1024 s.cpu_policy_map args.cpu_id = some G ∧
        s.freq_to_idx_map.lookup ⟨G, args.state⟩ = none) :
    (tp_cpufreq args s).1 = 0 ∧ (tp_cpufreq args s).2 = s ∧
      (∀ env a, tp_sched_switch env a (tp_cpufreq args s).2 = tp_sched_switch env a s) ∧
      ∀ es, run (tp_cpufreq args s).2 es = run s es := by
  have hs : tp_cpufreq args s = (0, s) := by
    unfold tp_cpufreq
    rcases h with h | ⟨G, h1, h2⟩
    · simp only [h]
    · simp only [h1, h2]
  rw [hs]
  exact ⟨rfl, rfl, fun _ _ => rfl, fun _ => rfl⟩

/-- A run of C11 on the engine at start, whose frequency-index table is empty. -/
theorem cpufreq_unknown_witness :
    (fresh (fun _ => 0) (BpfHash.empty 0)).freq_to_idx_map.lookup ⟨0, 1000⟩ = none ∧
      (tp_cpufreq ⟨1000, 0⟩ (fresh (fun _ => 0) (BpfHash.empty 0))).1 = 0 :=
  ⟨by decide,
    (cpufreq_unknown ⟨1000, 0⟩ (fresh (fun _ => 0) (BpfHash.empty 0))
      (Or.inr ⟨0, by decide, by decide⟩)).1⟩

/-! ## Accumulators do not decrease, short of an overflow -/

/-- C12, as stated, fails: on an engine whose record of owner 1000 holds 2^64 - 1 at offset 2
and whose clock on processor 0 reads 7, the event of owner 1000 at clock reading 107 (not
below 7) takes that accumulator to 99: the 64-bit addition of the 100 ns wraps around. -/
theorem accumulators_monotone_counterexample :
    brim.cpu_last_update_map 0 0 ≤ 107 ∧
      (brim.uid_time_in_state_map.lookup ⟨1000, 0⟩).isSome = true ∧
      (record zero_time_in_state_val brim.uid_time_in_state_map ⟨1000, 0⟩ 0).ar 2 =
        2 ^ 64 - 1 ∧
      (record zero_time_in_state_val
        (tp_sched_switch ⟨0, 107, 1000⟩ ⟨5, 0⟩ brim).2.uid_time_in_state_map
        ⟨1000, 0⟩ 0).ar 2 = 99 := by
  refine ⟨by decide, by decide, by decide, by decide⟩

/-- C12 (amended): for every state and every event, `tp_sched_switch` or `tp_cpufreq`, that
overflows none of the accumulators its interval is added to, every record stored in the
time-in-state table and in the concurrent-times table is still stored afterwards, and each
of its accumulators, on every processor, is at least what it was. -/
theorem accumulators_monotone (s : State) (e : Event) (hno : event_no_overflow s e) :
    (∀ k v, s.uid_time_in_state_map.lookup k = some v →
      ∃ v', (step s e).uid_time_in_state_map.lookup k = some v' ∧
        ∀ c o, (v c).ar o ≤ (v' c).ar o) ∧
    (∀ k v, s.uid_concurrent_times_map.lookup k = some v →
      ∃ v', (step s e).uid_concurrent_times_map.lookup k = some v' ∧
        ∀ c o, (v c).active o ≤ (v' c).active o ∧ (v c).policy o ≤ (v' c).policy o) := by
  cases e with
  | cpufreq a =>
    simp only [step, tp_cpufreq_tis, tp_cpufreq_conc]
    exact ⟨fun k v h => ⟨v, h, fun _ _ => le_refl _⟩,
      fun k v h => ⟨v, h, fun _ _ => ⟨le_refl _, le_refl _⟩⟩⟩
  | sched_switch env args =>
    simp only [step, tp_sched_switch_tis, tp_sched_switch_conc]
    by_cases hatt : attributes s env args
    · obtain ⟨h1, h2, h3⟩ := hno hatt
      rw [if_pos hatt, if_pos hatt]
      exact ⟨fun k v h => time_in_state_add_mono _ _ _ _ _ h1 k v h,
        fun k v h => concurrent_times_add_mono _ _ _ _ _ _ h2 h3 k v h⟩
    · rw [if_neg hatt, if_neg hatt]
      exact ⟨fun k v h => ⟨v, h, fun _ _ => le_refl _⟩,
        fun k v h => ⟨v, h, fun _ _ => ⟨le_refl _, le_refl _⟩⟩⟩

/-- A run of the amended C12: an event of owner 1001 on the engine that holds a record of
owner 1000; that record is still stored afterwards. -/
theorem accumulators_monotone_witness :
    event_no_overflow brim (.sched_switch ⟨0, 107, 1001⟩ ⟨5, 0⟩) ∧
      ∃ v', (step brim (.sched_switch ⟨0, 107, 1001⟩ ⟨5, 0⟩)).uid_time_in_state_map.lookup
          ⟨1000, 0⟩ = some v' ∧
        ∀ c o, (brim.uid_time_in_state_map.val ⟨1000, 0⟩ c).ar o ≤ (v' c).ar o := by
  have hno : event_no_overflow brim (.sched_switch ⟨0, 107, 1001⟩ ⟨5, 0⟩) := by
    show no_overflow brim ⟨0, 107, 1001⟩ ⟨5, 0⟩
    decide
  exact ⟨hno,
    (accumulators_monotone brim (.sched_switch ⟨0, 107, 1001⟩ ⟨5, 0⟩) hno).1 ⟨1000, 0⟩ _ rfl⟩

/-! ## A full time-in-state table -/

/-- C13, as stated, fails: on the warmed-up engine the time-in-state table is full (1024
records) and has no record of owner 1000; the event of owner 1000 at clock reading 107
attributes time, cannot create its time-in-state record, and yet its 100 ns are added to
offset 0 of the `active` array of the concurrent-times record `(1000, 0)`, which is created
for it.  Lines 127-145 run whether or not `val` is NULL. -/
theorem allocation_failure_counterexample :
    attributes crowded ⟨0, 107, 1000⟩ ⟨5, 0⟩ ∧
      (crowded.uid_time_in_state_map.lookup ⟨1000, 0⟩).isNone = true ∧
      crowded.uid_time_in_state_map.keys.length = 1024 ∧
      (crowded.uid_concurrent_times_map.lookup ⟨1000, 0⟩).isNone = true ∧
      ((tp_sched_switch ⟨0, 107, 1000⟩ ⟨5, 0⟩ crowded).2.uid_concurrent_times_map.lookup
        ⟨1000, 0⟩).isSome = true ∧
      (record zero_concurrent_val
        (tp_sched_switch ⟨0, 107, 1000⟩ ⟨5, 0⟩ crowded).2.uid_concurrent_times_map
        ⟨1000, 0⟩ 0).active 0 = 100 := by
  refine ⟨by decide, ?_, crowded_full, by decide, by decide, by decide⟩
  unfold BpfHash.lookup
  rw [if_neg (crowded_absent 0)]
  rfl

/-- C13 (amended): when a `tp_sched_switch` event would attribute time but its time-in-state
record is absent and the table is full, the handler returns 0 and the time-in-state table is
exactly what it was, in every such event: no record is modified or created and the interval
is added to none of its accumulators.  The concurrent-times attribution is carried out all
the same: if its records are stored or can be created, `delta` is added to the `active`
accumulator at the global snapshot and to the `policy` accumulator at the policy snapshot. -/
theorem allocation_failure (env : Env) (args : switch_args) (s : State)
    (hatt : attributes s env args)
    (habs : (⟨uid_of env,
        (s.policy_freq_idx_map (s.cpu_policy_map env.smp_processor_id) + 255) % 256 /
          FREQS_PER_ENTRY⟩ : time_key) ∉ s.uid_time_in_state_map.keys)
    (hfull : 1024 ≤ s.uid_time_in_state_map.keys.length) :
    (tp_sched_switch env args s).1 = 0 ∧
      (tp_sched_switch env args s).2.uid_time_in_state_map = s.uid_time_in_state_map ∧
      (both_present_or_creatable s.uid_concurrent_times_map
          ⟨uid_of env, snapshot (s.nr_active_map 0) / CPUS_PER_ENTRY⟩
          ⟨uid_of env,
            snapshot (s.policy_nr_active_map (s.cpu_policy_map env.smp_processor_id)) /
              CPUS_PER_ENTRY⟩ →
      (record zero_concurrent_val (tp_sched_switch env args s).2.uid_concurrent_times_map
          ⟨uid_of env, snapshot (s.nr_active_map 0) / CPUS_PER_ENTRY⟩
          env.smp_processor_id).active (cpu_off (snapshot (s.nr_active_map 0))) =
        ((record zero_concurrent_val s.uid_concurrent_times_map
            ⟨uid_of env, snapshot (s.nr_active_map 0) / CPUS_PER_ENTRY⟩
            env.smp_processor_id).active (cpu_off (snapshot (s.nr_active_map 0))) +
          delta_of env.ktime_ns (s.cpu_last_update_map 0 env.smp_processor_id)) % 2 ^ 64 ∧
      (record zero_concurrent_val (tp_sched_switch env args s).2.uid_concurrent_times_map
          ⟨uid_of env,
            snapshot (s.policy_nr_active_map (s.cpu_policy_map env.smp_processor_id)) /
              CPUS_PER_ENTRY⟩
          env.smp_processor_id).policy
          (cpu_off (snapshot
            (s.policy_nr_active_map (s.cpu_policy_map env.smp_processor_id)))) =
        ((record zero_concurrent_val s.uid_concurrent_times_map
            ⟨uid_of env,
              snapshot (s.policy_nr_active_map (s.cpu_policy_map env.smp_processor_id)) /
                CPUS_PER_ENTRY⟩
            env.smp_processor_id).policy
            (cpu_off (snapshot
              (s.policy_nr_active_map (s.cpu_policy_map env.smp_processor_id)))) +
          delta_of env.ktime_ns (s.cpu_last_update_map 0 env.smp_processor_id)) % 2 ^ 64) := by
  have hno : ¬ present_or_creatable s.uid_time_in_state_map
      ⟨uid_of env,
        (s.policy_freq_idx_map (s.cpu_policy_map env.smp_processor_id) + 255) % 256 /
          FREQS_PER_ENTRY⟩ := by
    rintro (h | h)
    · exact habs h
    · omega
  refine ⟨tp_sched_switch_ret env args s, ?_, ?_⟩
  · rw [tp_sched_switch_tis, if_pos hatt, time_in_state_add_eq, touch_full _ _ _ _ hno]
  · intro hroom
    rw [tp_sched_switch_conc, if_pos hatt]
    exact concurrent_times_add_targets _ _ _ _ _ _ hroom

/-- A run of the amended C13 on the engine with the full table: the event of owner 1000 at
clock reading 107 leaves the time-in-state table as it was, and its 100 ns are added to the
`active` accumulator at offset 0 of the concurrent-times record `(1000, 0)`. -/
theorem allocation_failure_witness :
    attributes crowded ⟨0, 107, 1000⟩ ⟨5, 0⟩ ∧
      1024 ≤ crowded.uid_time_in_state_map.keys.length ∧
      (tp_sched_switch ⟨0, 107, 1000⟩ ⟨5, 0⟩ crowded).2.uid_time_in_state_map =
        crowded.uid_time_in_state_map ∧
      (record zero_concurrent_val
        (tp_sched_switch ⟨0, 107, 1000⟩ ⟨5, 0⟩ crowded).2.uid_concurrent_times_map
        ⟨1000, 0⟩ 0).active 0 = 100 :=
  ⟨by decide, le_of_eq crowded_full.symm,
    (allocation_failure ⟨0, 107, 1000⟩ ⟨5, 0⟩ crowded (by decide) (crowded_absent _)
      (le_of_eq crowded_full.symm)).2.1,
    (((allocation_failure ⟨0, 107, 1000⟩ ⟨5, 0⟩ crowded (by decide) (crowded_absent _)
      (le_of_eq crowded_full.symm)).2.2 ⟨Or.inr (by decide), Or.inr (Or.inl rfl)⟩).1).trans
        (by decide)⟩

/-! ## What the snapshots count -/

/-- C14: in a well-formed run from the engine at start on processors `0 .. N-1`, at every
switch event that attributes time: the global snapshot plus one is the global counter (no
wrap-around), the snapshot is the number of counted processors other than the executing
one, and it is below `N`; likewise the policy snapshot plus one is the counter of the
policy-group, it is the number of counted other processors of the group, and it is below
the number of processors mapped to the group.  With two processors the global attribution
falls in bucket 0 at offset 0 or 1.  In the concurrent-times table after the event, any
`active` accumulator that differs from before belongs to the owner, lies in the slot of the
executing processor, and its index `bucket * 8 + offset` is the number of counted other
processors, below `N` (with two processors: bucket 0, offset 0 or 1); any `policy`
accumulator that differs has as index the number of counted other processors of the group,
below the size of the group; and when the records can be created, `delta` has been added
(64-bit) to the `active` accumulator and to the `policy` accumulator at these two indices. -/
theorem snapshot_meaning (N : Nat) (cp : Nat → Nat) (f2i : BpfHash freq_idx_key Nat)
    (pre suf : List Event) (env : Env) (args : switch_args)
    (hwf : well_formed N (fun _ => none) (pre ++ .sched_switch env args :: suf))
    (hatt : attributes (run (fresh cp f2i) pre) env args) :
    snapshot ((run (fresh cp f2i) pre).nr_active_map 0) + 1 =
        (run (fresh cp f2i) pre).nr_active_map 0 ∧
      snapshot ((run (fresh cp f2i) pre).nr_active_map 0) =
        Finset.sum ((Finset.range N).erase env.smp_processor_id)
          (fun c => act cp (last_next_after (fun _ => none) pre) c) ∧
      snapshot ((run (fresh cp f2i) pre).nr_active_map 0) < N ∧
      snapshot ((run (fresh cp f2i) pre).policy_nr_active_map (cp env.smp_processor_id)) + 1 =
        (run (fresh cp f2i) pre).policy_nr_active_map (cp env.smp_processor_id) ∧
      snapshot ((run (fresh cp f2i) pre).policy_nr_active_map (cp env.smp_processor_id)) =
        Finset.sum ((Finset.range N).erase env.smp_processor_id)
          (fun c => if cp c = cp env.smp_processor_id then
            act cp (last_next_after (fun _ => none) pre) c else 0) ∧
      snapshot ((run (fresh cp f2i) pre).policy_nr_active_map (cp env.smp_processor_id)) <
        group_size N cp (cp env.smp_processor_id) ∧
      (N = 2 →
        snapshot ((run (fresh cp f2i) pre).nr_active_map 0) / CPUS_PER_ENTRY = 0 ∧
        (cpu_off (snapshot ((run (fresh cp f2i) pre).nr_active_map 0))).val ≤ 1) ∧
      (∀ k c o,
        (record zero_concurrent_val
            (tp_sched_switch env args (run (fresh cp f2i) pre)).2.uid_concurrent_times_map
            k c).active o ≠
          (record zero_concurrent_val (run (fresh cp f2i) pre).uid_concurrent_times_map
            k c).active o →
        k.uid = uid_of env ∧ c = env.smp_processor_id ∧
          k.bucket * CPUS_PER_ENTRY + o.val =
            Finset.sum ((Finset.range N).erase env.smp_processor_id)
              (fun c => act cp (last_next_after (fun _ => none) pre) c) ∧
          k.bucket * CPUS_PER_ENTRY + o.val < N ∧
          (N = 2 → k.bucket = 0 ∧ o.val ≤ 1)) ∧
      (∀ k c o,
        (record zero_concurrent_val
            (tp_sched_switch env args (run (fresh cp f2i) pre)).2.uid_concurrent_times_map
            k c).policy o ≠
          (record zero_concurrent_val (run (fresh cp f2i) pre).uid_concurrent_times_map
            k c).policy o →
        k.uid = uid_of env ∧ c = env.smp_processor_id ∧
          k.bucket * CPUS_PER_ENTRY + o.val =
            Finset.sum ((Finset.range N).erase env.smp_processor_id)
              (fun c => if cp c = cp env.smp_processor_id then
                act cp (last_next_after (fun _ => none) pre) c else 0) ∧
          k.bucket * CPUS_PER_ENTRY + o.val < group_size N cp (cp env.smp_processor_id)) ∧
      (both_present_or_creatable (run (fresh cp f2i) pre).uid_concurrent_times_map
          ⟨uid_of env,
            Finset.sum ((Finset.range N).erase env.smp_processor_id)
              (fun c => act cp (last_next_after (fun _ => none) pre) c) / CPUS_PER_ENTRY⟩
          ⟨uid_of env,
            Finset.sum ((Finset.range N).erase env.smp_processor_id)
              (fun c => if cp c = cp env.smp_processor_id then
                act cp (last_next_after (fun _ => none) pre) c else 0) / CPUS_PER_ENTRY⟩ →
        (record zero_concurrent_val
            (tp_sched_switch env args (run (fresh cp f2i) pre)).2.uid_concurrent_times_map
            ⟨uid_of env,
              Finset.sum ((Finset.range N).erase env.smp_processor_id)
                (fun c => act cp (last_next_after (fun _ => none) pre) c) / CPUS_PER_ENTRY⟩
            env.smp_processor_id).active
            (cpu_off (Finset.sum ((Finset.range N).erase env.smp_processor_id)
              (fun c => act cp (last_next_after (fun _ => none) pre) c))) =
          ((record zero_concurrent_val (run (fresh cp f2i) pre).uid_concurrent_times_map
            ⟨uid_of env,
              Finset.sum ((Finset.range N).erase env.smp_processor_id)
                (fun c => act cp (last_next_after (fun _ => none) pre) c) / CPUS_PER_ENTRY⟩
            env.smp_processor_id).active
            (cpu_off (Finset.sum ((Finset.range N).erase env.smp_processor_id)
              (fun c => act cp (last_next_after (fun _ => none) pre) c))) +
            delta_of env.ktime_ns
              ((run (fresh cp f2i) pre).cpu_last_update_map 0 env.smp_processor_id)) %
            2 ^ 64 ∧
        (record zero_concurrent_val
            (tp_sched_switch env args (run (fresh cp f2i) pre)).2.uid_concurrent_times_map
            ⟨uid_of env,
              Finset.sum ((Finset.range N).erase env.smp_processor_id)
                (fun c => if cp c = cp env.smp_processor_id then
                  act cp (last_next_after (fun _ => none) pre) c else 0) / CPUS_PER_ENTRY⟩
            env.smp_processor_id).policy
            (cpu_off (Finset.sum ((Finset.range N).erase env.smp_processor_id)
              (fun c => if cp c = cp env.smp_processor_id then
                act cp (last_next_after (fun _ => none) pre) c else 0))) =
          ((record zero_concurrent_val (run (fresh cp f2i) pre).uid_concurrent_times_map
            ⟨uid_of env,
              Finset.sum ((Finset.range N).erase env.smp_processor_id)
                (fun c => if cp c = cp env.smp_processor_id then
                  act cp (last_next_after (fun _ => none) pre) c else 0) / CPUS_PER_ENTRY⟩
            env.smp_processor_id).policy
            (cpu_off (Finset.sum ((Finset.range N).erase env.smp_processor_id)
              (fun c => if cp c = cp env.smp_processor_id then
                act cp (last_next_after (fun _ => none) pre) c else 0))) +
            delta_of env.ktime_ns
              ((run (fresh cp f2i) pre).cpu_last_update_map 0 env.smp_processor_id)) %
            2 ^ 64) := by
  have hrest := well_formed_append N pre _ _ hwf
  obtain ⟨hc, -, -, hw, -⟩ := hrest
  have hinv := counters_exact_run N cp pre _ _ (counters_exact_fresh N cp f2i)
    (well_formed_of_append N pre _ _ hwf)
  have hact := act_of_attributes N cp _ _ env args hinv hw hatt
  obtain ⟨hcp, -, h3, h4⟩ := hinv
  have hg := snapshot_of_count N env.smp_processor_id
    (fun c => act cp (last_next_after (fun _ => none) pre) c) hc hact (fun x => act_le _ _ x)
  have hp := snapshot_of_count N env.smp_processor_id
    (fun c => if cp c = cp env.smp_processor_id then
      act cp (last_next_after (fun _ => none) pre) c else 0) hc
    (by simp only [if_true, hact])
    (fun x => policy_act_le cp _ _ x)
  rw [← h3] at hg
  rw [← h4] at hp
  have hN := count_le N cp (last_next_after (fun _ => none) pre)
  rw [← h3] at hN
  have hG := policy_count_le N cp (last_next_after (fun _ => none) pre)
    (cp env.smp_processor_id)
  rw [← h4] at hG
  have hconc := tp_sched_switch_conc env args (run (fresh cp f2i) pre)
  rw [if_pos hatt, hcp] at hconc
  have hgN : snapshot ((run (fresh cp f2i) pre).nr_active_map 0) < N := by omega
  have hpG : snapshot ((run (fresh cp f2i) pre).policy_nr_active_map
      (cp env.smp_processor_id)) < group_size N cp (cp env.smp_processor_id) := by omega
  have hsplit : ∀ n : Nat, n / CPUS_PER_ENTRY * CPUS_PER_ENTRY + (cpu_off n).val = n := by
    intro n
    show n / 8 * 8 + n % 8 = n
    omega
  refine ⟨hg.1, hg.2, hgN, hp.1, hp.2, hpG, ?_, ?_, ?_, ?_⟩
  · intro h2
    have hlt : snapshot ((run (fresh cp f2i) pre).nr_active_map 0) < 2 := by omega
    constructor
    · show snapshot ((run (fresh cp f2i) pre).nr_active_map 0) / 8 = 0
      omega
    · show snapshot ((run (fresh cp f2i) pre).nr_active_map 0) % 8 ≤ 1
      omega
  · intro k c o hne
    rw [hconc] at hne
    obtain ⟨hk, hcc, ho⟩ := concurrent_times_add_active_frame _ _ _ _ _ _ k c o hne
    subst hk
    subst ho
    have hi := hsplit (snapshot ((run (fresh cp f2i) pre).nr_active_map 0))
    dsimp only
    refine ⟨rfl, hcc, ?_, ?_, ?_⟩
    · rw [hi]
      exact hg.2
    · rw [hi]
      exact hgN
    · intro h2
      have hlt : snapshot ((run (fresh cp f2i) pre).nr_active_map 0) < 2 := by omega
      constructor
      · show snapshot ((run (fresh cp f2i) pre).nr_active_map 0) / 8 = 0
        omega
      · show snapshot ((run (fresh cp f2i) pre).nr_active_map 0) % 8 ≤ 1
        omega
  · intro k c o hne
    rw [hconc] at hne
    obtain ⟨hk, hcc, ho⟩ := concurrent_times_add_policy_frame _ _ _ _ _ _ k c o hne
    subst hk
    subst ho
    have hi := hsplit (snapshot ((run (fresh cp f2i) pre).policy_nr_active_map
      (cp env.smp_processor_id)))
    dsimp only
    refine ⟨rfl, hcc, ?_, ?_⟩
    · rw [hi]
      exact hp.2
    · rw [hi]
      exact hpG
  · rw [← hg.2, ← hp.2]
    intro hroom
    rw [hconc]
    constructor
    · rw [concurrent_times_add_active_pointwise _ _ _ _ _ _ hroom, if_pos ⟨rfl, rfl, rfl⟩]
    · rw [concurrent_times_add_policy_pointwise _ _ _ _ _ _ hroom, if_pos ⟨rfl, rfl, rfl⟩]

/-- A run of C14 with two processors: policy 0 gets the frequency with index 3, processor 0
leaves idle at clock reading 7 and goes idle at 107; at that event the global snapshot is
below 2, no other processor is counted, and the 100 ns of the event are at index 0 of the
`active` array of the bucket-0 record of owner 1000, while index 1 still reads 0. -/
theorem snapshot_meaning_witness :
    attributes
        (run (fresh (fun _ => 0) ⟨[⟨0, 1000⟩], fun _ => 3⟩)
          [.cpufreq ⟨1000, 0⟩, .sched_switch ⟨0, 7, 0⟩ ⟨0, 5⟩]) ⟨0, 107, 1000⟩ ⟨5, 0⟩ ∧
      snapshot
        ((run (fresh (fun _ => 0) ⟨[⟨0, 1000⟩], fun _ => 3⟩)
          [.cpufreq ⟨1000, 0⟩, .sched_switch ⟨0, 7, 0⟩ ⟨0, 5⟩]).nr_active_map 0) < 2 ∧
      Finset.sum ((Finset.range 2).erase 0)
        (fun c => act (fun _ => 0)
          (last_next_after (fun _ => none)
            [.cpufreq ⟨1000, 0⟩, .sched_switch ⟨0, 7, 0⟩ ⟨0, 5⟩]) c) = 0 ∧
      (record zero_concurrent_val
        (tp_sched_switch ⟨0, 107, 1000⟩ ⟨5, 0⟩
          (run (fresh (fun _ => 0) ⟨[⟨0, 1000⟩], fun _ => 3⟩)
            [.cpufreq ⟨1000, 0⟩, .sched_switch ⟨0, 7, 0⟩ ⟨0, 5⟩])).2.uid_concurrent_times_map
        ⟨1000, 0⟩ 0).active 0 = 100 ∧
      (record zero_concurrent_val
        (tp_sched_switch ⟨0, 107, 1000⟩ ⟨5, 0⟩
          (run (fresh (fun _ => 0) ⟨[⟨0, 1000⟩], fun _ => 3⟩)
            [.cpufreq ⟨1000, 0⟩, .sched_switch ⟨0, 7, 0⟩ ⟨0, 5⟩])).2.uid_concurrent_times_map
        ⟨1000, 0⟩ 0).active 1 = 0 := by
  have hwf : well_formed 2 (fun _ => none)
      ([.cpufreq ⟨1000, 0⟩, .sched_switch ⟨0, 7, 0⟩ ⟨0, 5⟩] ++
        .sched_switch ⟨0, 107, 1000⟩ ⟨5, 0⟩ :: []) := by
    refine ⟨by decide, by decide, by decide, ?_, by decide, by decide, by decide, ?_, trivial⟩
    · intro n h
      cases h
    · intro n h
      simp [Function.update_apply] at h
      subst h
      decide
  have hatt : attributes
      (run (fresh (fun _ => 0) ⟨[⟨0, 1000⟩], fun _ => 3⟩)
        [.cpufreq ⟨1000, 0⟩, .sched_switch ⟨0, 7, 0⟩ ⟨0, 5⟩]) ⟨0, 107, 1000⟩ ⟨5, 0⟩ := by
    decide
  have hall := snapshot_meaning 2 (fun _ => 0) ⟨[⟨0, 1000⟩], fun _ => 3⟩ _ [] _ _ hwf hatt
  have hone : (record zero_concurrent_val
      (tp_sched_switch ⟨0, 107, 1000⟩ ⟨5, 0⟩
        (run (fresh (fun _ => 0) ⟨[⟨0, 1000⟩], fun _ => 3⟩)
          [.cpufreq ⟨1000, 0⟩, .sched_switch ⟨0, 7, 0⟩ ⟨0, 5⟩])).2.uid_concurrent_times_map
      ⟨1000, 0⟩ 0).active 1 = 0 := by
    by_contra hne
    have hidx := (hall.2.2.2.2.2.2.2.1 ⟨1000, 0⟩ 0 1
      (fun h => hne (h.trans (by decide)))).2.2.1
    exact absurd hidx (by decide)
  exact ⟨hatt, hall.2.2.1, by decide,
    ((hall.2.2.2.2.2.2.2.2.2 ⟨Or.inr (by decide), Or.inr (Or.inl (by decide))⟩).1).trans
      (by decide),
    hone⟩

/-! ## The topology tables are only read -/

/-- C15: `tp_sched_switch` leaves `cpu_policy_map`, `freq_to_idx_map` and
`policy_freq_idx_map` as they were, and `tp_cpufreq` leaves `cpu_policy_map` and
`freq_to_idx_map` as they were. -/
theorem topology_read_only (env : Env) (args : switch_args) (cargs : cpufreq_args)
    (s : State) :
    (tp_sched_switch env args s).2.cpu_policy_map = s.cpu_policy_map ∧
      (tp_sched_switch env args s).2.freq_to_idx_map = s.freq_to_idx_map ∧
      (tp_sched_switch env args s).2.policy_freq_idx_map = s.policy_freq_idx_map ∧
      (tp_cpufreq cargs s).2.cpu_policy_map = s.cpu_policy_map ∧
      (tp_cpufreq cargs s).2.freq_to_idx_map = s.freq_to_idx_map := by
  rw [tp_sched_switch_cases, tp_cpufreq_cases]
  dsimp only
  refine ⟨?_, ?_, ?_, ?_, ?_⟩
  · split_ifs <;> simp
  · split_ifs <;> simp
  · split_ifs <;> simp
  · split_ifs <;> rfl
  · split_ifs <;> rfl

/-! ## The global counter is the sum of the policy counters -/

/-- C16: from the engine at start, after any sequence of `tp_sched_switch` and `tp_cpufreq`
events whatsoever, the global active counter equals the sum of the active counters of all
policy-groups modulo 2^32. -/
theorem counter_consistency (cp : Nat → Nat) (f2i : BpfHash freq_idx_key Nat)
    (es : List Event) :
    (run (fresh cp f2i) es).nr_active_map 0 =
      policy_active_sum (run (fresh cp f2i) es) % 2 ^ 32 := by
  apply counters_agree_run
  unfold policy_active_sum
  simp [fresh]

/-! ## The three totals of an owner agree -/

/-- C17: start with both accounting tables empty and run any sequence of events in which no
record creation fails.  Then for every owner `U` and every processor `c` the sum of all
accumulators of the time-in-state records of `U`, the sum of all `active` accumulators of
the concurrent-times records of `U` and the sum of all their `policy` accumulators, each
taken in the slot of `c`, are equal modulo 2^64; so are the three sums over the slots of
any processors `0 .. N-1`.  And each attributing switch event of the sequence adds the same
`delta` (64-bit) to exactly one accumulator of each of the three: in the slot of the
executing processor, the `ar` accumulator of the owner at the frequency index, the `active`
accumulator of the owner at the global snapshot and the `policy` accumulator of the owner at
the policy snapshot; every other accumulator of the two tables, read as zero where the
record is absent, is what it was before the event. -/
theorem cross_table_agreement (s0 : State) (es : List Event)
    (h1 : s0.uid_time_in_state_map.keys = []) (h2 : s0.uid_concurrent_times_map.keys = [])
    (hok : never_fails s0 es) (U : Nat) :
    (∀ c,
      owner_total (run s0 es).uid_time_in_state_map U c % 2 ^ 64 =
          active_total (run s0 es).uid_concurrent_times_map U c % 2 ^ 64 ∧
        active_total (run s0 es).uid_concurrent_times_map U c % 2 ^ 64 =
          policy_total (run s0 es).uid_concurrent_times_map U c % 2 ^ 64) ∧
    (∀ N,
      Finset.sum (Finset.range N)
          (fun c => owner_total (run s0 es).uid_time_in_state_map U c) % 2 ^ 64 =
        Finset.sum (Finset.range N)
          (fun c => active_total (run s0 es).uid_concurrent_times_map U c) % 2 ^ 64 ∧
      Finset.sum (Finset.range N)
          (fun c => active_total (run s0 es).uid_concurrent_times_map U c) % 2 ^ 64 =
        Finset.sum (Finset.range N)
          (fun c => policy_total (run s0 es).uid_concurrent_times_map U c) % 2 ^ 64) ∧
    ∀ (pre suf : List Event) (env : Env) (args : switch_args),
      es = pre ++ .sched_switch env args :: suf →
      attributes (run s0 pre) env args →
      (∀ k c o,
        (record zero_time_in_state_val
            (tp_sched_switch env args (run s0 pre)).2.uid_time_in_state_map k c).ar o =
          if k = ⟨uid_of env,
                ((run s0 pre).policy_freq_idx_map
                  ((run s0 pre).cpu_policy_map env.smp_processor_id) + 255) % 256 /
                  FREQS_PER_ENTRY⟩ ∧
              c = env.smp_processor_id ∧
              o = freq_off (((run s0 pre).policy_freq_idx_map
                ((run s0 pre).cpu_policy_map env.smp_processor_id) + 255) % 256) then
            ((record zero_time_in_state_val (run s0 pre).uid_time_in_state_map k c).ar o +
              delta_of env.ktime_ns
                ((run s0 pre).cpu_last_update_map 0 env.smp_processor_id)) % 2 ^ 64
          else (record zero_time_in_state_val (run s0 pre).uid_time_in_state_map k c).ar o) ∧
      (∀ k c o,
        (record zero_concurrent_val
            (tp_sched_switch env args (run s0 pre)).2.uid_concurrent_times_map k c).active o =
          if k = ⟨uid_of env, snapshot ((run s0 pre).nr_active_map 0) / CPUS_PER_ENTRY⟩ ∧
              c = env.smp_processor_id ∧
              o = cpu_off (snapshot ((run s0 pre).nr_active_map 0)) then
            ((record zero_concurrent_val (run s0 pre).uid_concurrent_times_map k c).active o +
              delta_of env.ktime_ns
                ((run s0 pre).cpu_last_update_map 0 env.smp_processor_id)) % 2 ^ 64
          else
            (record zero_concurrent_val (run s0 pre).uid_concurrent_times_map k c).active o) ∧
      (∀ k c o,
        (record zero_concurrent_val
            (tp_sched_switch env args (run s0 pre)).2.uid_concurrent_times_map k c).policy o =
          if k = ⟨uid_of env,
                snapshot ((run s0 pre).policy_nr_active_map
                  ((run s0 pre).cpu_policy_map env.smp_processor_id)) / CPUS_PER_ENTRY⟩ ∧
              c = env.smp_processor_id ∧
              o = cpu_off (snapshot ((run s0 pre).policy_nr_active_map
                ((run s0 pre).cpu_policy_map env.smp_processor_id))) then
            ((record zero_concurrent_val (run s0 pre).uid_concurrent_times_map k c).policy o +
              delta_of env.ktime_ns
                ((run s0 pre).cpu_last_update_map 0 env.smp_processor_id)) % 2 ^ 64
          else
            (record zero_concurrent_val (run s0 pre).uid_concurrent_times_map k c).policy o) := by
  have hall : ∀ c, totals_agree (run s0 es) U c :=
    fun c => totals_agree_run U c es s0 (totals_agree_of_empty s0 U c h1 h2) hok
  refine ⟨hall, fun N => ⟨?_, ?_⟩, ?_⟩
  · exact sum_mod_congr N _ _ _ (fun c => (hall c).1)
  · exact sum_mod_congr N _ _ _ (fun c => (hall c).2)
  · intro pre suf env args hes hatt
    rw [hes] at hok
    have hroom := (never_fails_append pre _ s0 hok).1 hatt
    rw [tp_sched_switch_tis, tp_sched_switch_conc, if_pos hatt, if_pos hatt]
    exact ⟨fun k c o => time_in_state_add_pointwise _ _ _ _ _ hroom.1 k c o,
      fun k c o => concurrent_times_add_active_pointwise _ _ _ _ _ _ hroom.2 k c o,
      fun k c o => concurrent_times_add_policy_pointwise _ _ _ _ _ _ hroom.2 k c o⟩

/-- A run of C17: policy 0 is set to the frequency with index 3, processor 0 leaves idle at
clock reading 7 and owner 1000 leaves it at 107; no record creation fails, the
time-in-state total and the `active` total of owner 1000 agree modulo 2^64, each of the
three totals of owner 1000 is 100, and the last event has put its 100 ns at index 2 of
`ar`, at index 0 of `active` and at index 0 of `policy` of the records of owner 1000, each
of which read 0 before, while index 3 of `ar` still reads 0. -/
theorem cross_table_agreement_witness :
    never_fails (fresh (fun _ => 0) ⟨[⟨0, 1000⟩], fun _ => 3⟩)
        [.cpufreq ⟨1000, 0⟩, .sched_switch ⟨0, 7, 0⟩ ⟨0, 5⟩,
          .sched_switch ⟨0, 107, 1000⟩ ⟨5, 0⟩] ∧
      owner_total
          (run (fresh (fun _ => 0) ⟨[⟨0, 1000⟩], fun _ => 3⟩)
            [.cpufreq ⟨1000, 0⟩, .sched_switch ⟨0, 7, 0⟩ ⟨0, 5⟩,
              .sched_switch ⟨0, 107, 1000⟩ ⟨5, 0⟩]).uid_time_in_state_map 1000 0 % 2 ^ 64 =
        active_total
          (run (fresh (fun _ => 0) ⟨[⟨0, 1000⟩], fun _ => 3⟩)
            [.cpufreq ⟨1000, 0⟩, .sched_switch ⟨0, 7, 0⟩ ⟨0, 5⟩,
              .sched_switch ⟨0, 107, 1000⟩ ⟨5, 0⟩]).uid_concurrent_times_map 1000 0 %
          2 ^ 64 ∧
      owner_total
          (run (fresh (fun _ => 0) ⟨[⟨0, 1000⟩], fun _ => 3⟩)
            [.cpufreq ⟨1000, 0⟩, .sched_switch ⟨0, 7, 0⟩ ⟨0, 5⟩,
              .sched_switch ⟨0, 107, 1000⟩ ⟨5, 0⟩]).uid_time_in_state_map 1000 0 = 100 ∧
      active_total
          (run (fresh (fun _ => 0) ⟨[⟨0, 1000⟩], fun _ => 3⟩)
            [.cpufreq ⟨1000, 0⟩, .sched_switch ⟨0, 7, 0⟩ ⟨0, 5⟩,
              .sched_switch ⟨0, 107, 1000⟩ ⟨5, 0⟩]).uid_concurrent_times_map 1000 0 = 100 ∧
      policy_total
          (run (fresh (fun _ => 0) ⟨[⟨0, 1000⟩], fun _ => 3⟩)
            [.cpufreq ⟨1000, 0⟩, .sched_switch ⟨0, 7, 0⟩ ⟨0, 5⟩,
              .sched_switch ⟨0, 107, 1000⟩ ⟨5, 0⟩]).uid_concurrent_times_map 1000 0 = 100 ∧
      attributes
        (run (fresh (fun _ => 0) ⟨[⟨0, 1000⟩], fun _ => 3⟩)
          [.cpufreq ⟨1000, 0⟩, .sched_switch ⟨0, 7, 0⟩ ⟨0, 5⟩]) ⟨0, 107, 1000⟩ ⟨5, 0⟩ ∧
      (record zero_time_in_state_val
        (tp_sched_switch ⟨0, 107, 1000⟩ ⟨5, 0⟩
          (run (fresh (fun _ => 0) ⟨[⟨0, 1000⟩], fun _ => 3⟩)
            [.cpufreq ⟨1000, 0⟩, .sched_switch ⟨0, 7, 0⟩ ⟨0, 5⟩])).2.uid_time_in_state_map
        ⟨1000, 0⟩ 0).ar 2 = 100 ∧
      (record zero_concurrent_val
        (tp_sched_switch ⟨0, 107, 1000⟩ ⟨5, 0⟩
          (run (fresh (fun _ => 0) ⟨[⟨0, 1000⟩], fun _ => 3⟩)
            [.cpufreq ⟨1000, 0⟩, .sched_switch ⟨0, 7, 0⟩ ⟨0, 5⟩])).2.uid_concurrent_times_map
        ⟨1000, 0⟩ 0).active 0 = 100 ∧
      (record zero_concurrent_val
        (tp_sched_switch ⟨0, 107, 1000⟩ ⟨5, 0⟩
          (run (fresh (fun _ => 0) ⟨[⟨0, 1000⟩], fun _ => 3⟩)
            [.cpufreq ⟨1000, 0⟩, .sched_switch ⟨0, 7, 0⟩ ⟨0, 5⟩])).2.uid_concurrent_times_map
        ⟨1000, 0⟩ 0).policy 0 = 100 ∧
      (record zero_time_in_state_val
        (tp_sched_switch ⟨0, 107, 1000⟩ ⟨5, 0⟩
          (run (fresh (fun _ => 0) ⟨[⟨0, 1000⟩], fun _ => 3⟩)
            [.cpufreq ⟨1000, 0⟩, .sched_switch ⟨0, 7, 0⟩ ⟨0, 5⟩])).2.uid_time_in_state_map
        ⟨1000, 0⟩ 0).ar 3 = 0 := by
  have hok : never_fails (fresh (fun _ => 0) ⟨[⟨0, 1000⟩], fun _ => 3⟩)
      [.cpufreq ⟨1000, 0⟩, .sched_switch ⟨0, 7, 0⟩ ⟨0, 5⟩,
        .sched_switch ⟨0, 107, 1000⟩ ⟨5, 0⟩] := by
    simp only [never_fails]
    exact ⟨fun _ => ⟨Or.inr (by decide), Or.inr (by decide), Or.inr (Or.inl rfl)⟩,
      fun _ => ⟨Or.inr (by decide), Or.inr (by decide), Or.inr (Or.inl rfl)⟩, trivial⟩
  have hatt : attributes
      (run (fresh (fun _ => 0) ⟨[⟨0, 1000⟩], fun _ => 3⟩)
        [.cpufreq ⟨1000, 0⟩, .sched_switch ⟨0, 7, 0⟩ ⟨0, 5⟩]) ⟨0, 107, 1000⟩ ⟨5, 0⟩ := by
    decide
  have hev := (cross_table_agreement (fresh (fun _ => 0) ⟨[⟨0, 1000⟩], fun _ => 3⟩) _ rfl rfl
    hok 1000).2.2 [.cpufreq ⟨1000, 0⟩, .sched_switch ⟨0, 7, 0⟩ ⟨0, 5⟩] [] ⟨0, 107, 1000⟩
    ⟨5, 0⟩ rfl hatt
  exact ⟨hok,
    ((cross_table_agreement (fresh (fun _ => 0) ⟨[⟨0, 1000⟩], fun _ => 3⟩) _ rfl rfl hok
      1000).1 0).1,
    by decide, by decide, by decide, hatt, (hev.1 ⟨1000, 0⟩ 0 2).trans (by decide), (hev.2.1 ⟨1000, 0⟩ 0 0).trans (by decide),
    (hev.2.2 ⟨1000, 0⟩ 0 0).trans (by decide), (hev.1 ⟨1000, 0⟩ 0 3).trans (by decide)⟩

end TimeInState
